import Mathlib

/-!
# smsir-cli: the interactive terminal UI engine

A shallow embedding of the Go sources under `internal/ui`, `internal/config`,
`internal/api` and `cmd/smsir/commands`, followed by theorems about it.

Conventions of the embedding:

* a Go `string` is a Lean `String` (a sequence of Unicode characters, i.e. a
  valid UTF-8 string); `len(s)` is the UTF-8 byte length, `[]rune(s)` is the
  list of characters;
* a Go `int`/`int64` is an `Int`; no arithmetic of the program comes near the
  machine bounds except `strconv.ParseInt`, whose range check is modelled;
* a pointer is an `Option`; dereferencing `nil` and indexing a slice out of
  range panic, and a panicking `Update` returns `none`;
* the clipboard and the credential file are fields of an explicit `World`
  that is passed through the handlers which touch them;
* a `tea.Cmd` is a value of the inductive type `Cmd`: the description of the
  effect, executed by the runtime outside of `Update`;
* rendering (`lipgloss`) is modelled by the structure of the text block that
  `View` selects, not by its escape sequences.
-/

namespace SmsirCli

/-! ## Go standard library: strings, unicode, strconv -/

/-- Go `len(s)` for a string: the number of bytes of its UTF-8 encoding. -/
def len (s : String) : Nat := s.utf8ByteSize

/-- Go `[]rune(s)`: the characters of a string. -/
def runes (s : String) : List Char := s.data

/-- Go `unicode.IsSpace`: the Latin-1 spaces and the `White_Space` table. -/
def unicode_IsSpace (r : Char) : Bool :=
  let n := r.toNat
  if n ≤ 0xFF then
    n = 0x09 || n = 0x0A || n = 0x0B || n = 0x0C || n = 0x0D || n = 0x20 || n = 0x85 || n = 0xA0
  else
    n = 0x1680 || (0x2000 ≤ n && n ≤ 0x200A) || n = 0x2028 || n = 0x2029 || n = 0x202F
      || n = 0x205F || n = 0x3000

/-- Go `strings.TrimSpace`: drops the leading and the trailing white space. -/
def strings_TrimSpace (s : String) : String :=
  String.mk (((s.data.dropWhile unicode_IsSpace).reverse.dropWhile unicode_IsSpace).reverse)

/-- Go `strings.ReplaceAll(s, old, new)` for a one-character `old`: every occurrence
of `old` is replaced by `new`. -/
def strings_ReplaceAll (s : String) (old : Char) (new : String) : String :=
  String.mk (s.data.flatMap fun c => if c = old then new.data else [c])

/-- The segments of a character list between the occurrences of `sep`. -/
def splitChars (sep : Char) : List Char → List (List Char)
  | [] => [[]]
  | c :: cs =>
    if c = sep then [] :: splitChars sep cs
    else
      match splitChars sep cs with
      | [] => [[c]]
      | seg :: segs => (c :: seg) :: segs

/-- Go `strings.Split(s, sep)` for a one-character `sep`; `Split("", ",")` is `[""]`. -/
def strings_Split (s : String) (sep : Char) : List String :=
  (splitChars sep s.data).map String.mk

/-- The two failures of `strconv.ParseInt`. -/
inductive NumErrKind
  | ErrSyntax
  | ErrRange
  deriving DecidableEq, Repr

/-- The digit value of an ASCII decimal digit, `none` for any other character. -/
def digitVal (c : Char) : Option Nat :=
  if 48 ≤ c.toNat ∧ c.toNat ≤ 57 then some (c.toNat - 48) else none

/-- The loop of `strconv.ParseUint(s, 10, 64)` over the characters of `s`, `n` being the
value read so far: a character that is not a decimal digit is a syntax error, and a value
that leaves the range of `uint64` is a range error. -/
def parseUintLoop : List Char → Nat → Except NumErrKind Nat
  | [], n => .ok n
  | c :: cs, n =>
    match digitVal c with
    | none => .error .ErrSyntax
    | some d =>
      if n ≥ (2 ^ 64 - 1) / 10 + 1 then .error .ErrRange
      else if n * 10 + d > 2 ^ 64 - 1 then .error .ErrRange
      else parseUintLoop cs (n * 10 + d)

/-- Go `strconv.ParseUint(s, 10, 64)`. -/
def strconv_ParseUint (s : List Char) : Except NumErrKind Nat :=
  match s with
  | [] => .error .ErrSyntax
  | _ => parseUintLoop s 0

/-- Go `strconv.ParseInt(s, 10, 64)`: an optional sign, then decimal digits, and the
value must fit in an `int64`. -/
def strconv_ParseInt (s : String) : Except NumErrKind Int :=
  match s.data with
  | [] => .error .ErrSyntax
  | c :: cs =>
    let neg := decide (c = '-')
    let rest := if c = '+' ∨ c = '-' then cs else c :: cs
    match strconv_ParseUint rest with
    | .error .ErrSyntax => .error .ErrSyntax
    | .error .ErrRange => .error .ErrRange
    | .ok un =>
      if !neg && un ≥ 2 ^ 63 then .error .ErrRange
      else if neg && un > 2 ^ 63 then .error .ErrRange
      else .ok (if neg then -(un : Int) else (un : Int))

/-- A Go `error` value, by the way it was built. -/
inductive GoError
  | errorf (text : String)
  | wrapNum (text : String) (func : String) (num : String) (kind : NumErrKind)
  | external (text : String)
  | wrap (text : String) (inner : GoError)
  deriving DecidableEq, Repr

/-- A Go `float64`, by its IEEE 754 bit pattern; the program only stores and prints it. -/
structure float64 where
  bits : Nat
  deriving DecidableEq, Repr

/-! ## bubbletea: keys and messages -/

/-- The key types of bubbletea that have a name, and `KeyRunes` for typed text. -/
inductive KeyType
  | KeyRunes
  | KeyEnter
  | KeyBackspace
  | KeyCtrlC
  | KeyCtrlV
  | KeyEsc
  | KeyUp
  | KeyDown
  | KeyLeft
  | KeyRight
  | KeyTab
  | KeySpace
  | KeyDelete
  | KeyUnknown
  deriving DecidableEq, Repr

/-- The table `keyNames` of bubbletea; a key type without an entry has no name. -/
def keyNames : KeyType → Option String
  | .KeyRunes => some "runes"
  | .KeyEnter => some "enter"
  | .KeyBackspace => some "backspace"
  | .KeyCtrlC => some "ctrl+c"
  | .KeyCtrlV => some "ctrl+v"
  | .KeyEsc => some "esc"
  | .KeyUp => some "up"
  | .KeyDown => some "down"
  | .KeyLeft => some "left"
  | .KeyRight => some "right"
  | .KeyTab => some "tab"
  | .KeySpace => some " "
  | .KeyDelete => some "delete"
  | .KeyUnknown => none

/-- The bubbletea `Key` carried by a `tea.KeyMsg`. -/
structure Key where
  keyType : KeyType
  Runes : List Char
  Alt : Bool
  Paste : Bool
  deriving DecidableEq, Repr

/-- The method `String()` of a bubbletea key: typed text for `KeyRunes` (between brackets
when pasted), the key name otherwise, after `alt+` when the alt modifier is set. -/
def KeyMsg_String (k : Key) : String :=
  let buf := if k.Alt then "alt+" else ""
  if k.keyType = .KeyRunes then
    buf ++ (if k.Paste then "[" else "") ++ String.mk k.Runes ++ (if k.Paste then "]" else "")
  else
    match keyNames k.keyType with
    | some s => buf ++ s
    | none => ""

/-- The key event of a named key without modifier. -/
def namedKey (t : KeyType) : Key := ⟨t, [], false, false⟩

/-- The runes key event (key type `KeyRunes`, no modifier) that carries the single
character `c`. -/
def runeKey (c : Char) : Key := ⟨.KeyRunes, [c], false, false⟩

/-! ## internal/config and internal/api -/

/-- The record `config.Config`. -/
structure Config where
  APIKey : String
  LineNumber : String
  BaseURL : String
  deriving DecidableEq, Repr

/-- The constant `defaultBaseURL`. -/
def defaultBaseURL : String := "https://api.sms.ir/v1"

/-- The function `config.DefaultConfig`. -/
def DefaultConfig : Config := ⟨"", "", defaultBaseURL⟩

/-- The method `Config.Validate`. -/
def Config.Validate (c : Config) : Except GoError Unit :=
  if c.APIKey = "" then .error (.errorf "api key is required")
  else if c.LineNumber = "" then .error (.errorf "line number is required")
  else .ok ()

/-- The record `api.Client` without its HTTP transport. -/
structure Client where
  config : Config
  baseURL : String
  deriving DecidableEq, Repr

/-- The function `api.NewClient`. -/
def NewClient (cfg : Config) : Client := ⟨cfg, cfg.BaseURL⟩

/-- The record `api.BulkSendRequest` (the scheduling time is never set by this program). -/
structure BulkSendRequest where
  LineNumber : Int
  MessageText : String
  Mobiles : List String
  deriving DecidableEq, Repr

/-- The record `api.BulkSendResponse`. -/
structure BulkSendResponse where
  PackID : String
  MessageIds : List Int
  Cost : float64
  deriving DecidableEq, Repr

/-- The record `api.APIResponse[T]`. -/
structure APIResponse (T : Type) where
  Status : Int
  Message : String
  Data : T
  deriving DecidableEq, Repr

/-- The method `APIResponse.IsSuccess`. -/
def APIResponse.IsSuccess {T : Type} (r : APIResponse T) : Bool := decide (r.Status = 1)

/-- The method `APIResponse.GetStatusMessage`. -/
def APIResponse.GetStatusMessage {T : Type} (r : APIResponse T) : String :=
  if r.Status = 0 then "Failed"
  else if r.Status = 1 then "Success"
  else "Unknown status: " ++ toString r.Status

/-- The environment of the synchronous handlers: the system clipboard as
`clipboard.ReadAll` reports it, the decoded content of the credential file (`none` when the
file does not exist), and whether loading or saving the file fails. -/
structure World where
  clipboard : Except String String
  stored : Option Config
  loadFails : Bool
  saveFails : Bool

/-- The function `config.LoadConfig`: a missing file is first created with the default
configuration. -/
def LoadConfig (w : World) : Except GoError Config × World :=
  if w.loadFails then (.error (.external "failed to read config file"), w)
  else
    match w.stored with
    | none => (.ok DefaultConfig, { w with stored := some DefaultConfig })
    | some c => (.ok c, w)

/-- The method `Config.SaveConfig`: the record replaces the content of the file. -/
def Config.SaveConfig (c : Config) (w : World) : Option GoError × World :=
  if w.saveFails then (some (.external "failed to write config file"), w)
  else (none, { w with stored := some c })

/-- The events delivered to `Update`: resize, key, the timer tick of the startup screen,
the results of the dashboard fetches and of the send effect, and any other message. -/
inductive Msg
  | WindowSizeMsg (Width Height : Int)
  | KeyMsg (k : Key)
  | tickMsg
  | creditMsg (c : float64)
  | linesMsg (l : List Int)
  | errMsg (e : GoError)
  | sendSuccessMsg (result : Option BulkSendResponse)
  | sendErrorMsg (err : Option GoError)
  | otherMsg
  deriving DecidableEq, Repr

/-! ## internal/ui: the screens -/

/-- The record `StartupModel`. -/
structure StartupModel where
  width : Int
  height : Int
  progress : Int
  quitting : Bool
  completed : Bool
  deriving DecidableEq, Repr

/-- The record `SelectorModel`. -/
structure SelectorModel where
  choices : List String
  cursor : Int
  Selected : String
  quitting : Bool
  width : Int
  height : Int
  deriving DecidableEq, Repr

/-- The record `ConfigModel`; `step` is 0 for the API key, 1 for the line number and 2 for
the confirmation. -/
structure ConfigModel where
  apiKey : String
  lineNumber : String
  cursor : Int
  quitting : Bool
  completed : Bool
  width : Int
  height : Int
  step : Int
  deriving DecidableEq, Repr

/-- The record `Model` of the dashboard. -/
structure Model where
  client : Option Client
  config : Option Config
  credit : float64
  lines : List Int
  loading : Bool
  err : Option GoError
  width : Int
  height : Int
  quitting : Bool
  deriving DecidableEq, Repr

/-- The record `SendModel`; `step` is 0 for the message, 1 for the mobiles, 2 for the
optional line number and 3 for the confirmation. -/
structure SendModel where
  client : Option Client
  config : Option Config
  messageText : String
  mobiles : String
  lineNumber : String
  quitting : Bool
  completed : Bool
  success : Bool
  result : Option BulkSendResponse
  err : Option GoError
  width : Int
  height : Int
  step : Int
  deriving DecidableEq, Repr

/-- The commands (`tea.Cmd`) this program returns from `Update` and `Init`. -/
inductive Cmd
  | nil
  | Quit
  | tickCmd
  | loadCredit (client : Option Client)
  | loadLines (client : Option Client)
  | Batch (cmds : List Cmd)
  | sendSMS (m : SendModel)

/-! ### selector.go -/

/-- The function `NewSelectorModel`. -/
def NewSelectorModel : SelectorModel :=
  { choices := ["🔧 Configure API Key & Line Number", "💻 Command Line Mode",
      "🎨 Interactive Dashboard"],
    cursor := 0, Selected := "", quitting := false, width := 0, height := 0 }

/-- Go slice indexing `xs[i]`, which panics out of range. -/
def index {α : Type} (xs : List α) (i : Int) : Option α :=
  if 0 ≤ i then xs.get? i.toNat else none

/-- The method `SelectorModel.Init`. -/
def SelectorModel.Init (_m : SelectorModel) : Cmd := .nil

/-- The method `SelectorModel.Update`; `none` is the panic of `m.choices[m.cursor]`. -/
def SelectorModel.Update (m : SelectorModel) (msg : Msg) : Option (SelectorModel × Cmd) :=
  match msg with
  | .WindowSizeMsg w h => some ({ m with width := w, height := h }, .nil)
  | .KeyMsg k =>
    let s := KeyMsg_String k
    if s = "ctrl+c" ∨ s = "q" then some ({ m with quitting := true }, .Quit)
    else if s = "enter" then
      match index m.choices m.cursor with
      | none => none
      | some c => some ({ m with Selected := c }, .Quit)
    else if s = "down" ∨ s = "j" then
      if m.cursor < (m.choices.length : Int) - 1 then some ({ m with cursor := m.cursor + 1 }, .nil)
      else some (m, .nil)
    else if s = "up" ∨ s = "k" then
      if m.cursor > 0 then some ({ m with cursor := m.cursor - 1 }, .nil)
      else some (m, .nil)
    else some (m, .nil)
  | _ => some (m, .nil)

/-! ### config.go (ui) -/

/-- The function `NewConfigModel`. -/
def NewConfigModel : ConfigModel :=
  { apiKey := "", lineNumber := "", cursor := 0, quitting := false, completed := false,
    width := 0, height := 0, step := 0 }

/-- The method `ConfigModel.Init`. -/
def ConfigModel.Init (_m : ConfigModel) : Cmd := .nil

/-- The value assigned to `cleanText` in the paste branches: the clipboard text without line
feeds, then trimmed of surrounding white space, then without carriage returns. -/
def cleanText (clipboardText : String) : String :=
  strings_ReplaceAll (strings_TrimSpace (strings_ReplaceAll clipboardText '\n' "")) '\r' ""

/-- Go `string(runes[:len(runes)-1])`. -/
def dropLastRune (rs : List Char) : String := String.mk (rs.take (rs.length - 1))

/-- The body of both paste branches of `ConfigModel.Update`. -/
def ConfigModel.pasteBranch (w : World) (m : ConfigModel) : ConfigModel :=
  match w.clipboard with
  | .error _ => m
  | .ok clipboardText =>
    if clipboardText ≠ "" then
      if m.step = 0 then { m with apiKey := cleanText clipboardText }
      else if m.step = 1 then { m with lineNumber := cleanText clipboardText }
      else m
    else m

/-- The method `ConfigModel.Update`. -/
def ConfigModel.Update (w : World) (m : ConfigModel) (msg : Msg) : ConfigModel × Cmd × World :=
  match msg with
  | .WindowSizeMsg wd ht => ({ m with width := wd, height := ht }, .nil, w)
  | .KeyMsg k =>
    if k.keyType = .KeyCtrlV then (m.pasteBranch w, .nil, w)
    else
      let s := KeyMsg_String k
      if s = "ctrl+c" ∨ s = "q" ∨ s = "esc" then ({ m with quitting := true }, .Quit, w)
      else if s = "ctrl+v" then (m.pasteBranch w, .nil, w)
      else if s = "enter" then
        if m.step = 2 then
          let cfg : Config :=
            { APIKey := m.apiKey, LineNumber := m.lineNumber, BaseURL := "https://api.sms.ir/v1" }
          match cfg.SaveConfig w with
          | (some _, w1) => ({ m with completed := false, quitting := true }, .Quit, w1)
          | (none, w1) => ({ m with completed := true }, .Quit, w1)
        else if m.step = 0 ∧ m.apiKey ≠ "" then ({ m with step := m.step + 1 }, .nil, w)
        else if m.step = 1 ∧ m.lineNumber ≠ "" then ({ m with step := m.step + 1 }, .nil, w)
        else (m, .nil, w)
      else if s = "backspace" then
        if m.step = 0 ∧ len m.apiKey > 0 then
          if (runes m.apiKey).length > 0 then
            ({ m with apiKey := dropLastRune (runes m.apiKey) }, .nil, w)
          else (m, .nil, w)
        else if m.step = 1 ∧ len m.lineNumber > 0 then
          if (runes m.lineNumber).length > 0 then
            ({ m with lineNumber := dropLastRune (runes m.lineNumber) }, .nil, w)
          else (m, .nil, w)
        else (m, .nil, w)
      else if k.keyType = .KeyRunes then
        if s ≠ "" then
          if m.step = 0 then ({ m with apiKey := m.apiKey ++ s }, .nil, w)
          else if m.step = 1 then ({ m with lineNumber := m.lineNumber ++ s }, .nil, w)
          else (m, .nil, w)
        else (m, .nil, w)
      else (m, .nil, w)
  | _ => (m, .nil, w)

/-- The handler `RunE` of `configSetCmd` (cmd/smsir/commands/config.go): the stored
configuration is loaded, its two credentials are replaced, and it is saved. -/
def configSetCmd (apiKey lineNumber : String) (w : World) : Option GoError × World :=
  if apiKey = "" then (some (.errorf "api key is required"), w)
  else if lineNumber = "" then (some (.errorf "line number is required"), w)
  else
    match LoadConfig w with
    | (.error _, w1) => (some (.errorf "error loading configuration"), w1)
    | (.ok cfg, w1) =>
      match ({ cfg with APIKey := apiKey, LineNumber := lineNumber } : Config).SaveConfig w1 with
      | (some _, w2) => (some (.errorf "error saving configuration"), w2)
      | (none, w2) => (none, w2)

/-! ### send.go (ui) -/

/-- The function `NewSendModel`. -/
def NewSendModel (client : Option Client) (cfg : Option Config) : SendModel :=
  { client := client, config := cfg, messageText := "", mobiles := "", lineNumber := "",
    quitting := false, completed := false, success := false, result := none, err := none,
    width := 0, height := 0, step := 0 }

/-- The method `SendModel.Init`. -/
def SendModel.Init (_m : SendModel) : Cmd := .nil

/-- The body of both paste branches of `SendModel.Update`. -/
def SendModel.pasteBranch (w : World) (m : SendModel) : SendModel :=
  match w.clipboard with
  | .error _ => m
  | .ok clipboardText =>
    if clipboardText ≠ "" then
      if m.step = 0 then { m with messageText := cleanText clipboardText }
      else if m.step = 1 then { m with mobiles := cleanText clipboardText }
      else if m.step = 2 then { m with lineNumber := cleanText clipboardText }
      else m
    else m

/-- The method `SendModel.Update`; `none` is the panic of `m.config.LineNumber` on a nil
configuration. -/
def SendModel.Update (w : World) (m : SendModel) (msg : Msg) : Option (SendModel × Cmd) :=
  match msg with
  | .WindowSizeMsg wd ht => some ({ m with width := wd, height := ht }, .nil)
  | .KeyMsg k =>
    if k.keyType = .KeyCtrlV then some (m.pasteBranch w, .nil)
    else
      let s := KeyMsg_String k
      if s = "ctrl+c" ∨ s = "q" ∨ s = "esc" then some ({ m with quitting := true }, .Quit)
      else if s = "ctrl+v" then some (m.pasteBranch w, .nil)
      else if s = "enter" then
        if m.step = 3 then some (m, .sendSMS m)
        else
          let advance : SendModel × Cmd :=
            if m.step = 0 ∧ m.messageText ≠ "" then ({ m with step := m.step + 1 }, .nil)
            else if m.step = 1 ∧ m.mobiles ≠ "" then ({ m with step := m.step + 1 }, .nil)
            else if m.step = 2 then ({ m with step := m.step + 1 }, .nil)
            else (m, .nil)
          if m.step = 2 then
            if m.lineNumber = "" then
              match m.config with
              | none => none
              | some cfg =>
                if cfg.LineNumber ≠ "" then some ({ m with step := m.step + 1 }, .nil)
                else some advance
            else some advance
          else some advance
      else if s = "backspace" then
        if m.step = 0 ∧ len m.messageText > 0 then
          if (runes m.messageText).length > 0 then
            some ({ m with messageText := dropLastRune (runes m.messageText) }, .nil)
          else some (m, .nil)
        else if m.step = 1 ∧ len m.mobiles > 0 then
          if (runes m.mobiles).length > 0 then
            some ({ m with mobiles := dropLastRune (runes m.mobiles) }, .nil)
          else some (m, .nil)
        else if m.step = 2 ∧ len m.lineNumber > 0 then
          if (runes m.lineNumber).length > 0 then
            some ({ m with lineNumber := dropLastRune (runes m.lineNumber) }, .nil)
          else some (m, .nil)
        else some (m, .nil)
      else if k.keyType = .KeyRunes then
        if s ≠ "" then
          if m.step = 0 then some ({ m with messageText := m.messageText ++ s }, .nil)
          else if m.step = 1 then some ({ m with mobiles := m.mobiles ++ s }, .nil)
          else if m.step = 2 then some ({ m with lineNumber := m.lineNumber ++ s }, .nil)
          else some (m, .nil)
        else some (m, .nil)
      else some (m, .nil)
  | .sendSuccessMsg result => some ({ m with success := true, result := result, completed := true }, .nil)
  | .sendErrorMsg err => some ({ m with err := err, completed := true }, .nil)
  | _ => some (m, .nil)

/-- The remote submit operation `Client.SendBulk`, as an answer to each request. -/
abbrev Remote := BulkSendRequest → Except GoError (APIResponse BulkSendResponse)

/-- The outcome of running an effect: the message it resolves to and the requests it
submitted to the remote, in order. -/
structure EffectRun where
  msg : Msg
  calls : List BulkSendRequest
  deriving DecidableEq, Repr

/-- The closure returned by the method `SendModel.sendSMS`, run against a remote; `none` is
the panic of a nil configuration or a nil client. -/
def SendModel.sendSMS (m : SendModel) (remote : Remote) : Option EffectRun :=
  let mobilesList := (strings_Split m.mobiles ',').map strings_TrimSpace
  let resolved : Option String :=
    if m.lineNumber = "" then m.config.map (fun cfg => cfg.LineNumber) else some m.lineNumber
  match resolved with
  | none => none
  | some lineNumberStr =>
    if lineNumberStr = "" then
      some ⟨.sendErrorMsg (some (.errorf "line number is required")), []⟩
    else
      match strconv_ParseInt lineNumberStr with
      | .error kind =>
        some ⟨.sendErrorMsg (some (.wrapNum "invalid line number: " "ParseInt" lineNumberStr kind)), []⟩
      | .ok lineNumber =>
        let req : BulkSendRequest :=
          { LineNumber := lineNumber, MessageText := m.messageText, Mobiles := mobilesList }
        match m.client with
        | none => none
        | some _ =>
          match remote req with
          | .error e => some ⟨.sendErrorMsg (some e), [req]⟩
          | .ok resp =>
            if !resp.IsSuccess then
              some ⟨.sendErrorMsg (some (.errorf ("API error: " ++ resp.GetStatusMessage))), [req]⟩
            else some ⟨.sendSuccessMsg (some resp.Data), [req]⟩

/-- The text block of the send wizard: the cancellation line, one of the two fixed summary
views, or the page of the step the wizard is on. -/
inductive SendView
  | cancelled
  | renderSuccess (result : BulkSendResponse)
  | renderError (err : Option GoError)
  | page (step : Int)
  deriving DecidableEq, Repr

/-- The method `SendModel.View`; `none` is the panic of `m.result.PackID` on a nil result. -/
def SendModel.View (m : SendModel) : Option SendView :=
  if m.quitting ∧ ¬ m.completed then some .cancelled
  else if m.completed then
    if m.success then
      match m.result with
      | none => none
      | some r => some (.renderSuccess r)
    else some (.renderError m.err)
  else some (.page m.step)

/-- The handler `RunE` of `sendCmd` (cmd/smsir/commands/send.go), for the loaded
configuration `cfg` and the values `message`, `mobilesStr` and `lineNumberStr` of the
flags `message`, `to` and `line`: the error it returns (`none` for success) and the
requests it submitted to the remote. -/
def sendCmd (cfg : Config) (message mobilesStr lineNumberStr : String) (remote : Remote) :
    Option GoError × List BulkSendRequest :=
  if message = "" then (some (.errorf "message is required"), [])
  else if mobilesStr = "" then (some (.errorf "to mobiles is required"), [])
  else
    let mobiles := (strings_Split mobilesStr ',').map strings_TrimSpace
    let parsed : Except GoError Int :=
      if lineNumberStr ≠ "" then
        match strconv_ParseInt lineNumberStr with
        | .error kind => .error (.wrapNum "invalid line number: " "ParseInt" lineNumberStr kind)
        | .ok n => .ok n
      else if cfg.LineNumber = "" then
        .error (.errorf "line number is required (use --line flag or configure it)")
      else
        match strconv_ParseInt cfg.LineNumber with
        | .error kind =>
          .error (.wrapNum "invalid line number in config: " "ParseInt" cfg.LineNumber kind)
        | .ok n => .ok n
    match parsed with
    | .error e => (some e, [])
    | .ok lineNumber =>
      let req : BulkSendRequest :=
        { LineNumber := lineNumber, MessageText := message, Mobiles := mobiles }
      match remote req with
      | .error e => (some (.wrap "error sending SMS: " e), [req])
      | .ok resp =>
        if !resp.IsSuccess then (some (.errorf ("API error: " ++ resp.GetStatusMessage)), [req])
        else (none, [req])

/-! ### dashboard.go -/

/-- The function `NewModel`. -/
def NewModel (client : Option Client) (config : Option Config) : Model :=
  { client := client, config := config, credit := ⟨0⟩, lines := [], loading := true,
    err := none, width := 0, height := 0, quitting := false }

/-- The method `Model.Init`: both fetches, as one batch. -/
def Model.Init (m : Model) : Cmd := .Batch [.loadCredit m.client, .loadLines m.client]

/-- The method `Model.Update`. -/
def Model.Update (m : Model) (msg : Msg) : Model × Cmd :=
  match msg with
  | .WindowSizeMsg wd ht => ({ m with width := wd, height := ht }, .nil)
  | .KeyMsg k =>
    let s := KeyMsg_String k
    if s = "q" ∨ s = "ctrl+c" then ({ m with quitting := true }, .Quit)
    else if s = "r" then (m, .Batch [.loadCredit m.client, .loadLines m.client])
    else (m, .nil)
  | .creditMsg c => ({ m with credit := c, loading := false }, .nil)
  | .linesMsg l => ({ m with lines := l, loading := false }, .nil)
  | .errMsg e => ({ m with err := some e, loading := false }, .nil)
  | _ => (m, .nil)

/-- The part of the dashboard page below the header. -/
inductive DashboardBody
  | renderLoading
  | renderError (err : GoError)
  | renderContent (credit : float64) (lines : List Int)
  deriving DecidableEq, Repr

/-- The text block of the dashboard: empty, or the header followed by a body. -/
inductive DashboardView
  | empty
  | page (body : DashboardBody)
  deriving DecidableEq, Repr

/-- The method `Model.View`. -/
def Model.View (m : Model) : DashboardView :=
  if m.quitting then .empty
  else if m.loading then .page .renderLoading
  else
    match m.err with
    | some e => .page (.renderError e)
    | none => .page (.renderContent m.credit m.lines)

/-! ### startup.go -/

/-- The function `NewStartupModel`. -/
def NewStartupModel : StartupModel :=
  { width := 0, height := 0, progress := 0, quitting := false, completed := false }

/-- The method `StartupModel.Init`. -/
def StartupModel.Init (_m : StartupModel) : Cmd := .tickCmd

/-- The method `StartupModel.Update`. -/
def StartupModel.Update (m : StartupModel) (msg : Msg) : StartupModel × Cmd :=
  match msg with
  | .WindowSizeMsg wd ht => ({ m with width := wd, height := ht }, .nil)
  | .KeyMsg k =>
    let s := KeyMsg_String k
    if s = "q" ∨ s = "ctrl+c" ∨ s = "esc" then ({ m with quitting := true }, .Quit)
    else (m, .nil)
  | .tickMsg =>
    if m.progress < 100 then ({ m with progress := m.progress + 2 }, .tickCmd)
    else ({ m with completed := true }, .Quit)
  | _ => (m, .nil)

/-! ### launcher.go -/

/-- The launcher state constant `stateStartup`. -/
def stateStartup : String := "startup"
/-- The launcher state constant `stateSelector`. -/
def stateSelector : String := "selector"
/-- The launcher state constant `stateConfig`. -/
def stateConfig : String := "config"
/-- The launcher state constant `stateDashboard`. -/
def stateDashboard : String := "dashboard"
/-- The launcher state constant `stateSend`. -/
def stateSend : String := "send"
/-- The launcher state constant `stateDone`. -/
def stateDone : String := "done"
/-- The launcher state constant `stateHelp`. -/
def stateHelp : String := "help"
/-- The launcher state constant `stateExit`. -/
def stateExit : String := "exit"

/-- The record `LauncherModel`. -/
structure LauncherModel where
  state : String
  startup : StartupModel
  selector : SelectorModel
  config : ConfigModel
  dashboard : Model
  send : SendModel
  width : Int
  height : Int
  helpOutput : String
  shouldRunHelp : Bool
  deriving DecidableEq, Repr

/-- The function `NewLauncherModel`; the screens it does not name are Go zero values. -/
def NewLauncherModel : LauncherModel :=
  { state := stateStartup,
    startup := NewStartupModel,
    selector := NewSelectorModel,
    config :=
      { apiKey := "", lineNumber := "", cursor := 0, quitting := false, completed := false,
        width := 0, height := 0, step := 0 },
    dashboard :=
      { client := none, config := none, credit := ⟨0⟩, lines := [], loading := false,
        err := none, width := 0, height := 0, quitting := false },
    send :=
      { client := none, config := none, messageText := "", mobiles := "", lineNumber := "",
        quitting := false, completed := false, success := false, result := none, err := none,
        width := 0, height := 0, step := 0 },
    width := 0, height := 0, helpOutput := "", shouldRunHelp := false }

/-- The method `LauncherModel.Init`. -/
def LauncherModel.Init (m : LauncherModel) : Cmd := m.startup.Init

/-- The statements that end most branches of the launcher: the state becomes the selector
state and the selector is a new one with the dimensions of the launcher. -/
def LauncherModel.toFreshSelector (m : LauncherModel) : LauncherModel × Cmd :=
  let sel : SelectorModel := { NewSelectorModel with width := m.width, height := m.height }
  ({ m with state := stateSelector, selector := sel }, sel.Init)

/-- The method `LauncherModel.handleSelection`. -/
def LauncherModel.handleSelection (w : World) (m : LauncherModel) : LauncherModel × Cmd × World :=
  if m.selector.Selected = "🔧 Configure API Key & Line Number" then
    ({ m with state := stateConfig,
              config := { NewConfigModel with width := m.width, height := m.height } }, .nil, w)
  else if m.selector.Selected = "📤 Send SMS" then
    match LoadConfig w with
    | (.error _, w1) => (m.toFreshSelector.1, m.toFreshSelector.2, w1)
    | (.ok cfg, w1) =>
      match cfg.Validate with
      | .error _ => (m.toFreshSelector.1, m.toFreshSelector.2, w1)
      | .ok _ =>
        let client := NewClient cfg
        let send : SendModel :=
          { (NewSendModel (some client) (some cfg)) with width := m.width, height := m.height }
        ({ m with state := stateSend, send := send }, send.Init, w1)
  else if m.selector.Selected = "💻 Command Line Mode" then
    ({ m with shouldRunHelp := true, state := stateExit }, .Quit, w)
  else if m.selector.Selected = "📊 Dashboard" then
    match LoadConfig w with
    | (.error _, w1) => (m.toFreshSelector.1, m.toFreshSelector.2, w1)
    | (.ok cfg, w1) =>
      match cfg.Validate with
      | .error _ => (m.toFreshSelector.1, m.toFreshSelector.2, w1)
      | .ok _ =>
        let client := NewClient cfg
        let dashboard : Model :=
          { (NewModel (some client) (some cfg)) with width := m.width, height := m.height }
        ({ m with state := stateDashboard, dashboard := dashboard }, dashboard.Init, w1)
  else (m.toFreshSelector.1, m.toFreshSelector.2, w)

/-- The `default` arm of the type switch of `LauncherModel.Update`: the event goes to the
active screen; `none` is a panic of that screen. -/
def LauncherModel.updateActive (w : World) (m : LauncherModel) (msg : Msg) :
    Option (LauncherModel × Cmd × World) :=
  if m.state = stateStartup then
    let (sm, cmd) := m.startup.Update msg
    let m1 := { m with startup := sm }
    if m1.startup.completed then some ({ m1 with state := stateSelector }, m1.selector.Init, w)
    else some (m1, cmd, w)
  else if m.state = stateSelector then
    match m.selector.Update msg with
    | none => none
    | some (sm, cmd) =>
      let m1 := { m with selector := sm }
      if m1.selector.Selected ≠ "" then some (m1.handleSelection w)
      else if m1.selector.quitting then some ({ m1 with state := stateDone }, .Quit, w)
      else some (m1, cmd, w)
  else if m.state = stateConfig then
    let (cm, cmd, w1) := m.config.Update w msg
    let m1 := { m with config := cm }
    if m1.config.completed then some (m1.toFreshSelector.1, m1.toFreshSelector.2, w1)
    else if m1.config.quitting then some (m1.toFreshSelector.1, m1.toFreshSelector.2, w1)
    else some (m1, cmd, w1)
  else if m.state = stateDashboard then
    let (dm, cmd) := m.dashboard.Update msg
    let m1 := { m with dashboard := dm }
    if m1.dashboard.quitting then some (m1.toFreshSelector.1, m1.toFreshSelector.2, w)
    else some (m1, cmd, w)
  else if m.state = stateSend then
    match m.send.Update w msg with
    | none => none
    | some (sm, cmd) =>
      let m1 := { m with send := sm }
      if m1.send.quitting then some (m1.toFreshSelector.1, m1.toFreshSelector.2, w)
      else some (m1, cmd, w)
  else if m.state = stateHelp then
    match msg with
    | .KeyMsg k =>
      let s := KeyMsg_String k
      if s = "q" ∨ s = "ctrl+c" ∨ s = "enter" ∨ s = "esc" then some (m, .Quit, w)
      else some (m, .nil, w)
    | _ => some (m, .nil, w)
  else if m.state = stateDone ∨ m.state = stateExit then some (m, .Quit, w)
  else some (m, .nil, w)

/-- The method `LauncherModel.Update`: a resize is stored by the launcher and by the screens
that are active or already sized; any other event goes to the active screen. -/
def LauncherModel.Update (w : World) (m : LauncherModel) (msg : Msg) :
    Option (LauncherModel × Cmd × World) :=
  match msg with
  | .WindowSizeMsg wd ht =>
    let m1 : LauncherModel :=
      { m with width := wd, height := ht,
               startup := { m.startup with width := wd, height := ht },
               selector := { m.selector with width := wd, height := ht } }
    let m2 : LauncherModel :=
      if m1.config.width > 0 ∨ m1.state = stateConfig then
        { m1 with config := { m1.config with width := wd, height := ht } }
      else m1
    let m3 : LauncherModel :=
      if m2.dashboard.width > 0 ∨ m2.state = stateDashboard then
        { m2 with dashboard := { m2.dashboard with width := wd, height := ht } }
      else m2
    let m4 : LauncherModel :=
      if m3.send.width > 0 ∨ m3.state = stateSend then
        { m3 with send := { m3.send with width := wd, height := ht } }
      else m3
    some (m4, .nil, w)
  | _ => m.updateActive w msg

/-- The method `LauncherModel.ShouldRunHelp`. -/
def LauncherModel.ShouldRunHelp (m : LauncherModel) : Bool := m.shouldRunHelp

/-! ## Runs of a screen over a sequence of events -/

/-- The selector after a sequence of events, `none` when a handler panics. -/
def SelectorModel.run (m : SelectorModel) : List Msg → Option SelectorModel
  | [] => some m
  | msg :: rest =>
    match m.Update msg with
    | none => none
    | some (m1, _) => SelectorModel.run m1 rest

/-- A key press that moves the selector cursor up. -/
def isUpKey (k : Key) : Prop := KeyMsg_String k = "up" ∨ KeyMsg_String k = "k"

/-- A key press that moves the selector cursor down. -/
def isDownKey (k : Key) : Prop := KeyMsg_String k = "down" ∨ KeyMsg_String k = "j"

instance (k : Key) : Decidable (isUpKey k) := by unfold isUpKey; infer_instance

instance (k : Key) : Decidable (isDownKey k) := by unfold isDownKey; infer_instance

/-- A cursor move over `n` choices that saturates at both ends: down stops at `n - 1`, up
stops at `0`. -/
def saturatingMove (n : Int) (c : Int) (k : Key) : Int :=
  if isDownKey k then min (c + 1) (n - 1) else max (c - 1) 0

/-- The configuration wizard after a sequence of events, with the world it leaves. -/
def ConfigModel.run (w : World) (m : ConfigModel) : List Msg → ConfigModel × World
  | [] => (m, w)
  | msg :: rest => ConfigModel.run (m.Update w msg).2.2 (m.Update w msg).1 rest

/-- The send wizard after a sequence of events, `none` when a handler panics. -/
def SendModel.run (w : World) (m : SendModel) : List Msg → Option SendModel
  | [] => some m
  | msg :: rest =>
    match m.Update w msg with
    | none => none
    | some (m1, _) => SendModel.run w m1 rest

/-- The draft of the step the configuration wizard is on; the confirmation step has none. -/
def ConfigModel.draft (m : ConfigModel) : Option String :=
  if m.step = 0 then some m.apiKey else if m.step = 1 then some m.lineNumber else none

/-- The configuration wizard with the draft of its current step replaced, all else equal. -/
def ConfigModel.setDraft (m : ConfigModel) (s : String) : ConfigModel :=
  if m.step = 0 then { m with apiKey := s }
  else if m.step = 1 then { m with lineNumber := s }
  else m

/-- The draft of the step the send wizard is on; the confirmation step has none. -/
def SendModel.draft (m : SendModel) : Option String :=
  if m.step = 0 then some m.messageText
  else if m.step = 1 then some m.mobiles
  else if m.step = 2 then some m.lineNumber
  else none

/-- The send wizard with the draft of its current step replaced, all else equal. -/
def SendModel.setDraft (m : SendModel) (s : String) : SendModel :=
  if m.step = 0 then { m with messageText := s }
  else if m.step = 1 then { m with mobiles := s }
  else if m.step = 2 then { m with lineNumber := s }
  else m

/-- The runes key events that carry the characters `cs`, one character each. -/
def runeKeys (cs : List Char) : List Msg := cs.map fun c => Msg.KeyMsg (runeKey c)

/-- The key event of the space bar as bubbletea delivers it: the key type is `KeySpace`,
not `KeyRunes`, and the event carries the space as its one rune. -/
def spaceKey : Key := ⟨.KeySpace, [' '], false, false⟩

/-- The key event that bubbletea delivers when the single character `c` is typed: the
space bar has a key type of its own, every other character comes as a runes key event. -/
def charKey (c : Char) : Key := if c = ' ' then spaceKey else runeKey c

/-- The events that are delivered when the characters `cs` are typed one by one. -/
def typeChars (cs : List Char) : List Msg := cs.map fun c => Msg.KeyMsg (charKey c)

/-- The events of `n` presses of the backspace key. -/
def backspaces (n : Nat) : List Msg := List.replicate n (Msg.KeyMsg (namedKey .KeyBackspace))

/-- A world whose clipboard cannot be read and whose credential file does not exist. -/
def quietWorld : World :=
  { clipboard := .error "clipboard unavailable", stored := none, loadFails := false,
    saveFails := false }

/-- The characters of a text that are neither a line feed nor a carriage return. -/
def stripLineBreaks (t : String) : String :=
  String.mk (t.data.filter fun c => c ≠ '\n' ∧ c ≠ '\r')

/-- A remote that accepts every request. -/
def acceptingRemote : Remote :=
  fun _ => .ok { Status := 1, Message := "ok", Data := { PackID := "p1", MessageIds := [1], Cost := ⟨0⟩ } }

/-- A send wizard on its confirmation step with the given drafts and configured line. -/
def confirmingSend (message mobiles line configured : String) : SendModel :=
  { (NewSendModel (some (NewClient ⟨"key", configured, defaultBaseURL⟩))
      (some ⟨"key", configured, defaultBaseURL⟩)) with
    messageText := message, mobiles := mobiles, lineNumber := line, step := 3 }

/-- A launcher on the configuration wizard whose previous selector had its cursor on the
last entry. -/
def launcherOnConfig : LauncherModel :=
  { NewLauncherModel with
    state := stateConfig,
    selector := { NewSelectorModel with cursor := 2, Selected := "🔧 Configure API Key & Line Number" },
    width := 80, height := 24 }

/-- A world whose credential file holds a base address other than the default one. -/
def customBaseWorld : World :=
  { quietWorld with stored := some ⟨"old-key", "1000", "https://sms.example.test/v1"⟩ }

/-- A configuration wizard on its confirmation step with the drafts `K` and `3000`. -/
def confirmingConfig : ConfigModel :=
  { NewConfigModel with apiKey := "K", lineNumber := "3000", step := 2 }

/-- A quit key of the two wizards: `ctrl+c`, `q` or `esc`. -/
def isQuitKey (k : Key) : Prop :=
  KeyMsg_String k = "ctrl+c" ∨ KeyMsg_String k = "q" ∨ KeyMsg_String k = "esc"

instance (k : Key) : Decidable (isQuitKey k) := by unfold isQuitKey; infer_instance

/-- The payload of the answer of `acceptingRemote`. -/
def acceptedPayload : BulkSendResponse := { PackID := "p1", MessageIds := [1], Cost := ⟨0⟩ }

/-- A launcher whose active screen is the given send wizard. -/
def launcherOnSend (sm : SendModel) : LauncherModel :=
  { NewLauncherModel with state := stateSend, send := sm, width := 80, height := 24 }

/-- The send wizard after its send has succeeded: on the Confirm step, completed, with the
payload of the answer. -/
def completedSend : SendModel :=
  { (confirmingSend "hi" "0912" "3000" "") with
    success := true, result := some acceptedPayload, completed := true }

/-- The balance 42.5 as a `float64`: sign 0, exponent 1028, fraction of 1.328125. -/
def credit42_5 : float64 := ⟨0x4045400000000000⟩

/-- The startup screen after `n` timer ticks. -/
def StartupModel.ticks (m : StartupModel) : Nat → StartupModel
  | 0 => m
  | n + 1 => StartupModel.ticks (m.Update .tickMsg).1 n

/-- The launcher states that the program can be in: the initial launcher, and every state
that `Update` returns from such a state for some event, in whatever world the event is
handled. -/
inductive LauncherModel.Reachable : LauncherModel → Prop
  | init : LauncherModel.Reachable NewLauncherModel
  | step {m m1 : LauncherModel} {cmd : Cmd} {w w1 : World} (msg : Msg) :
      LauncherModel.Reachable m → m.Update w msg = some (m1, cmd, w1) →
      LauncherModel.Reachable m1

/-- The launcher after a sequence of events, with the world it leaves; `none` when a handler
panics. -/
def LauncherModel.run (w : World) (m : LauncherModel) : List Msg → Option (LauncherModel × World)
  | [] => some (m, w)
  | msg :: rest =>
    match m.Update w msg with
    | none => none
    | some (m1, _, w1) => LauncherModel.run w1 m1 rest

/-- The initial launcher after the 50 ticks that fill the progress bar of the startup
screen. -/
def launcherAtFullBar : LauncherModel :=
  { NewLauncherModel with startup := { NewStartupModel with progress := 100 } }

/-- A world whose credential file holds valid credentials. -/
def validWorld : World :=
  { quietWorld with stored := some ⟨"key", "3000", defaultBaseURL⟩ }

/-- A launcher on the selector screen with the cursor on the entry of index `i`. -/
def launcherOnSelector (i : Int) : LauncherModel :=
  { NewLauncherModel with
    state := stateSelector,
    startup := { NewStartupModel with progress := 100, completed := true },
    selector := { NewSelectorModel with cursor := i } }

/-- The states of the configuration wizard that the program can be in: the new wizard, and
every state that `Update` returns from such a state for some event, in whatever world
(clipboard, credential file) the event is handled. -/
inductive ConfigModel.Reachable : ConfigModel → Prop
  | init : ConfigModel.Reachable NewConfigModel
  | step {m : ConfigModel} (w : World) (msg : Msg) :
      ConfigModel.Reachable m → ConfigModel.Reachable (m.Update w msg).1

/-- The steps of the configuration wizard with the drafts they presuppose: the Line step
has a non-empty API key, the Confirm step has both drafts non-empty. -/
def ConfigModel.stepsGuarded (m : ConfigModel) : Prop :=
  m.step = 0 ∨ (m.step = 1 ∧ m.apiKey ≠ "") ∨ (m.step = 2 ∧ m.apiKey ≠ "" ∧ m.lineNumber ≠ "")

/-- The events that fill a new configuration wizard with the drafts `K` and `3000`. -/
def fillConfigEvents : List Msg :=
  typeChars ['K'] ++ [.KeyMsg (namedKey .KeyEnter)] ++ typeChars ['3', '0', '0', '0'] ++
    [.KeyMsg (namedKey .KeyEnter)]

/-- The line text that a send uses: the given line text, or the configured default line when
the given one is empty. -/
def chosenLine (lineNumberStr configured : String) : String :=
  if lineNumberStr = "" then configured else lineNumberStr

/-- The launcher is waiting on its active screen: that screen has not signalled a
completion, a quit or a selection, which the launcher would have answered with a
transition. -/
def LauncherModel.Waiting (m : LauncherModel) : Prop :=
  (m.state = stateStartup → m.startup.completed = false) ∧
  (m.state = stateSelector → m.selector.Selected = "" ∧ m.selector.quitting = false) ∧
  (m.state = stateConfig → m.config.completed = false ∧ m.config.quitting = false) ∧
  (m.state = stateDashboard → m.dashboard.quitting = false) ∧
  (m.state = stateSend → m.send.quitting = false)

/-- The invariant of the launcher behind its menu: the selector has the three fixed choices,
the state is one of startup, selector, config, done and exit, the selector is untouched
while the startup screen runs, and the launcher is waiting on its active screen. -/
def LauncherModel.MenuInv (m : LauncherModel) : Prop :=
  m.selector.choices = NewSelectorModel.choices ∧
  (m.state = stateStartup ∨ m.state = stateSelector ∨ m.state = stateConfig ∨
    m.state = stateDone ∨ m.state = stateExit) ∧
  (m.state = stateStartup → m.selector.Selected = "" ∧ m.selector.quitting = false) ∧
  m.Waiting

/-- An effect-result event that arrives while the active screen is not the variant that
issues its kind of effect: a fetch result outside the dashboard, a send outcome outside the
send wizard, a timer tick outside the startup screen. -/
def staleResult (m : LauncherModel) : Msg → Prop
  | .creditMsg _ => m.state ≠ stateDashboard
  | .linesMsg _ => m.state ≠ stateDashboard
  | .errMsg _ => m.state ≠ stateDashboard
  | .sendSuccessMsg _ => m.state ≠ stateSend
  | .sendErrorMsg _ => m.state ≠ stateSend
  | .tickMsg => m.state ≠ stateStartup
  | _ => False

/-- The launcher after the command-line-mode entry has been chosen: in the exit state, with
the help flag set. -/
def launcherAtExit : LauncherModel :=
  { launcherOnSelector 1 with
    selector := { NewSelectorModel with cursor := 1, Selected := "💻 Command Line Mode" },
    shouldRunHelp := true, state := stateExit }

/-! ## Theorems -/

theorem selector_nav_step (m : SelectorModel) (k : Key) (hk : isUpKey k ∨ isDownKey k)
    (hlo : 0 ≤ m.cursor) (hhi : m.cursor ≤ (m.choices.length : Int) - 1) :
    m.Update (.KeyMsg k)
      = some ({ m with cursor := saturatingMove m.choices.length m.cursor k }, .nil) := by
  unfold isUpKey isDownKey at hk
  rcases hk with (h | h) | (h | h)
  · by_cases hc : m.cursor > 0
    · have : max (m.cursor - 1) 0 = m.cursor - 1 := by omega
      simp [SelectorModel.Update, saturatingMove, isDownKey, h, hc, this]
    · have : max (m.cursor - 1) 0 = m.cursor := by omega
      simp [SelectorModel.Update, saturatingMove, isDownKey, h, hc, this]
  · by_cases hc : m.cursor > 0
    · have : max (m.cursor - 1) 0 = m.cursor - 1 := by omega
      simp [SelectorModel.Update, saturatingMove, isDownKey, h, hc, this]
    · have : max (m.cursor - 1) 0 = m.cursor := by omega
      simp [SelectorModel.Update, saturatingMove, isDownKey, h, hc, this]
  · by_cases hc : m.cursor < (m.choices.length : Int) - 1
    · have : min (m.cursor + 1) ((m.choices.length : Int) - 1) = m.cursor + 1 := by omega
      simp [SelectorModel.Update, saturatingMove, isDownKey, h, hc, this]
    · have : min (m.cursor + 1) ((m.choices.length : Int) - 1) = m.cursor := by omega
      simp [SelectorModel.Update, saturatingMove, isDownKey, h, hc, this]
  · by_cases hc : m.cursor < (m.choices.length : Int) - 1
    · have : min (m.cursor + 1) ((m.choices.length : Int) - 1) = m.cursor + 1 := by omega
      simp [SelectorModel.Update, saturatingMove, isDownKey, h, hc, this]
    · have : min (m.cursor + 1) ((m.choices.length : Int) - 1) = m.cursor := by omega
      simp [SelectorModel.Update, saturatingMove, isDownKey, h, hc, this]

theorem saturatingMove_range (n c : Int) (k : Key) (hlo : 0 ≤ c) (hhi : c ≤ n - 1) :
    0 ≤ saturatingMove n c k ∧ saturatingMove n c k ≤ n - 1 := by
  unfold saturatingMove
  split <;> omega

theorem selector_run_nav (ks : List Key) :
    ∀ m : SelectorModel, (∀ k ∈ ks, isUpKey k ∨ isDownKey k) →
      0 ≤ m.cursor → m.cursor ≤ (m.choices.length : Int) - 1 →
      m.run (ks.map Msg.KeyMsg)
        = some { m with cursor := ks.foldl (saturatingMove m.choices.length) m.cursor } := by
  induction ks with
  | nil => intro m _ _ _; rfl
  | cons k ks ih =>
    intro m h hlo hhi
    have hk := h k (List.mem_cons_self k ks)
    have hrest : ∀ k1 ∈ ks, isUpKey k1 ∨ isDownKey k1 :=
      fun k1 hk1 => h k1 (List.mem_cons_of_mem k hk1)
    have hr := saturatingMove_range (m.choices.length : Int) m.cursor k hlo hhi
    simp only [List.map_cons, SelectorModel.run, selector_nav_step m k hk hlo hhi, List.foldl_cons]
    exact ih _ hrest hr.1 hr.2

theorem foldl_saturatingMove_range (n : Int) (ks : List Key) :
    ∀ c : Int, 0 ≤ c → c ≤ n - 1 →
      0 ≤ ks.foldl (saturatingMove n) c ∧ ks.foldl (saturatingMove n) c ≤ n - 1 := by
  induction ks with
  | nil => intro c hlo hhi; exact ⟨hlo, hhi⟩
  | cons k ks ih =>
    intro c hlo hhi
    have hr := saturatingMove_range n c k hlo hhi
    exact ih _ hr.1 hr.2

theorem selector_down_at_end (m : SelectorModel) (k : Key) (hk : isDownKey k)
    (hc : m.cursor = (m.choices.length : Int) - 1) : m.Update (.KeyMsg k) = some (m, .nil) := by
  have hn : ¬ m.cursor < (m.choices.length : Int) - 1 := by omega
  unfold isDownKey at hk
  rcases hk with h | h <;> simp [SelectorModel.Update, h, hn]

theorem selector_up_at_start (m : SelectorModel) (k : Key) (hk : isUpKey k)
    (hc : m.cursor = 0) : m.Update (.KeyMsg k) = some (m, .nil) := by
  unfold isUpKey at hk
  rcases hk with h | h <;> simp [SelectorModel.Update, h, hc]

/-- C1: for every sequence of up/down (or k/j) key presses applied to a new selector, the
run does not panic, the choices are untouched, the cursor stays within
`[0, len(choices) - 1]` and is the result of the saturating moves (no wraparound); from
the state reached, one more down at the last entry or up at the first entry changes
nothing. -/
theorem selector_cursor_saturates (ks : List Key) (h : ∀ k ∈ ks, isUpKey k ∨ isDownKey k) :
    ∃ m : SelectorModel,
      NewSelectorModel.run (ks.map Msg.KeyMsg) = some m ∧
      m.choices = NewSelectorModel.choices ∧
      0 ≤ m.cursor ∧ m.cursor ≤ (m.choices.length : Int) - 1 ∧
      m.cursor = ks.foldl (saturatingMove (NewSelectorModel.choices.length : Int)) 0 ∧
      (∀ k, isDownKey k → m.cursor = (m.choices.length : Int) - 1 →
        m.Update (.KeyMsg k) = some (m, .nil)) ∧
      (∀ k, isUpKey k → m.cursor = 0 → m.Update (.KeyMsg k) = some (m, .nil)) := by
  have hrun := selector_run_nav ks NewSelectorModel h (by decide) (by decide)
  have hr := foldl_saturatingMove_range (NewSelectorModel.choices.length : Int) ks 0
    (by decide) (by decide)
  exact ⟨_, hrun, rfl, hr.1, hr.2, rfl,
    fun k hk hc => selector_down_at_end _ k hk hc,
    fun k hk hc => selector_up_at_start _ k hk hc⟩

theorem selector_cursor_saturates_witness :
    ∃ m : SelectorModel,
      NewSelectorModel.run
        ([namedKey .KeyDown, runeKey 'j', namedKey .KeyDown, runeKey 'j', namedKey .KeyUp,
          runeKey 'k', runeKey 'k', namedKey .KeyUp].map Msg.KeyMsg) = some m ∧
      m.choices = NewSelectorModel.choices ∧
      0 ≤ m.cursor ∧ m.cursor ≤ (m.choices.length : Int) - 1 ∧
      m.cursor = [namedKey .KeyDown, runeKey 'j', namedKey .KeyDown, runeKey 'j',
          namedKey .KeyUp, runeKey 'k', runeKey 'k', namedKey .KeyUp].foldl
        (saturatingMove (NewSelectorModel.choices.length : Int)) 0 ∧
      (∀ k, isDownKey k → m.cursor = (m.choices.length : Int) - 1 →
        m.Update (.KeyMsg k) = some (m, .nil)) ∧
      (∀ k, isUpKey k → m.cursor = 0 → m.Update (.KeyMsg k) = some (m, .nil)) :=
  selector_cursor_saturates _ (by decide)

theorem len_pos_iff (s : String) : len s > 0 ↔ s ≠ "" := by
  cases s with
  | mk l =>
    cases l with
    | nil => simp [len, String.utf8ByteSize, String.utf8ByteSize.go]
    | cons c cs =>
      have := Char.utf8Size_pos c
      have hne : (String.mk (c :: cs)) ≠ "" := by
        intro h; exact absurd (congrArg String.data h) (by simp)
      simp only [len, String.utf8ByteSize, String.utf8ByteSize.go, gt_iff_lt, ne_eq, hne,
        not_false_eq_true, iff_true]
      omega

theorem runeKey_String (c : Char) : KeyMsg_String (runeKey c) = String.mk [c] := by
  simp [KeyMsg_String, runeKey]

theorem runeString_ne (c : Char) (hq : c ≠ 'q') :
    String.mk [c] ≠ "ctrl+c" ∧ String.mk [c] ≠ "q" ∧ String.mk [c] ≠ "esc" ∧
    String.mk [c] ≠ "ctrl+v" ∧ String.mk [c] ≠ "enter" ∧ String.mk [c] ≠ "backspace" ∧
    String.mk [c] ≠ "" := by
  refine ⟨?_, ?_, ?_, ?_, ?_, ?_, ?_⟩ <;> intro h <;> have h1 := congrArg String.data h <;>
    simp at h1
  exact hq h1

theorem backspace_String : KeyMsg_String (namedKey .KeyBackspace) = "backspace" := by
  simp [KeyMsg_String, namedKey, keyNames]

theorem dropLastRune_append (d : String) (c : Char) :
    dropLastRune (runes (d ++ String.mk [c])) = d := by
  apply String.ext
  simp [dropLastRune, runes]

theorem append_rune_ne_empty (d : String) (c : Char) : d ++ String.mk [c] ≠ "" := by
  intro h
  have h1 := congrArg String.data h
  simp at h1

theorem config_rune_step (w : World) (m : ConfigModel) (c : Char) (hq : c ≠ 'q')
    (hs : m.step = 0 ∨ m.step = 1) :
    ∃ d, m.draft = some d ∧
      m.Update w (.KeyMsg (runeKey c)) = (m.setDraft (d ++ String.mk [c]), .nil, w) := by
  obtain ⟨h1, h2, h3, h4, h5, h6, h7⟩ := runeString_ne c hq
  have hk : (runeKey c).keyType = .KeyRunes := rfl
  rcases hs with h | h
  · exact ⟨m.apiKey, by simp [ConfigModel.draft, h],
      by simp [ConfigModel.Update, ConfigModel.setDraft, runeKey_String, hk, h, h1, h2, h3, h4, h5, h6, h7]⟩
  · exact ⟨m.lineNumber, by simp [ConfigModel.draft, h],
      by simp [ConfigModel.Update, ConfigModel.setDraft, runeKey_String, hk, h, h1, h2, h3, h4, h5, h6, h7]⟩

theorem config_backspace_step (w : World) (m : ConfigModel) (d : String) (c : Char)
    (hs : m.step = 0 ∨ m.step = 1) :
    (m.setDraft (d ++ String.mk [c])).Update w (.KeyMsg (namedKey .KeyBackspace))
      = (m.setDraft d, .nil, w) := by
  have hk : (namedKey .KeyBackspace).keyType = .KeyBackspace := rfl
  have hne := append_rune_ne_empty d c
  have hlen : len (d ++ String.mk [c]) > 0 := (len_pos_iff _).2 hne
  have hr : (runes (d ++ String.mk [c])).length > 0 := by simp [runes]
  rcases hs with h | h
  · simp [ConfigModel.Update, ConfigModel.setDraft, backspace_String, hk, h, hlen, hr,
      dropLastRune_append]
  · simp [ConfigModel.Update, ConfigModel.setDraft, backspace_String, hk, h, hlen, hr,
      dropLastRune_append]

theorem config_setDraft_draft (m : ConfigModel) (d : String) (hs : m.step = 0 ∨ m.step = 1) :
    (m.setDraft d).draft = some d ∧ ((m.setDraft d).step = 0 ∨ (m.setDraft d).step = 1) ∧
      ∀ x, (m.setDraft d).setDraft x = m.setDraft x := by
  rcases hs with h | h <;> simp [ConfigModel.setDraft, ConfigModel.draft, h]

theorem config_setDraft_self (m : ConfigModel) (d : String) (hd : m.draft = some d) :
    m.setDraft d = m := by
  unfold ConfigModel.draft at hd
  unfold ConfigModel.setDraft
  split_ifs at hd ⊢ with h0 h1
  · cases m; simp_all
  · cases m; simp_all

theorem config_run_append (w : World) (m : ConfigModel) (xs ys : List Msg) :
    ConfigModel.run w m (xs ++ ys)
      = ConfigModel.run (ConfigModel.run w m xs).2 (ConfigModel.run w m xs).1 ys := by
  induction xs generalizing w m with
  | nil => rfl
  | cons x xs ih => simp only [List.cons_append, ConfigModel.run]; exact ih _ _

theorem config_type_run (w : World) (m : ConfigModel) (hs : m.step = 0 ∨ m.step = 1)
    (cs : List Char) (hq : 'q' ∉ cs) :
    ∀ d : String, ConfigModel.run w (m.setDraft d) (runeKeys cs)
      = (m.setDraft (d ++ String.mk cs), w) := by
  induction cs with
  | nil => intro d; simp [runeKeys, ConfigModel.run]
  | cons c cs ih =>
    intro d
    have hc : c ≠ 'q' := fun h => hq (by simp [h])
    have hcs : 'q' ∉ cs := fun h => hq (List.mem_cons_of_mem c h)
    obtain ⟨hd, hstep, hset⟩ := config_setDraft_draft m d hs
    obtain ⟨d1, hd1, hupd⟩ := config_rune_step w (m.setDraft d) c hc hstep
    rw [hd] at hd1
    cases hd1
    have ih1 := ih hcs (d ++ String.mk [c])
    simp only [runeKeys, List.map_cons, ConfigModel.run, hupd, hset]
    simp only [runeKeys] at ih1
    rw [ih1]
    have : d ++ String.mk [c] ++ String.mk cs = d ++ String.mk (c :: cs) := by
      apply String.ext; simp
    rw [this]

theorem config_backspace_run (w : World) (m : ConfigModel) (hs : m.step = 0 ∨ m.step = 1)
    (d : String) (cs : List Char) :
    ConfigModel.run w (m.setDraft (d ++ String.mk cs)) (backspaces cs.length)
      = (m.setDraft d, w) := by
  induction cs using List.reverseRecOn with
  | nil => simp [backspaces, ConfigModel.run]
  | append_singleton cs c ih =>
    have h1 : d ++ String.mk (cs ++ [c]) = (d ++ String.mk cs) ++ String.mk [c] := by
      apply String.ext; simp
    have h2 : backspaces (cs ++ [c]).length
        = Msg.KeyMsg (namedKey .KeyBackspace) :: backspaces cs.length := by
      simp [backspaces, List.replicate_succ]
    rw [h1, h2]
    simp only [ConfigModel.run, config_backspace_step w m _ c hs]
    exact ih

theorem send_rune_step (w : World) (m : SendModel) (c : Char) (hq : c ≠ 'q')
    (hs : m.step = 0 ∨ m.step = 1 ∨ m.step = 2) :
    ∃ d, m.draft = some d ∧
      m.Update w (.KeyMsg (runeKey c)) = some (m.setDraft (d ++ String.mk [c]), .nil) := by
  obtain ⟨h1, h2, h3, h4, h5, h6, h7⟩ := runeString_ne c hq
  have hk : (runeKey c).keyType = .KeyRunes := rfl
  rcases hs with h | h | h
  · exact ⟨m.messageText, by simp [SendModel.draft, h],
      by simp [SendModel.Update, SendModel.setDraft, runeKey_String, hk, h, h1, h2, h3, h4, h5, h6, h7]⟩
  · exact ⟨m.mobiles, by simp [SendModel.draft, h],
      by simp [SendModel.Update, SendModel.setDraft, runeKey_String, hk, h, h1, h2, h3, h4, h5, h6, h7]⟩
  · exact ⟨m.lineNumber, by simp [SendModel.draft, h],
      by simp [SendModel.Update, SendModel.setDraft, runeKey_String, hk, h, h1, h2, h3, h4, h5, h6, h7]⟩

theorem send_backspace_step (w : World) (m : SendModel) (d : String) (c : Char)
    (hs : m.step = 0 ∨ m.step = 1 ∨ m.step = 2) :
    (m.setDraft (d ++ String.mk [c])).Update w (.KeyMsg (namedKey .KeyBackspace))
      = some (m.setDraft d, .nil) := by
  have hk : (namedKey .KeyBackspace).keyType = .KeyBackspace := rfl
  have hne := append_rune_ne_empty d c
  have hlen : len (d ++ String.mk [c]) > 0 := (len_pos_iff _).2 hne
  have hr : (runes (d ++ String.mk [c])).length > 0 := by simp [runes]
  rcases hs with h | h | h
  · simp [SendModel.Update, SendModel.setDraft, backspace_String, hk, h, hlen, hr,
      dropLastRune_append]
  · simp [SendModel.Update, SendModel.setDraft, backspace_String, hk, h, hlen, hr,
      dropLastRune_append]
  · simp [SendModel.Update, SendModel.setDraft, backspace_String, hk, h, hlen, hr,
      dropLastRune_append]

theorem send_setDraft_draft (m : SendModel) (d : String)
    (hs : m.step = 0 ∨ m.step = 1 ∨ m.step = 2) :
    (m.setDraft d).draft = some d ∧
      ((m.setDraft d).step = 0 ∨ (m.setDraft d).step = 1 ∨ (m.setDraft d).step = 2) ∧
      ∀ x, (m.setDraft d).setDraft x = m.setDraft x := by
  rcases hs with h | h | h <;> simp [SendModel.setDraft, SendModel.draft, h]

theorem send_setDraft_self (m : SendModel) (d : String) (hd : m.draft = some d) :
    m.setDraft d = m := by
  unfold SendModel.draft at hd
  unfold SendModel.setDraft
  split_ifs at hd ⊢ with h0 h1 h2
  · cases m; simp_all
  · cases m; simp_all
  · cases m; simp_all

theorem send_run_append (w : World) (m : SendModel) (xs ys : List Msg) :
    SendModel.run w m (xs ++ ys) = (SendModel.run w m xs).bind fun m1 => SendModel.run w m1 ys := by
  induction xs generalizing m with
  | nil => rfl
  | cons x xs ih =>
    simp only [List.cons_append, SendModel.run]
    cases m.Update w x with
    | none => rfl
    | some r => exact ih _

theorem send_type_run (w : World) (m : SendModel) (hs : m.step = 0 ∨ m.step = 1 ∨ m.step = 2)
    (cs : List Char) (hq : 'q' ∉ cs) :
    ∀ d : String, SendModel.run w (m.setDraft d) (runeKeys cs)
      = some (m.setDraft (d ++ String.mk cs)) := by
  induction cs with
  | nil => intro d; simp [runeKeys, SendModel.run]
  | cons c cs ih =>
    intro d
    have hc : c ≠ 'q' := fun h => hq (by simp [h])
    have hcs : 'q' ∉ cs := fun h => hq (List.mem_cons_of_mem c h)
    obtain ⟨hd, hstep, hset⟩ := send_setDraft_draft m d hs
    obtain ⟨d1, hd1, hupd⟩ := send_rune_step w (m.setDraft d) c hc hstep
    rw [hd] at hd1
    cases hd1
    have ih1 := ih hcs (d ++ String.mk [c])
    simp only [runeKeys, List.map_cons, SendModel.run, hupd, hset]
    simp only [runeKeys] at ih1
    rw [ih1]
    have : d ++ String.mk [c] ++ String.mk cs = d ++ String.mk (c :: cs) := by
      apply String.ext; simp
    rw [this]

theorem send_backspace_run (w : World) (m : SendModel)
    (hs : m.step = 0 ∨ m.step = 1 ∨ m.step = 2) (d : String) (cs : List Char) :
    SendModel.run w (m.setDraft (d ++ String.mk cs)) (backspaces cs.length)
      = some (m.setDraft d) := by
  induction cs using List.reverseRecOn with
  | nil => simp [backspaces, SendModel.run]
  | append_singleton cs c ih =>
    have h1 : d ++ String.mk (cs ++ [c]) = (d ++ String.mk cs) ++ String.mk [c] := by
      apply String.ext; simp
    have h2 : backspaces (cs ++ [c]).length
        = Msg.KeyMsg (namedKey .KeyBackspace) :: backspaces cs.length := by
      simp [backspaces, List.replicate_succ]
    rw [h1, h2]
    simp only [SendModel.run, send_backspace_step w m _ c hs]
    exact ih

theorem config_draft_some (m : ConfigModel) (hs : m.step = 0 ∨ m.step = 1) :
    ∃ d, m.draft = some d := by
  rcases hs with h | h <;> simp [ConfigModel.draft, h]

theorem send_draft_some (m : SendModel) (hs : m.step = 0 ∨ m.step = 1 ∨ m.step = 2) :
    ∃ d, m.draft = some d := by
  rcases hs with h | h | h <;> simp [SendModel.draft, h]

theorem typeChars_eq_runeKeys (cs : List Char) (hs : ' ' ∉ cs) :
    typeChars cs = runeKeys cs := by
  unfold typeChars runeKeys
  apply List.map_congr_left
  intro c hc
  have : c ≠ ' ' := fun h => hs (h ▸ hc)
  simp [charKey, this]

/-- C2 (amended): on every text-collecting step of both wizards and for every prior draft,
handling the runes key events that carry the characters `cs`, none of which is the quit
key `q`, appends the characters to the draft of the step, and `cs.length` backspace events
after that give back the state before them, so the draft is the prior draft again: each
backspace removes one whole character. These runes key events are the events delivered
when `cs` is typed, as long as the space bar is not among the keys. -/
theorem type_then_backspace_roundtrip (w : World) (cs : List Char) (hq : 'q' ∉ cs) :
    (∀ m : ConfigModel, (m.step = 0 ∨ m.step = 1) →
      ∃ d, m.draft = some d ∧
        ConfigModel.run w m (runeKeys cs) = (m.setDraft (d ++ String.mk cs), w) ∧
        ConfigModel.run w m (runeKeys cs ++ backspaces cs.length) = (m, w)) ∧
    (∀ m : SendModel, (m.step = 0 ∨ m.step = 1 ∨ m.step = 2) →
      ∃ d, m.draft = some d ∧
        SendModel.run w m (runeKeys cs) = some (m.setDraft (d ++ String.mk cs)) ∧
        SendModel.run w m (runeKeys cs ++ backspaces cs.length) = some m) ∧
    (' ' ∉ cs → typeChars cs = runeKeys cs) := by
  refine ⟨?_, ?_, typeChars_eq_runeKeys cs⟩
  · intro m hs
    obtain ⟨d, hd⟩ := config_draft_some m hs
    have hself := config_setDraft_self m d hd
    have ht := config_type_run w m hs cs hq d
    have hb := config_backspace_run w m hs d cs
    rw [hself] at ht hb
    refine ⟨d, hd, ht, ?_⟩
    rw [config_run_append, ht]
    exact hb
  · intro m hs
    obtain ⟨d, hd⟩ := send_draft_some m hs
    have hself := send_setDraft_self m d hd
    have ht := send_type_run w m hs cs hq d
    have hb := send_backspace_run w m hs d cs
    rw [hself] at ht hb
    refine ⟨d, hd, ht, ?_⟩
    rw [send_run_append, ht]
    exact hb

theorem type_then_backspace_roundtrip_witness :
    (ConfigModel.run quietWorld { NewConfigModel with apiKey := "né" }
        (runeKeys ['a', 'é', '好'])).1.apiKey = "néaé好" ∧
    len "néaé好" = len "né" + 6 ∧
    ConfigModel.run quietWorld { NewConfigModel with apiKey := "né" }
        (runeKeys ['a', 'é', '好'] ++ backspaces 3)
      = ({ NewConfigModel with apiKey := "né" }, quietWorld) ∧
    SendModel.run quietWorld { (NewSendModel none none) with messageText := "né" }
        (runeKeys ['a', 'é', '好'] ++ backspaces 3)
      = some { (NewSendModel none none) with messageText := "né" } ∧
    typeChars ['a', 'é', '好'] = runeKeys ['a', 'é', '好'] := by
  obtain ⟨hc, hsnd, hty⟩ := type_then_backspace_roundtrip quietWorld ['a', 'é', '好']
    (by decide)
  obtain ⟨d, hd, ht, h⟩ := hc { NewConfigModel with apiKey := "né" } (Or.inl rfl)
  obtain ⟨d2, hd2, ht2, h2⟩ :=
    hsnd { (NewSendModel none none) with messageText := "né" } (Or.inl rfl)
  exact ⟨by decide, by decide, h, h2, hty (by decide)⟩

/-- C2 (counterexample): with the prior draft `ab`, typing the one character `q` and then
pressing backspace once leaves the draft `a` in both wizards: `q` is not appended, and the
backspace removes a character of the prior draft. In the same way, with the prior draft
`hi`, typing `a`, the space bar and `b` and then pressing backspace three times leaves the
draft `h`: the event of the space bar is not a runes key event and is not appended. -/
theorem type_q_then_backspace_loses_character :
    (ConfigModel.run quietWorld { NewConfigModel with apiKey := "ab" }
        (typeChars ['q'] ++ backspaces 1)).1.draft = some "a" ∧
    (SendModel.run quietWorld { (NewSendModel none none) with messageText := "ab" }
        (typeChars ['q'] ++ backspaces 1)).map SendModel.draft = some (some "a") ∧
    (ConfigModel.run quietWorld { NewConfigModel with apiKey := "hi" }
        (typeChars ['a', ' ', 'b'])).1.draft = some "hiab" ∧
    (ConfigModel.run quietWorld { NewConfigModel with apiKey := "hi" }
        (typeChars ['a', ' ', 'b'] ++ backspaces 3)).1.draft = some "h" ∧
    (SendModel.run quietWorld { (NewSendModel none none) with messageText := "hi" }
        (typeChars ['a', ' ', 'b'] ++ backspaces 3)).map SendModel.draft
      = some (some "h") := by
  decide

/-- C8 (amended): on every text-collecting step of both wizards, the key event that carries
a single character `c` other than `q` appends `c` to the draft of the step, returns no
command, and changes nothing else: the step and the quitting flag are as before. The
character `q` is a quit key: its event sets `quitting` and leaves the drafts. -/
theorem rune_key_appends (w : World) (c : Char) (hq : c ≠ 'q') :
    (∀ m : ConfigModel, (m.step = 0 ∨ m.step = 1) →
      ∃ d, m.draft = some d ∧
        m.Update w (.KeyMsg (runeKey c)) = (m.setDraft (d ++ String.mk [c]), .nil, w) ∧
        (m.setDraft (d ++ String.mk [c])).step = m.step ∧
        (m.setDraft (d ++ String.mk [c])).quitting = m.quitting) ∧
    (∀ m : SendModel, (m.step = 0 ∨ m.step = 1 ∨ m.step = 2) →
      ∃ d, m.draft = some d ∧
        m.Update w (.KeyMsg (runeKey c)) = some (m.setDraft (d ++ String.mk [c]), .nil) ∧
        (m.setDraft (d ++ String.mk [c])).step = m.step ∧
        (m.setDraft (d ++ String.mk [c])).quitting = m.quitting) ∧
    (∀ m : ConfigModel,
      m.Update w (.KeyMsg (runeKey 'q')) = ({ m with quitting := true }, .Quit, w)) ∧
    (∀ m : SendModel,
      m.Update w (.KeyMsg (runeKey 'q')) = some ({ m with quitting := true }, .Quit)) := by
  refine ⟨?_, ?_, ?_, ?_⟩
  · intro m hs
    obtain ⟨d, hd, hu⟩ := config_rune_step w m c hq hs
    refine ⟨d, hd, hu, ?_, ?_⟩ <;> rcases hs with h | h <;> simp [ConfigModel.setDraft, h]
  · intro m hs
    obtain ⟨d, hd, hu⟩ := send_rune_step w m c hq hs
    refine ⟨d, hd, hu, ?_, ?_⟩ <;> rcases hs with h | h | h <;> simp [SendModel.setDraft, h]
  · intro m
    have hk : (runeKey 'q').keyType = .KeyRunes := rfl
    have hs : KeyMsg_String (runeKey 'q') = "q" := by decide
    simp [ConfigModel.Update, hk, hs]
  · intro m
    have hk : (runeKey 'q').keyType = .KeyRunes := rfl
    have hs : KeyMsg_String (runeKey 'q') = "q" := by decide
    simp [SendModel.Update, hk, hs]

theorem rune_key_appends_witness :
    (NewConfigModel.Update quietWorld (.KeyMsg (runeKey 'é'))).1.apiKey = "é" ∧
    (NewConfigModel.Update quietWorld (.KeyMsg (runeKey 'é'))).1.step = 0 := by
  obtain ⟨d, hd, hu, h1, _⟩ := (rune_key_appends quietWorld 'é' (by decide)).1
    NewConfigModel (Or.inl rfl)
  have hd0 : d = "" := by
    have : NewConfigModel.draft = some "" := by decide
    rw [this] at hd
    exact (Option.some.inj hd).symm
  subst hd0
  rw [hu]
  exact ⟨by decide, by decide⟩

/-- C8 (counterexample): the key event that carries the printable character `q` is not
appended on the first step of a new wizard: the draft stays empty and the wizard quits. -/
theorem q_key_is_not_appended :
    (NewConfigModel.Update quietWorld (.KeyMsg (runeKey 'q'))).1.apiKey = "" ∧
    (NewConfigModel.Update quietWorld (.KeyMsg (runeKey 'q'))).1.quitting = true ∧
    ((NewSendModel none none).Update quietWorld (.KeyMsg (runeKey 'q'))).map
      (fun r => (r.1.messageText, r.1.quitting)) = some ("", true) := by
  decide

theorem replaceAll_empty_data (s : String) (c : Char) :
    (strings_ReplaceAll s c "").data = s.data.filter (fun x => x ≠ c) := by
  unfold strings_ReplaceAll
  cases s with
  | mk l =>
    induction l with
    | nil => rfl
    | cons x xs ih =>
      by_cases hx : x = c
      · simp_all [List.flatMap_cons]
      · simp_all [List.flatMap_cons]

theorem filter_dropWhile_comm (p q : Char → Bool) (hqp : ∀ c, q c = true → p c = true)
    (l : List Char) :
    (l.dropWhile p).filter (fun c => !q c) = (l.filter (fun c => !q c)).dropWhile p := by
  induction l with
  | nil => rfl
  | cons c cs ih =>
    by_cases hp : p c = true
    · by_cases hq : q c = true
      · simp [List.dropWhile_cons, List.filter_cons, hp, hq, ih]
      · simp [List.dropWhile_cons, List.filter_cons, hp, hq, ih]
    · have hq : ¬ q c = true := fun h => hp (hqp c h)
      simp [List.dropWhile_cons, List.filter_cons, hp, hq]

theorem cleanText_eq (t : String) : cleanText t = strings_TrimSpace (stripLineBreaks t) := by
  apply String.ext
  have hcr : ∀ c : Char, (decide (c = '\r')) = true → unicode_IsSpace c = true := by
    intro c hc
    have : c = '\r' := by simpa using hc
    subst this
    decide
  have e1 : ∀ l : List Char, l.filter (fun x => decide (x ≠ '\r'))
      = l.filter (fun c => !(decide (c = '\r'))) := by
    intro l; congr 1; funext x; simp
  simp only [cleanText, replaceAll_empty_data, strings_TrimSpace, stripLineBreaks]
  rw [e1, List.filter_reverse, filter_dropWhile_comm _ _ hcr, List.filter_reverse,
    filter_dropWhile_comm _ _ hcr, List.filter_filter]
  have e2 : (fun a : Char => (!decide (a = '\r') && decide (a ≠ '\n')))
      = (fun c : Char => decide (c ≠ '\n' ∧ c ≠ '\r')) := by
    funext x
    by_cases h1 : x = '\n' <;> by_cases h2 : x = '\r' <;> simp [h1, h2]
  rw [e2]

theorem trimSpace_spec (s : String) :
    ∃ pre post : List Char,
      s.data = pre ++ (strings_TrimSpace s).data ++ post ∧
      (∀ c ∈ pre, unicode_IsSpace c = true) ∧ (∀ c ∈ post, unicode_IsSpace c = true) ∧
      (∀ c, (strings_TrimSpace s).data.head? = some c → unicode_IsSpace c = false) ∧
      (∀ c, (strings_TrimSpace s).data.getLast? = some c → unicode_IsSpace c = false) := by
  have hx := List.takeWhile_append_dropWhile unicode_IsSpace s.data
  have hy := List.takeWhile_append_dropWhile unicode_IsSpace
    (s.data.dropWhile unicode_IsSpace).reverse
  have hy1 := congrArg List.reverse hy
  rw [List.reverse_append, List.reverse_reverse] at hy1
  have hlast : ∀ c, ((List.dropWhile unicode_IsSpace
      (s.data.dropWhile unicode_IsSpace).reverse).reverse).getLast? = some c →
      unicode_IsSpace c = false := by
    intro c hc
    rw [List.getLast?_reverse] at hc
    have := List.head?_dropWhile_not unicode_IsSpace (s.data.dropWhile unicode_IsSpace).reverse
    rw [hc] at this
    exact this
  refine ⟨s.data.takeWhile unicode_IsSpace,
    ((s.data.dropWhile unicode_IsSpace).reverse.takeWhile unicode_IsSpace).reverse, ?_, ?_, ?_, ?_,
    ?_⟩
  · simp only [strings_TrimSpace]
    rw [List.append_assoc, hy1, hx]
  · intro c hc
    exact List.mem_takeWhile_imp hc
  · intro c hc
    exact List.mem_takeWhile_imp (List.mem_reverse.1 hc)
  · intro c hc
    simp only [strings_TrimSpace] at hc
    have hne : (List.dropWhile unicode_IsSpace
        (s.data.dropWhile unicode_IsSpace).reverse).reverse ≠ [] := by
      intro h0; rw [h0] at hc; simp at hc
    have h1 := @List.head?_append_of_ne_nil _ _
      ((s.data.dropWhile unicode_IsSpace).reverse.takeWhile unicode_IsSpace).reverse hne
    rw [hy1, hc] at h1
    have := List.head?_dropWhile_not unicode_IsSpace s.data
    rw [h1] at this
    exact this
  · intro c hc
    exact hlast c hc

theorem config_paste_step (w : World) (t : String) (hw : w.clipboard = .ok t) (ht : t ≠ "")
    (k : Key) (hk : k.keyType = .KeyCtrlV ∨ KeyMsg_String k = "ctrl+v")
    (m : ConfigModel) (hs : m.step = 0 ∨ m.step = 1) :
    m.Update w (.KeyMsg k) = (m.setDraft (cleanText t), .nil, w) := by
  have hp : m.pasteBranch w = m.setDraft (cleanText t) := by
    rcases hs with h | h <;> simp [ConfigModel.pasteBranch, ConfigModel.setDraft, hw, ht, h]
  by_cases hc : k.keyType = .KeyCtrlV
  · simp [ConfigModel.Update, hc, hp]
  · have hv : KeyMsg_String k = "ctrl+v" := hk.resolve_left hc
    simp [ConfigModel.Update, hc, hv, hp]

theorem send_paste_step (w : World) (t : String) (hw : w.clipboard = .ok t) (ht : t ≠ "")
    (k : Key) (hk : k.keyType = .KeyCtrlV ∨ KeyMsg_String k = "ctrl+v")
    (m : SendModel) (hs : m.step = 0 ∨ m.step = 1 ∨ m.step = 2) :
    m.Update w (.KeyMsg k) = some (m.setDraft (cleanText t), .nil) := by
  have hp : m.pasteBranch w = m.setDraft (cleanText t) := by
    rcases hs with h | h | h <;> simp [SendModel.pasteBranch, SendModel.setDraft, hw, ht, h]
  by_cases hc : k.keyType = .KeyCtrlV
  · simp [SendModel.Update, hc, hp]
  · have hv : KeyMsg_String k = "ctrl+v" := hk.resolve_left hc
    simp [SendModel.Update, hc, hv, hp]

/-- C3 (amended): for every non-empty clipboard text `t` and every text-collecting step of
both wizards, a paste request (the ctrl+v key) replaces the draft of the step, whatever it
was, by `t` without its line feeds and carriage returns and without the white space that
then leads or trails it: interior characters are kept, the surrounding white space is
trimmed as well. -/
theorem paste_replaces_draft (w : World) (t : String) (hw : w.clipboard = .ok t) (ht : t ≠ "")
    (k : Key) (hk : k.keyType = .KeyCtrlV ∨ KeyMsg_String k = "ctrl+v") :
    (∀ m : ConfigModel, (m.step = 0 ∨ m.step = 1) →
      m.Update w (.KeyMsg k) = (m.setDraft (cleanText t), .nil, w)) ∧
    (∀ m : SendModel, (m.step = 0 ∨ m.step = 1 ∨ m.step = 2) →
      m.Update w (.KeyMsg k) = some (m.setDraft (cleanText t), .nil)) ∧
    cleanText t = strings_TrimSpace (stripLineBreaks t) ∧
    (∃ pre post : List Char,
      (stripLineBreaks t).data = pre ++ (cleanText t).data ++ post ∧
      (∀ c ∈ pre, unicode_IsSpace c = true) ∧ (∀ c ∈ post, unicode_IsSpace c = true) ∧
      (∀ c, (cleanText t).data.head? = some c → unicode_IsSpace c = false) ∧
      (∀ c, (cleanText t).data.getLast? = some c → unicode_IsSpace c = false)) := by
  refine ⟨fun m hs => config_paste_step w t hw ht k hk m hs,
    fun m hs => send_paste_step w t hw ht k hk m hs, cleanText_eq t, ?_⟩
  rw [cleanText_eq]
  exact trimSpace_spec (stripLineBreaks t)

theorem paste_replaces_draft_witness :
    ({ NewConfigModel with apiKey := "old" } : ConfigModel).Update
        { quietWorld with clipboard := .ok "A\nB\r\n" } (.KeyMsg (namedKey .KeyCtrlV))
      = ({ NewConfigModel with apiKey := "AB" },
          .nil, { quietWorld with clipboard := .ok "A\nB\r\n" }) := by
  have h := (paste_replaces_draft { quietWorld with clipboard := .ok "A\nB\r\n" } "A\nB\r\n"
    rfl (by decide) (namedKey .KeyCtrlV) (Or.inl rfl)).1
    { NewConfigModel with apiKey := "old" } (Or.inl rfl)
  rw [h]
  have hc : cleanText "A\nB\r\n" = "AB" := by decide
  rw [hc]
  rfl

/-- C3 (counterexample): with the clipboard text ` A B ` (a space before and after), a paste
on the first step of either wizard gives the draft `A B`, although the text has neither a
line feed nor a carriage return: more than the line breaks is removed. -/
theorem paste_trims_surrounding_spaces :
    (NewConfigModel.Update { quietWorld with clipboard := .ok " A B " }
        (.KeyMsg (namedKey .KeyCtrlV))).1.apiKey = "A B" ∧
    ((NewSendModel none none).Update { quietWorld with clipboard := .ok " A B " }
        (.KeyMsg (namedKey .KeyCtrlV))).map (fun r => r.1.messageText) = some "A B" ∧
    stripLineBreaks " A B " = " A B " := by
  decide

theorem splitChars_ne_nil (sep : Char) (l : List Char) : splitChars sep l ≠ [] := by
  cases l with
  | nil => simp [splitChars]
  | cons c cs =>
    unfold splitChars
    split_ifs
    · simp
    · split <;> simp

theorem splitChars_intercalate (sep : Char) (l : List Char) :
    [sep].intercalate (splitChars sep l) = l := by
  induction l with
  | nil => simp [splitChars, List.intercalate]
  | cons c cs ih =>
    have hne := splitChars_ne_nil sep cs
    unfold splitChars
    obtain ⟨seg, segs, hs⟩ := List.exists_cons_of_ne_nil hne
    rw [hs] at ih ⊢
    split_ifs with hc
    · subst hc
      rw [← ih]
      simp [List.intercalate, List.intersperse]
    · rw [← ih]
      cases segs <;> simp [List.intercalate, List.intersperse]

theorem splitChars_no_sep (sep : Char) (l : List Char) :
    ∀ seg ∈ splitChars sep l, sep ∉ seg := by
  induction l with
  | nil => simp [splitChars]
  | cons c cs ih =>
    have hne := splitChars_ne_nil sep cs
    obtain ⟨seg0, segs, hs⟩ := List.exists_cons_of_ne_nil hne
    unfold splitChars
    rw [hs] at ih ⊢
    split_ifs with hc
    · intro seg hseg
      rcases List.mem_cons.1 hseg with h | h
      · subst h; simp
      · exact ih seg h
    · intro seg hseg
      rcases List.mem_cons.1 hseg with h | h
      · subst h
        have := ih seg0 (List.mem_cons_self _ _)
        simp only [List.mem_cons, not_or]
        exact ⟨fun h => hc h.symm, this⟩
      · exact ih seg (List.mem_cons_of_mem _ h)

theorem sendSMS_calls (m : SendModel) (remote : Remote) (r : EffectRun)
    (h : m.sendSMS remote = some r) (req : BulkSendRequest) (hreq : req ∈ r.calls) :
    req.Mobiles = (strings_Split m.mobiles ',').map strings_TrimSpace ∧
    req.MessageText = m.messageText := by
  unfold SendModel.sendSMS at h
  simp only at h
  split at h
  · exact absurd h (by simp)
  · split_ifs at h with h1
    · cases h; simp at hreq
    · split at h
      · cases h; simp at hreq
      · split at h
        · exact absurd h (by simp)
        · split at h
          · cases h
            simp only [List.mem_singleton] at hreq
            subst hreq
            exact ⟨rfl, rfl⟩
          · split_ifs at h <;>
            · cases h
              simp only [List.mem_singleton] at hreq
              subst hreq
              exact ⟨rfl, rfl⟩

theorem sendSMS_with_line (m : SendModel) (remote : Remote) (lineNumberStr : String)
    (hres : (if m.lineNumber = "" then m.config.map (fun cfg => cfg.LineNumber)
      else some m.lineNumber) = some lineNumberStr)
    (hne : lineNumberStr ≠ "") (n : Int) (hp : strconv_ParseInt lineNumberStr = .ok n)
    (hcl : m.client ≠ none) :
    ∃ r, m.sendSMS remote = some r ∧
      r.calls = [{ LineNumber := n, MessageText := m.messageText,
                   Mobiles := (strings_Split m.mobiles ',').map strings_TrimSpace }] := by
  obtain ⟨cl, hcl⟩ := Option.ne_none_iff_exists'.1 hcl
  unfold SendModel.sendSMS
  simp only [hres, hne, if_false, hp, hcl]
  cases remote _ with
  | error e => exact ⟨_, rfl, rfl⟩
  | ok resp =>
    by_cases hs : resp.IsSuccess = true
    · simp [hs]
    · simp [hs]

/-- C4: for every mobiles draft, the send effect of the send wizard, whenever the line
it resolves (the line draft, or the configured line when that draft is empty) is a number,
submits exactly one request, and the recipient list of that request is the sequence of the
comma-separated segments of the mobiles draft, in order, each with its leading and trailing
white space removed: the segments joined by commas are the draft, no segment holds a
comma, and each recipient is its segment without the white space around it. No request
that the effect submits carries another recipient list. -/
theorem send_recipients_split_and_trimmed (m : SendModel) (remote : Remote) :
    ∃ segs : List String,
      [','].intercalate (segs.map String.data) = m.mobiles.data ∧
      (∀ seg ∈ segs, ',' ∉ seg.data) ∧
      (∀ seg ∈ segs, ∃ pre post : List Char,
        seg.data = pre ++ (strings_TrimSpace seg).data ++ post ∧
        (∀ c ∈ pre, unicode_IsSpace c = true) ∧ (∀ c ∈ post, unicode_IsSpace c = true) ∧
        (∀ c, (strings_TrimSpace seg).data.head? = some c → unicode_IsSpace c = false) ∧
        (∀ c, (strings_TrimSpace seg).data.getLast? = some c → unicode_IsSpace c = false)) ∧
      (∀ (lineNumberStr : String) (n : Int),
        (if m.lineNumber = "" then m.config.map (fun cfg => cfg.LineNumber)
          else some m.lineNumber) = some lineNumberStr →
        lineNumberStr ≠ "" → strconv_ParseInt lineNumberStr = .ok n → m.client ≠ none →
        ∃ r, m.sendSMS remote = some r ∧
          r.calls = [{ LineNumber := n, MessageText := m.messageText,
                       Mobiles := segs.map strings_TrimSpace }]) ∧
      (∀ (r : EffectRun) (req : BulkSendRequest), m.sendSMS remote = some r → req ∈ r.calls →
        req.Mobiles = segs.map strings_TrimSpace) := by
  refine ⟨strings_Split m.mobiles ',', ?_, ?_, ?_, ?_, ?_⟩
  · have : (strings_Split m.mobiles ',').map String.data = splitChars ',' m.mobiles.data := by
      simp [strings_Split, Function.comp_def]
    rw [this]
    exact splitChars_intercalate ',' m.mobiles.data
  · intro seg hseg
    simp only [strings_Split, List.mem_map] at hseg
    obtain ⟨l, hl, rfl⟩ := hseg
    exact splitChars_no_sep ',' m.mobiles.data l hl
  · intro seg _
    exact trimSpace_spec seg
  · intro lineNumberStr n hres hne hp hcl
    exact sendSMS_with_line m remote lineNumberStr hres hne n hp hcl
  · intro r req h hreq
    exact (sendSMS_calls m remote r h req hreq).1

theorem send_recipients_split_and_trimmed_witness :
    ∃ segs : List String,
      [','].intercalate (segs.map String.data) = " 0912,0913 ,0914".data ∧
      (∀ seg ∈ segs, ',' ∉ seg.data) ∧
      (∃ r, (confirmingSend "hi" " 0912,0913 ,0914" "3000" "").sendSMS acceptingRemote
          = some r ∧
        r.calls = [{ LineNumber := 3000, MessageText := "hi",
                     Mobiles := segs.map strings_TrimSpace }]) ∧
      (confirmingSend "hi" " 0912,0913 ,0914" "3000" "").sendSMS acceptingRemote
        = some ⟨.sendSuccessMsg (some { PackID := "p1", MessageIds := [1], Cost := ⟨0⟩ }),
            [{ LineNumber := 3000, MessageText := "hi",
               Mobiles := ["0912", "0913", "0914"] }]⟩ := by
  obtain ⟨segs, hj, hc, _, hsend, _⟩ :=
    send_recipients_split_and_trimmed (confirmingSend "hi" " 0912,0913 ,0914" "3000" "")
      acceptingRemote
  exact ⟨segs, hj, hc, hsend "3000" 3000 (by decide) (by decide) rfl (by decide),
    by decide⟩

/-- C5: the send effect of the send wizard takes the line number from the line draft when
that draft is not empty, and from the configured default line when the draft is empty: the
one request it submits carries the parsed number (an empty draft with the default `3000`
gives the line 3000). When the draft and the default are both empty the effect resolves to
a failure and submits nothing to the remote. -/
theorem send_line_resolution (m : SendModel) (remote : Remote) :
    (m.lineNumber ≠ "" → m.client ≠ none →
      ∀ n, strconv_ParseInt m.lineNumber = .ok n →
        ∃ r, m.sendSMS remote = some r ∧
          r.calls = [{ LineNumber := n, MessageText := m.messageText,
                       Mobiles := (strings_Split m.mobiles ',').map strings_TrimSpace }]) ∧
    (∀ cfg, m.config = some cfg → m.lineNumber = "" → cfg.LineNumber ≠ "" → m.client ≠ none →
      ∀ n, strconv_ParseInt cfg.LineNumber = .ok n →
        ∃ r, m.sendSMS remote = some r ∧
          r.calls = [{ LineNumber := n, MessageText := m.messageText,
                       Mobiles := (strings_Split m.mobiles ',').map strings_TrimSpace }]) ∧
    (∀ cfg, m.config = some cfg → m.lineNumber = "" → cfg.LineNumber = "" →
      m.sendSMS remote
        = some ⟨.sendErrorMsg (some (.errorf "line number is required")), []⟩) ∧
    strconv_ParseInt "3000" = .ok 3000 := by
  refine ⟨?_, ?_, ?_, rfl⟩
  · intro hne hcl n hp
    exact sendSMS_with_line m remote m.lineNumber (by simp [hne]) hne n hp hcl
  · intro cfg hcfg hl hne hcl n hp
    exact sendSMS_with_line m remote cfg.LineNumber (by simp [hl, hcfg]) hne n hp hcl
  · intro cfg hcfg hl he
    simp [SendModel.sendSMS, hl, hcfg, he]

theorem send_line_resolution_witness :
    (∃ r, (confirmingSend "hi" "0912" "" "3000").sendSMS acceptingRemote = some r ∧
      r.calls = [{ LineNumber := 3000, MessageText := "hi", Mobiles := ["0912"] }]) ∧
    (∃ r, (confirmingSend "hi" "0912" "2000" "3000").sendSMS acceptingRemote = some r ∧
      r.calls = [{ LineNumber := 2000, MessageText := "hi", Mobiles := ["0912"] }]) ∧
    (confirmingSend "hi" "0912" "" "").sendSMS acceptingRemote
      = some ⟨.sendErrorMsg (some (.errorf "line number is required")), []⟩ :=
  ⟨(send_line_resolution (confirmingSend "hi" "0912" "" "3000") acceptingRemote).2.1
      ⟨"key", "3000", defaultBaseURL⟩ rfl rfl (by decide) (by decide) 3000 rfl,
    (send_line_resolution (confirmingSend "hi" "0912" "2000" "3000") acceptingRemote).1
      (by decide) (by decide) 2000 rfl,
    (send_line_resolution (confirmingSend "hi" "0912" "" "") acceptingRemote).2.2.1
      ⟨"key", "", defaultBaseURL⟩ rfl rfl rfl⟩

/-- C6: for a new dashboard and either arrival order of a successful balance result `c`
(for instance 42.5) and a failed lines result `e`, the final state is not loading and holds
the error, and the view is the error banner, not the credit and lines content, although the
balance was received and stored. -/
theorem dashboard_error_banner_either_order (client : Option Client) (cfg : Option Config)
    (c : float64) (e : GoError) :
    (((NewModel client cfg).Update (.creditMsg c)).1.Update (.errMsg e)).1.loading = false ∧
    (((NewModel client cfg).Update (.creditMsg c)).1.Update (.errMsg e)).1.err = some e ∧
    (((NewModel client cfg).Update (.creditMsg c)).1.Update (.errMsg e)).1.credit = c ∧
    (((NewModel client cfg).Update (.creditMsg c)).1.Update (.errMsg e)).1.View
      = .page (.renderError e) ∧
    (((NewModel client cfg).Update (.errMsg e)).1.Update (.creditMsg c)).1.loading = false ∧
    (((NewModel client cfg).Update (.errMsg e)).1.Update (.creditMsg c)).1.err = some e ∧
    (((NewModel client cfg).Update (.errMsg e)).1.Update (.creditMsg c)).1.credit = c ∧
    (((NewModel client cfg).Update (.errMsg e)).1.Update (.creditMsg c)).1.View
      = .page (.renderError e) ∧
    (NewModel client cfg).View = .page .renderLoading := by
  refine ⟨rfl, rfl, rfl, rfl, rfl, rfl, rfl, rfl, rfl⟩

theorem launcher_toFreshSelector_selector (m : LauncherModel) :
    m.toFreshSelector.1.selector = { NewSelectorModel with width := m.width, height := m.height } :=
  rfl

theorem launcher_update_resize (w : World) (m : LauncherModel) (wd ht : Int) :
    ∃ m1, m.Update w (.WindowSizeMsg wd ht) = some (m1, .nil, w) ∧ m1.state = m.state := by
  unfold LauncherModel.Update
  simp only
  refine ⟨_, rfl, ?_⟩
  split_ifs <;> rfl

theorem launcher_update_active (w : World) (m : LauncherModel) (msg : Msg)
    (hmsg : ∀ wd ht, msg ≠ .WindowSizeMsg wd ht) : m.Update w msg = m.updateActive w msg := by
  cases msg with
  | WindowSizeMsg wd ht => exact absurd rfl (hmsg wd ht)
  | _ => rfl

theorem launcher_update_config (w : World) (m : LauncherModel) (msg : Msg)
    (h : m.state = stateConfig) (hmsg : ∀ wd ht, msg ≠ .WindowSizeMsg wd ht) :
    m.Update w msg =
      if (m.config.Update w msg).1.completed = true ∨ (m.config.Update w msg).1.quitting = true then
        some (({ m with config := (m.config.Update w msg).1 } : LauncherModel).toFreshSelector.1,
          .nil, (m.config.Update w msg).2.2)
      else
        some ({ m with config := (m.config.Update w msg).1 }, (m.config.Update w msg).2.1,
          (m.config.Update w msg).2.2) := by
  rw [launcher_update_active w m msg hmsg]
  simp only [LauncherModel.updateActive, h, stateConfig, stateStartup, stateSelector]
  by_cases hc : (m.config.Update w msg).1.completed = true <;>
    by_cases hq : (m.config.Update w msg).1.quitting = true <;>
    simp [hc, hq, LauncherModel.toFreshSelector, SelectorModel.Init]

theorem launcher_update_dashboard (w : World) (m : LauncherModel) (msg : Msg)
    (h : m.state = stateDashboard) (hmsg : ∀ wd ht, msg ≠ .WindowSizeMsg wd ht) :
    m.Update w msg =
      if (m.dashboard.Update msg).1.quitting = true then
        some (({ m with dashboard := (m.dashboard.Update msg).1 } : LauncherModel).toFreshSelector.1,
          .nil, w)
      else some ({ m with dashboard := (m.dashboard.Update msg).1 }, (m.dashboard.Update msg).2, w) := by
  rw [launcher_update_active w m msg hmsg]
  simp only [LauncherModel.updateActive, h, stateConfig, stateStartup, stateSelector,
    stateDashboard]
  by_cases hq : (m.dashboard.Update msg).1.quitting = true <;>
    simp [hq, LauncherModel.toFreshSelector, SelectorModel.Init]

theorem launcher_update_send (w : World) (m : LauncherModel) (msg : Msg)
    (h : m.state = stateSend) (hmsg : ∀ wd ht, msg ≠ .WindowSizeMsg wd ht) :
    m.Update w msg =
      match m.send.Update w msg with
      | none => none
      | some (sm, cmd) =>
        if sm.quitting = true then
          some (({ m with send := sm } : LauncherModel).toFreshSelector.1, .nil, w)
        else some ({ m with send := sm }, cmd, w) := by
  rw [launcher_update_active w m msg hmsg]
  simp only [LauncherModel.updateActive, h, stateConfig, stateStartup, stateSelector,
    stateDashboard, stateSend]
  cases m.send.Update w msg with
  | none => simp
  | some r =>
    by_cases hq : r.1.quitting = true <;>
      simp [hq, LauncherModel.toFreshSelector, SelectorModel.Init]

/-- C7: for every launcher state whose active screen is the configuration wizard, the send
wizard or the dashboard, and every event after which the active screen is the selector,
the selector is a new one: the fixed choices, the cursor at index 0, no selected choice, not
quitting, and the dimensions of the launcher, whatever the previous selector was. -/
theorem return_to_selector_is_fresh (w : World) (m : LauncherModel) (msg : Msg)
    (m1 : LauncherModel) (cmd : Cmd) (w1 : World)
    (hs : m.state = stateConfig ∨ m.state = stateSend ∨ m.state = stateDashboard)
    (hu : m.Update w msg = some (m1, cmd, w1)) (h1 : m1.state = stateSelector) :
    m1.selector = { NewSelectorModel with width := m.width, height := m.height } ∧
    m1.selector.cursor = 0 ∧ m1.selector.Selected = "" ∧ m1.selector.quitting = false ∧
    m1.selector.choices = NewSelectorModel.choices := by
  have hne : m.state ≠ stateSelector := by
    rcases hs with h | h | h <;> rw [h] <;> decide
  have key : m1.selector = { NewSelectorModel with width := m.width, height := m.height } := by
    by_cases hmsg : ∀ wd ht, msg ≠ .WindowSizeMsg wd ht
    · rcases hs with h | h | h
      · rw [launcher_update_config w m msg h hmsg] at hu
        split_ifs at hu
        · cases hu; rfl
        · cases hu; exact absurd h1 hne
      · rw [launcher_update_send w m msg h hmsg] at hu
        cases hsu : m.send.Update w msg with
        | none => rw [hsu] at hu; exact absurd hu (by simp)
        | some r =>
          rw [hsu] at hu
          simp only at hu
          split_ifs at hu
          · cases hu; rfl
          · cases hu; exact absurd h1 hne
      · rw [launcher_update_dashboard w m msg h hmsg] at hu
        split_ifs at hu
        · cases hu; rfl
        · cases hu; exact absurd h1 hne
    · push_neg at hmsg
      obtain ⟨wd, ht, rfl⟩ := hmsg
      obtain ⟨m2, h2, h3⟩ := launcher_update_resize w m wd ht
      rw [h2] at hu
      cases hu
      exact absurd (h3 ▸ h1) hne
  rw [key]
  exact ⟨rfl, rfl, rfl, rfl, rfl⟩

theorem return_to_selector_is_fresh_witness :
    ∃ m1 cmd w1, launcherOnConfig.Update quietWorld (.KeyMsg (namedKey .KeyEsc)) = some (m1, cmd, w1) ∧
      m1.state = stateSelector ∧
      m1.selector = { NewSelectorModel with width := 80, height := 24 } ∧
      m1.selector.cursor = 0 ∧ m1.selector.Selected = "" ∧ m1.selector.quitting = false ∧
      m1.selector.choices = NewSelectorModel.choices :=
  ⟨_, _, _, rfl, rfl,
    return_to_selector_is_fresh quietWorld launcherOnConfig (.KeyMsg (namedKey .KeyEsc)) _ _ _
      (Or.inl rfl) rfl rfl⟩

theorem enter_String : KeyMsg_String (namedKey .KeyEnter) = "enter" := by
  simp [KeyMsg_String, namedKey, keyNames]

/-- C9: on the ApiKey and Line steps of the configuration wizard and on the Message and
Mobiles steps of the send wizard, enter advances the step by exactly one when the draft of
the step is not empty and leaves the state unchanged when it is empty; on the Line step of
the send wizard enter always advances to the Confirm step, whatever the draft and the
configured default line. No command is returned in any of these cases. -/
theorem enter_advances_step (w : World) :
    (∀ m : ConfigModel, (m.step = 0 ∨ m.step = 1) → ∀ d, m.draft = some d →
      m.Update w (.KeyMsg (namedKey .KeyEnter))
        = (if d ≠ "" then { m with step := m.step + 1 } else m, .nil, w)) ∧
    (∀ m : SendModel, (m.step = 0 ∨ m.step = 1) → ∀ d, m.draft = some d →
      m.Update w (.KeyMsg (namedKey .KeyEnter))
        = some (if d ≠ "" then { m with step := m.step + 1 } else m, .nil)) ∧
    (∀ m : SendModel, m.step = 2 → ∀ cfg, m.config = some cfg →
      m.Update w (.KeyMsg (namedKey .KeyEnter)) = some ({ m with step := 3 }, .nil)) := by
  have hk : (namedKey .KeyEnter).keyType = .KeyEnter := rfl
  refine ⟨?_, ?_, ?_⟩
  · intro m hs d hd
    rcases hs with h | h
    · have : d = m.apiKey := by simpa [ConfigModel.draft, h] using hd.symm
      subst this
      by_cases he : m.apiKey = "" <;>
        simp [ConfigModel.Update, enter_String, hk, h, he]
    · have : d = m.lineNumber := by simpa [ConfigModel.draft, h] using hd.symm
      subst this
      by_cases he : m.lineNumber = "" <;>
        simp [ConfigModel.Update, enter_String, hk, h, he]
  · intro m hs d hd
    rcases hs with h | h
    · have : d = m.messageText := by simpa [SendModel.draft, h] using hd.symm
      subst this
      by_cases he : m.messageText = "" <;>
        simp [SendModel.Update, enter_String, hk, h, he]
    · have : d = m.mobiles := by simpa [SendModel.draft, h] using hd.symm
      subst this
      by_cases he : m.mobiles = "" <;>
        simp [SendModel.Update, enter_String, hk, h, he]
  · intro m h cfg hcfg
    by_cases he : m.lineNumber = "" <;> by_cases hc : cfg.LineNumber = "" <;>
      simp [SendModel.Update, enter_String, hk, h, he, hc, hcfg]

theorem enter_advances_step_witness :
    ({ NewConfigModel with apiKey := "K" } : ConfigModel).Update quietWorld
        (.KeyMsg (namedKey .KeyEnter))
      = ({ NewConfigModel with apiKey := "K", step := 1 }, .nil, quietWorld) ∧
    NewConfigModel.Update quietWorld (.KeyMsg (namedKey .KeyEnter))
      = (NewConfigModel, .nil, quietWorld) ∧
    ({ (confirmingSend "hi" "0912" "" "") with step := 2 } : SendModel).Update quietWorld
        (.KeyMsg (namedKey .KeyEnter))
      = some (confirmingSend "hi" "0912" "" "", .nil) :=
  ⟨(enter_advances_step quietWorld).1 { NewConfigModel with apiKey := "K" } (Or.inl rfl) "K" rfl,
    (enter_advances_step quietWorld).1 NewConfigModel (Or.inl rfl) "" rfl,
    (enter_advances_step quietWorld).2.2 { (confirmingSend "hi" "0912" "" "") with step := 2 } rfl
      ⟨"key", "", defaultBaseURL⟩ rfl⟩

theorem config_enter_on_confirm_saves (w : World) (m : ConfigModel) (h : m.step = 2)
    (hw : w.saveFails = false) :
    m.Update w (.KeyMsg (namedKey .KeyEnter))
      = ({ m with completed := true }, .Quit,
          { w with stored := some ⟨m.apiKey, m.lineNumber, "https://api.sms.ir/v1"⟩ }) := by
  have hk : (namedKey .KeyEnter).keyType = .KeyEnter := rfl
  simp [ConfigModel.Update, enter_String, hk, h, Config.SaveConfig, hw]

/-- C10 (the code at the failing input): with a credential file whose base address is
`https://sms.example.test/v1`, enter on the Confirm step of the configuration wizard saves
the two drafts together with the fixed address `https://api.sms.ir/v1`: the stored base
address is replaced. The command `config set` on the same file keeps it. -/
theorem config_wizard_replaces_stored_base_address :
    (confirmingConfig.Update customBaseWorld (.KeyMsg (namedKey .KeyEnter))).1.completed = true ∧
    (confirmingConfig.Update customBaseWorld (.KeyMsg (namedKey .KeyEnter))).2.2.stored
      = some ⟨"K", "3000", "https://api.sms.ir/v1"⟩ ∧
    (configSetCmd "K" "3000" customBaseWorld).2.stored
      = some ⟨"K", "3000", "https://sms.example.test/v1"⟩ := by
  decide
theorem quitKey_not_ctrlV (k : Key) (hq : isQuitKey k) : k.keyType ≠ .KeyCtrlV := by
  intro hk
  unfold isQuitKey KeyMsg_String at hq
  simp only [hk, keyNames] at hq
  cases hA : k.Alt <;> simp [hA] at hq

theorem send_quit_step (w : World) (m : SendModel) (k : Key) (hq : isQuitKey k) :
    m.Update w (.KeyMsg k) = some ({ m with quitting := true }, .Quit) := by
  have hk := quitKey_not_ctrlV k hq
  have hq1 : KeyMsg_String k = "ctrl+c" ∨ KeyMsg_String k = "q" ∨ KeyMsg_String k = "esc" := hq
  simp [SendModel.Update, hk, hq1]

theorem send_enter_on_confirm (w : World) (m : SendModel) (h : m.step = 3) :
    m.Update w (.KeyMsg (namedKey .KeyEnter)) = some (m, .sendSMS m) := by
  have hk : (namedKey .KeyEnter).keyType = .KeyEnter := rfl
  simp [SendModel.Update, enter_String, hk, h]

theorem send_outcome_steps (w : World) (m : SendModel) :
    (∀ result, m.Update w (.sendSuccessMsg result)
      = some ({ m with success := true, result := result, completed := true }, .nil)) ∧
    (∀ err, m.Update w (.sendErrorMsg err)
      = some ({ m with err := err, completed := true }, .nil)) :=
  ⟨fun _ => rfl, fun _ => rfl⟩

/-- C11 (the code at the failing input): a send wizard on its Confirm step sends (enter) and
handles the success result, sends again (enter) and handles the failure result of the
second send. The final state is completed and stores the error, but `success` is still
true, and the view is the success summary of the first send: the failure handler does not
reset `success`. -/
theorem send_failure_after_success_keeps_success :
    SendModel.run quietWorld (confirmingSend "hi" "0912" "3000" "")
        [.KeyMsg (namedKey .KeyEnter), .sendSuccessMsg (some acceptedPayload),
          .KeyMsg (namedKey .KeyEnter), .sendErrorMsg (some (.errorf "API error: Failed"))]
      = some { completedSend with err := some (.errorf "API error: Failed") } ∧
    ({ completedSend with err := some (.errorf "API error: Failed") } : SendModel).success = true ∧
    ({ completedSend with err := some (.errorf "API error: Failed") } : SendModel).completed = true ∧
    ({ completedSend with err := some (.errorf "API error: Failed") } : SendModel).View
      = some (.renderSuccess acceptedPayload) := by
  decide

/-- C12 (amended): the send wizard has no in-flight state. Enter on the Confirm step returns
the send effect and leaves the wizard as it was, and a quit key (`q`, `ctrl+c` or `esc`)
handled after that, before any outcome event, sets `quitting` and returns the quit command
as at any other time; the launcher then goes back to the selector. -/
theorem quit_key_honoured_after_dispatch (w : World) (m : SendModel) (h : m.step = 3)
    (k : Key) (hq : isQuitKey k) :
    m.Update w (.KeyMsg (namedKey .KeyEnter)) = some (m, .sendSMS m) ∧
    m.Update w (.KeyMsg k) = some ({ m with quitting := true }, .Quit) ∧
    (∀ L : LauncherModel, L.state = stateSend → L.send = m →
      ∃ L1, L.Update w (.KeyMsg k) = some (L1, .nil, w) ∧ L1.state = stateSelector ∧
        L1.send.quitting = true) := by
  refine ⟨send_enter_on_confirm w m h, send_quit_step w m k hq, ?_⟩
  intro L hL hm
  have hmsg : ∀ wd ht, Msg.KeyMsg k ≠ .WindowSizeMsg wd ht := by intro _ _ h0; cases h0
  rw [launcher_update_send w L _ hL hmsg, hm, send_quit_step w m k hq]
  exact ⟨_, rfl, rfl, rfl⟩

theorem quit_key_honoured_after_dispatch_witness :
    (confirmingSend "hi" "0912" "3000" "").Update quietWorld (.KeyMsg (namedKey .KeyEnter))
      = some (confirmingSend "hi" "0912" "3000" "", .sendSMS (confirmingSend "hi" "0912" "3000" "")) ∧
    (confirmingSend "hi" "0912" "3000" "").Update quietWorld (.KeyMsg (namedKey .KeyEsc))
      = some ({ (confirmingSend "hi" "0912" "3000" "") with quitting := true }, .Quit) :=
  ⟨(quit_key_honoured_after_dispatch quietWorld (confirmingSend "hi" "0912" "3000" "") rfl
      (namedKey .KeyEsc) (by decide)).1,
    (quit_key_honoured_after_dispatch quietWorld (confirmingSend "hi" "0912" "3000" "") rfl
      (namedKey .KeyEsc) (by decide)).2.1⟩

/-- C12 (counterexample): after enter on the Confirm step has returned the send effect, and
with no outcome event handled, the key `q` sets `quitting`. -/
theorem q_after_dispatch_sets_quitting :
    (SendModel.run quietWorld (confirmingSend "hi" "0912" "3000" "")
        [.KeyMsg (namedKey .KeyEnter), .KeyMsg (runeKey 'q')]).map
      (fun m => (m.quitting, m.completed)) = some (true, false) := by
  decide

/-- C13 (the code at the failing input): a send wizard that is completed after a successful
send, on its Confirm step, handles enter, which is not a quit key. The wizard state is
unchanged, but the send effect is returned again, by the wizard and by the launcher, which
stays on the send screen; run against the remote, that effect submits the request a second
time. -/
theorem enter_after_completion_sends_again :
    SendModel.run quietWorld (confirmingSend "hi" "0912" "3000" "")
        [.KeyMsg (namedKey .KeyEnter), .sendSuccessMsg (some acceptedPayload)]
      = some completedSend ∧
    completedSend.completed = true ∧ ¬ isQuitKey (namedKey .KeyEnter) ∧
    completedSend.Update quietWorld (.KeyMsg (namedKey .KeyEnter))
      = some (completedSend, .sendSMS completedSend) ∧
    (launcherOnSend completedSend).Update quietWorld (.KeyMsg (namedKey .KeyEnter))
      = some (launcherOnSend completedSend, .sendSMS completedSend, quietWorld) ∧
    (completedSend.sendSMS acceptingRemote).map (fun r => r.calls)
      = some [{ LineNumber := 3000, MessageText := "hi", Mobiles := ["0912"] }] :=
  ⟨by decide, rfl, by decide, rfl, rfl, by decide⟩

/-- C14 (amended): in the send wizard, for every line-number draft that is not empty and that
`strconv.ParseInt` rejects, enter on the Line step still advances to the Confirm step; the
draft is rejected when the send effect runs: enter on the Confirm step returns the effect,
and the effect resolves to the failure `invalid line number` without submitting anything
to the remote. -/
theorem unparsable_line_rejected_at_send (w : World) (remote : Remote) (m : SendModel)
    (kind : NumErrKind) (hne : m.lineNumber ≠ "")
    (hp : strconv_ParseInt m.lineNumber = .error kind) :
    (m.step = 2 → m.Update w (.KeyMsg (namedKey .KeyEnter)) = some ({ m with step := 3 }, .nil)) ∧
    ({ m with step := 3 } : SendModel).Update w (.KeyMsg (namedKey .KeyEnter))
      = some ({ m with step := 3 }, .sendSMS { m with step := 3 }) ∧
    ({ m with step := 3 } : SendModel).sendSMS remote
      = some ⟨.sendErrorMsg
          (some (.wrapNum "invalid line number: " "ParseInt" m.lineNumber kind)), []⟩ := by
  have hk : (namedKey .KeyEnter).keyType = .KeyEnter := rfl
  refine ⟨?_, send_enter_on_confirm w _ rfl, ?_⟩
  · intro h
    simp [SendModel.Update, enter_String, hk, h, hne]
  · simp [SendModel.sendSMS, hne, hp]

theorem unparsable_line_rejected_at_send_witness :
    ({ (confirmingSend "hi" "0912" "12a" "3000") with step := 2 } : SendModel).Update quietWorld
        (.KeyMsg (namedKey .KeyEnter))
      = some (confirmingSend "hi" "0912" "12a" "3000", .nil) ∧
    (confirmingSend "hi" "0912" "12a" "3000").sendSMS acceptingRemote
      = some ⟨.sendErrorMsg
          (some (.wrapNum "invalid line number: " "ParseInt" "12a" .ErrSyntax)), []⟩ :=
  ⟨(unparsable_line_rejected_at_send quietWorld acceptingRemote
      { (confirmingSend "hi" "0912" "12a" "3000") with step := 2 } .ErrSyntax (by decide) rfl).1 rfl,
    (unparsable_line_rejected_at_send quietWorld acceptingRemote
      { (confirmingSend "hi" "0912" "12a" "3000") with step := 2 } .ErrSyntax (by decide) rfl).2.2⟩

/-- C14 (counterexample): with the line-number draft `abc`, which is not a decimal integer,
enter on the Line step advances the send wizard to the Confirm step. -/
theorem enter_on_line_step_advances_with_unparsable_draft :
    (({ (confirmingSend "hi" "0912" "abc" "3000") with step := 2 } : SendModel).Update quietWorld
        (.KeyMsg (namedKey .KeyEnter))).map (fun r => (r.1.step, r.1.lineNumber))
      = some (3, "abc") ∧
    strconv_ParseInt "abc" = .error .ErrSyntax :=
  ⟨by decide, rfl⟩

/-- C15 (amended): a new dashboard is loading and renders the loading indicator; after the
first fetch result has been handled, whichever it is, the dashboard is no longer loading.
After the balance alone it renders the content with that balance and no lines, after the
lines alone the content with those lines and the zero balance, after a failure the error
banner: it does not wait for the second result. -/
theorem dashboard_stops_loading_on_first_result (client : Option Client) (cfg : Option Config) :
    (NewModel client cfg).loading = true ∧
    (NewModel client cfg).View = .page .renderLoading ∧
    (∀ c, ((NewModel client cfg).Update (.creditMsg c)).1.loading = false ∧
      ((NewModel client cfg).Update (.creditMsg c)).1.View = .page (.renderContent c [])) ∧
    (∀ l, ((NewModel client cfg).Update (.linesMsg l)).1.loading = false ∧
      ((NewModel client cfg).Update (.linesMsg l)).1.View = .page (.renderContent ⟨0⟩ l)) ∧
    (∀ e, ((NewModel client cfg).Update (.errMsg e)).1.loading = false ∧
      ((NewModel client cfg).Update (.errMsg e)).1.View = .page (.renderError e)) :=
  ⟨rfl, rfl, fun _ => ⟨rfl, rfl⟩, fun _ => ⟨rfl, rfl⟩, fun _ => ⟨rfl, rfl⟩⟩

/-- C15 (counterexample): after the balance result 42.5 alone has been handled by a new
dashboard, and no lines result yet, the dashboard is not loading and its view is not the
loading indicator but the content with an empty list of lines. -/
theorem dashboard_not_loading_after_balance_only :
    ((NewModel none none).Update (.creditMsg credit42_5)).1.loading = false ∧
    ((NewModel none none).Update (.creditMsg credit42_5)).1.View ≠ .page .renderLoading ∧
    ((NewModel none none).Update (.creditMsg credit42_5)).1.View
      = .page (.renderContent credit42_5 []) := by
  decide

/-- C16 (amended): for every dashboard state, handling the key `r` returns both fetch
effects (balance and lines) as one batch and leaves the state unchanged: `loading` is not
set again, so a dashboard that had stopped loading keeps its view while the fetches run. -/
theorem dashboard_refresh_keeps_state (m : Model) :
    m.Update (.KeyMsg (runeKey 'r')) = (m, .Batch [.loadCredit m.client, .loadLines m.client]) ∧
    (m.Update (.KeyMsg (runeKey 'r'))).1.loading = m.loading ∧
    (m.Update (.KeyMsg (runeKey 'r'))).1.View = m.View := by
  have hs : KeyMsg_String (runeKey 'r') = "r" := by decide
  have h : m.Update (.KeyMsg (runeKey 'r'))
      = (m, .Batch [.loadCredit m.client, .loadLines m.client]) := by
    simp [Model.Update, hs]
  rw [h]
  exact ⟨rfl, rfl, rfl⟩

/-- C16 (counterexample): a dashboard that has stopped loading after a balance result is
still not loading after the key `r`. -/
theorem dashboard_refresh_does_not_set_loading :
    ((NewModel none none).Update (.creditMsg credit42_5)).1.loading = false ∧
    ((((NewModel none none).Update (.creditMsg credit42_5)).1).Update
      (.KeyMsg (runeKey 'r'))).1.loading = false := by
  decide

/-- C17 (amended): once the dashboard has handled a fetch failure, no later fetch result
clears the stored error, so a dashboard that is not quitting keeps rendering an error
banner. The data is not frozen: a later balance or lines success is stored in `credit` or
`lines`, only not shown, and a later failure replaces the stored error. -/
theorem dashboard_error_persists (m : Model) (e : GoError) :
    (m.Update (.errMsg e)).1.err = some e ∧
    (∀ c, ((m.Update (.errMsg e)).1.Update (.creditMsg c)).1.err = some e ∧
      ((m.Update (.errMsg e)).1.Update (.creditMsg c)).1.credit = c ∧
      ((m.Update (.errMsg e)).1.Update (.creditMsg c)).1.lines = m.lines) ∧
    (∀ l, ((m.Update (.errMsg e)).1.Update (.linesMsg l)).1.err = some e ∧
      ((m.Update (.errMsg e)).1.Update (.linesMsg l)).1.lines = l ∧
      ((m.Update (.errMsg e)).1.Update (.linesMsg l)).1.credit = m.credit) ∧
    (∀ e2, ((m.Update (.errMsg e)).1.Update (.errMsg e2)).1.err = some e2) ∧
    (∀ m1 : Model, ∀ msg, m1.err ≠ none → (m1.Update msg).1.err ≠ none) ∧
    (∀ m1 : Model, m1.err ≠ none → m1.loading = false → m1.quitting = false →
      ∃ e1, m1.View = .page (.renderError e1)) := by
  refine ⟨rfl, fun _ => ⟨rfl, rfl, rfl⟩, fun _ => ⟨rfl, rfl, rfl⟩, fun _ => rfl, ?_, ?_⟩
  · intro m1 msg h
    cases msg with
    | KeyMsg k =>
      simp only [Model.Update]
      split_ifs <;> exact h
    | errMsg e1 => simp [Model.Update]
    | _ => exact h
  · intro m1 h hl hq
    obtain ⟨e1, he1⟩ := Option.ne_none_iff_exists'.1 h
    exact ⟨e1, by simp [Model.View, hl, hq, he1]⟩

theorem dashboard_error_persists_witness :
    ∃ e1, (((NewModel none none).Update (.errMsg (.external "timeout"))).1.Update
      (.creditMsg credit42_5)).1.View = .page (.renderError e1) :=
  (dashboard_error_persists (NewModel none none) (.external "timeout")).2.2.2.2.2
    (((NewModel none none).Update (.errMsg (.external "timeout"))).1.Update
      (.creditMsg credit42_5)).1 (by decide) (by decide) (by decide)

/-- C17 (counterexample): after a fetch failure, a later balance result 42.5 is not
dropped, it replaces the stored balance, and a later second failure replaces the stored
error. -/
theorem dashboard_later_results_are_stored :
    ((NewModel none none).Update (.errMsg (.external "first"))).1.credit = ⟨0⟩ ∧
    (((NewModel none none).Update (.errMsg (.external "first"))).1.Update
      (.creditMsg credit42_5)).1.credit = credit42_5 ∧
    (((NewModel none none).Update (.errMsg (.external "first"))).1.Update
      (.errMsg (.external "second"))).1.err = some (.external "second") := by
  decide

theorem startup_tick_step (m : StartupModel) :
    (m.progress < 100 → m.Update .tickMsg = ({ m with progress := m.progress + 2 }, .tickCmd)) ∧
    (¬ m.progress < 100 → m.Update .tickMsg = ({ m with completed := true }, .Quit)) := by
  constructor <;> intro h <;> simp [StartupModel.Update, h]

theorem startup_ticks_progress (n : Nat) :
    ∀ m : StartupModel, (∃ k : Nat, m.progress = 2 * (k : Int) ∧ k ≤ 50) →
      (m.ticks n).progress = min (m.progress + 2 * (n : Int)) 100 := by
  induction n with
  | zero =>
    intro m hm
    obtain ⟨k, hk, hk50⟩ := hm
    simp only [StartupModel.ticks]
    omega
  | succ n ih =>
    intro m hm
    obtain ⟨k, hk, hk50⟩ := hm
    simp only [StartupModel.ticks]
    by_cases h : m.progress < 100
    · rw [(startup_tick_step m).1 h]
      have e := ih { m with progress := m.progress + 2 }
        ⟨k + 1, by show m.progress + 2 = _; push_cast; omega, by omega⟩
      show (StartupModel.ticks { m with progress := m.progress + 2 } n).progress = _
      rw [e]
      show min (m.progress + 2 + 2 * (n : Int)) 100 = _
      push_cast
      omega
    · rw [(startup_tick_step m).2 h]
      have e := ih { m with completed := true } ⟨k, hk, hk50⟩
      show (StartupModel.ticks { m with completed := true } n).progress = _
      rw [e]
      show min (m.progress + 2 * (n : Int)) 100 = _
      push_cast
      omega

/-- C18: for every number `n` of timer ticks applied to a new startup screen, the progress
is `min (2 * n) 100`, so it stays within 0..100; a tick handled while the progress is below
100 adds exactly 2, and a tick handled at 100 leaves it at 100. -/
theorem startup_progress_bounded (n : Nat) :
    (NewStartupModel.ticks n).progress = min (2 * (n : Int)) 100 ∧
    0 ≤ (NewStartupModel.ticks n).progress ∧ (NewStartupModel.ticks n).progress ≤ 100 ∧
    ((NewStartupModel.ticks n).progress < 100 →
      ((NewStartupModel.ticks n).Update .tickMsg).1.progress
        = (NewStartupModel.ticks n).progress + 2) ∧
    ((NewStartupModel.ticks n).progress = 100 →
      ((NewStartupModel.ticks n).Update .tickMsg).1.progress = 100) := by
  have h := startup_ticks_progress n NewStartupModel ⟨0, by decide, by decide⟩
  have h0 : NewStartupModel.progress = 0 := rfl
  rw [h0] at h
  refine ⟨by rw [h]; simp, by rw [h]; omega, by rw [h]; omega, ?_, ?_⟩
  · intro hlt
    rw [(startup_tick_step _).1 hlt]
  · intro heq
    have hn : ¬ (NewStartupModel.ticks n).progress < 100 := by omega
    rw [(startup_tick_step _).2 hn]
    exact heq

theorem startup_progress_bounded_witness :
    (NewStartupModel.ticks 3).progress = 6 ∧
    ((NewStartupModel.ticks 3).Update .tickMsg).1.progress = (NewStartupModel.ticks 3).progress + 2 :=
  ⟨by decide, (startup_progress_bounded 3).2.2.2.1 (by decide)⟩

theorem startup_ticks_succ (n : Nat) :
    ∀ m : StartupModel, m.ticks (n + 1) = ((m.ticks n).Update .tickMsg).1 := by
  induction n with
  | zero => intro m; rfl
  | succ n ih =>
    intro m
    show StartupModel.ticks (m.Update .tickMsg).1 (n + 1) = _
    rw [ih]
    rfl

theorem startup_ticks_not_completed (n : Nat) :
    ∀ m : StartupModel, m.completed = false → m.progress + 2 * (n : Int) ≤ 100 →
      (m.ticks n).completed = false := by
  induction n with
  | zero => intro m hc _; exact hc
  | succ n ih =>
    intro m hc hp
    have h : m.progress < 100 := by push_cast at hp; omega
    show (StartupModel.ticks (m.Update .tickMsg).1 n).completed = false
    rw [(startup_tick_step m).1 h]
    exact ih { m with progress := m.progress + 2 } hc
      (by show m.progress + 2 + 2 * (n : Int) ≤ 100; push_cast at hp; omega)

theorem startup_fresh_ticks (n : Nat) (hn : n ≤ 50) :
    (NewStartupModel.ticks n).progress = 2 * (n : Int) ∧
    (NewStartupModel.ticks n).completed = false := by
  have h := startup_ticks_progress n NewStartupModel ⟨0, by decide, by decide⟩
  have h0 : NewStartupModel.progress = 0 := rfl
  rw [h0] at h
  refine ⟨by rw [h]; omega, ?_⟩
  exact startup_ticks_not_completed n NewStartupModel rfl (by rw [h0]; omega)

/-- C19 (amended): the timer tick that brings the progress of the startup screen to 100
does not set `completed`: it leaves the flag as it was and asks for another tick. The
next tick, handled with the progress no longer below 100, sets `completed`, leaves the
progress untouched and returns the quit command. From a new startup screen the 50th tick
reaches 100 and the 51st tick completes. -/
theorem startup_completes_one_tick_after_100 (m : StartupModel) :
    (m.progress ≠ 100 → (m.Update .tickMsg).1.progress = 100 →
      (m.Update .tickMsg).1.completed = m.completed ∧ (m.Update .tickMsg).2 = .tickCmd) ∧
    (m.progress = 100 →
      m.Update .tickMsg = ({ m with completed := true }, .Quit)) ∧
    (NewStartupModel.ticks 50).progress = 100 ∧
    (NewStartupModel.ticks 50).completed = false ∧
    (NewStartupModel.ticks 51).progress = 100 ∧
    (NewStartupModel.ticks 51).completed = true := by
  have h50 := startup_fresh_ticks 50 (by decide)
  have hp : (NewStartupModel.ticks 50).progress = 100 := by rw [h50.1]; norm_num
  have h51 : NewStartupModel.ticks 51
      = { (NewStartupModel.ticks 50) with completed := true } := by
    rw [startup_ticks_succ 50, (startup_tick_step _).2 (by omega)]
  refine ⟨?_, ?_, hp, h50.2, by simp only [h51, hp], by simp only [h51]⟩
  · intro hne h100
    by_cases h : m.progress < 100
    · rw [(startup_tick_step m).1 h]
      exact ⟨rfl, rfl⟩
    · rw [(startup_tick_step m).2 h] at h100
      exact absurd h100 hne
  · intro h100
    exact (startup_tick_step m).2 (by omega)

/-- C19 (counterexample): a new startup screen after 49 ticks has the progress 98; the
50th tick brings the progress to 100 and the state after that tick is not completed. -/
theorem startup_tick_reaching_100_is_not_completed :
    (NewStartupModel.ticks 49).progress = 98 ∧
    ((NewStartupModel.ticks 49).Update .tickMsg).1.progress = 100 ∧
    ((NewStartupModel.ticks 49).Update .tickMsg).1.completed = false := by
  have h49 := startup_fresh_ticks 49 (by decide)
  have h50 := startup_fresh_ticks 50 (by decide)
  rw [startup_ticks_succ 49] at h50
  refine ⟨by rw [h49.1]; norm_num, by rw [h50.1]; norm_num, h50.2⟩

theorem startup_completes_one_tick_after_100_witness :
    ((NewStartupModel.ticks 49).Update .tickMsg).1.completed = (NewStartupModel.ticks 49).completed ∧
    ((NewStartupModel.ticks 49).Update .tickMsg).2 = .tickCmd ∧
    (NewStartupModel.ticks 50).Update .tickMsg
      = ({ (NewStartupModel.ticks 50) with completed := true }, .Quit) := by
  have h49 := startup_fresh_ticks 49 (by decide)
  have h50 := startup_fresh_ticks 50 (by decide)
  have h50b := h50
  rw [startup_ticks_succ 49] at h50b
  have a := (startup_completes_one_tick_after_100 (NewStartupModel.ticks 49)).1
    (by rw [h49.1]; norm_num) (by rw [h50b.1]; norm_num)
  have b := (startup_completes_one_tick_after_100 (NewStartupModel.ticks 50)).2.1
    (by rw [h50.1]; norm_num)
  exact ⟨a.1, a.2, b⟩

theorem launcher_reachable_run (msgs : List Msg) :
    ∀ (w : World) (m m1 : LauncherModel) (w1 : World), m.Reachable →
      LauncherModel.run w m msgs = some (m1, w1) → m1.Reachable := by
  induction msgs with
  | nil =>
    intro w m m1 w1 hr h
    simp only [LauncherModel.run, Option.some.injEq, Prod.mk.injEq] at h
    exact h.1 ▸ hr
  | cons msg rest ih =>
    intro w m m1 w1 hr h
    simp only [LauncherModel.run] at h
    cases hu : m.Update w msg with
    | none => rw [hu] at h; exact absurd h (by simp)
    | some r =>
      obtain ⟨m2, cmd, w2⟩ := r
      rw [hu] at h
      exact ih w2 m2 m1 w1 (.step msg hr hu) h

theorem launcher_resize_fields (w : World) (m : LauncherModel) (wd ht : Int) :
    ∃ m1, m.Update w (.WindowSizeMsg wd ht) = some (m1, .nil, w) ∧ m1.state = m.state ∧
      m1.width = wd ∧ m1.height = ht ∧
      m1.startup = { m.startup with width := wd, height := ht } ∧
      m1.selector = { m.selector with width := wd, height := ht } := by
  unfold LauncherModel.Update
  simp only
  refine ⟨_, rfl, ?_, ?_, ?_, ?_, ?_⟩ <;> split_ifs <;> rfl

theorem handleSelection_state (w : World) (m : LauncherModel) :
    (m.handleSelection w).1.state = stateConfig ∨ (m.handleSelection w).1.state = stateSend ∨
    (m.handleSelection w).1.state = stateExit ∨ (m.handleSelection w).1.state = stateDashboard ∨
    (m.handleSelection w).1.state = stateSelector := by
  unfold LauncherModel.handleSelection
  split_ifs
  · simp
  · split
    · simp [LauncherModel.toFreshSelector]
    · split <;> simp [LauncherModel.toFreshSelector]
  · simp
  · split
    · simp [LauncherModel.toFreshSelector]
    · split <;> simp [LauncherModel.toFreshSelector]
  · simp [LauncherModel.toFreshSelector]

theorem launcher_startup_step (w : World) (m : LauncherModel) (msg : Msg)
    (h : m.state = stateStartup) (hmsg : ∀ wd ht, msg ≠ .WindowSizeMsg wd ht) :
    m.Update w msg =
      if (m.startup.Update msg).1.completed = true then
        some ({ m with startup := (m.startup.Update msg).1, state := stateSelector }, .nil, w)
      else some ({ m with startup := (m.startup.Update msg).1 }, (m.startup.Update msg).2, w) := by
  rw [launcher_update_active w m msg hmsg]
  simp only [LauncherModel.updateActive, h, if_true]
  by_cases hc : (m.startup.Update msg).1.completed = true <;> simp [hc, SelectorModel.Init]

theorem launcher_update_selector (w : World) (m : LauncherModel) (msg : Msg)
    (h : m.state = stateSelector) (hmsg : ∀ wd ht, msg ≠ .WindowSizeMsg wd ht) :
    m.Update w msg =
      match m.selector.Update msg with
      | none => none
      | some (sm, cmd) =>
        if sm.Selected ≠ "" then some (({ m with selector := sm } : LauncherModel).handleSelection w)
        else if sm.quitting = true then
          some ({ m with selector := sm, state := stateDone }, .Quit, w)
        else some ({ m with selector := sm }, cmd, w) := by
  rw [launcher_update_active w m msg hmsg]
  simp only [LauncherModel.updateActive, h, stateStartup, stateSelector]
  cases m.selector.Update msg with
  | none => simp
  | some r =>
    by_cases hs : r.1.Selected = "" <;> by_cases hq : r.1.quitting = true <;> simp [hs, hq]

theorem launcher_update_rest (w : World) (m : LauncherModel) (msg : Msg)
    (h1 : m.state ≠ stateStartup) (h2 : m.state ≠ stateSelector) (h3 : m.state ≠ stateConfig)
    (h4 : m.state ≠ stateDashboard) (h5 : m.state ≠ stateSend)
    (hmsg : ∀ wd ht, msg ≠ .WindowSizeMsg wd ht) :
    ∃ cmd, m.Update w msg = some (m, cmd, w) := by
  rw [launcher_update_active w m msg hmsg]
  simp only [LauncherModel.updateActive, h1, h2, h3, h4, h5, if_false]
  split_ifs
  · cases msg with
    | KeyMsg k =>
      simp only
      split_ifs
      · exact ⟨_, rfl⟩
      · exact ⟨_, rfl⟩
    | _ => exact ⟨_, rfl⟩
  · exact ⟨_, rfl⟩
  · exact ⟨_, rfl⟩

theorem launcher_never_returns_to_startup (w : World) (m : LauncherModel) (msg : Msg)
    (m1 : LauncherModel) (cmd : Cmd) (w1 : World) (h : m.state ≠ stateStartup)
    (hu : m.Update w msg = some (m1, cmd, w1)) : m1.state ≠ stateStartup := by
  by_cases hmsg : ∀ wd ht, msg ≠ .WindowSizeMsg wd ht
  · by_cases hsel : m.state = stateSelector
    · rw [launcher_update_selector w m msg hsel hmsg] at hu
      cases hsu : m.selector.Update msg with
      | none => rw [hsu] at hu; exact absurd hu (by simp)
      | some r =>
        rw [hsu] at hu
        simp only at hu
        split_ifs at hu
        · have hst := handleSelection_state w ({ m with selector := r.1 } : LauncherModel)
          have e : m1 = (({ m with selector := r.1 } : LauncherModel).handleSelection w).1 :=
            (congrArg Prod.fst (Option.some.inj hu)).symm
          rw [e]
          rcases hst with h0 | h0 | h0 | h0 | h0 <;> rw [h0] <;> decide
        · cases hu; show stateDone ≠ stateStartup; decide
        · cases hu; exact h
    · by_cases hcfg : m.state = stateConfig
      · rw [launcher_update_config w m msg hcfg hmsg] at hu
        split_ifs at hu
        · cases hu; show stateSelector ≠ stateStartup; decide
        · cases hu; exact h
      · by_cases hdash : m.state = stateDashboard
        · rw [launcher_update_dashboard w m msg hdash hmsg] at hu
          split_ifs at hu
          · cases hu; show stateSelector ≠ stateStartup; decide
          · cases hu; exact h
        · by_cases hsend : m.state = stateSend
          · rw [launcher_update_send w m msg hsend hmsg] at hu
            cases hsu : m.send.Update w msg with
            | none => rw [hsu] at hu; exact absurd hu (by simp)
            | some r =>
              rw [hsu] at hu
              simp only at hu
              split_ifs at hu
              · cases hu; show stateSelector ≠ stateStartup; decide
              · cases hu; exact h
          · obtain ⟨c, hc⟩ := launcher_update_rest w m msg h hsel hcfg hdash hsend hmsg
            rw [hc] at hu
            cases hu
            exact h
  · push_neg at hmsg
    obtain ⟨wd, ht, rfl⟩ := hmsg
    obtain ⟨m2, h2, h3⟩ := launcher_update_resize w m wd ht
    rw [h2] at hu
    cases hu
    rw [h3]
    exact h

theorem launcher_startup_invariant (m : LauncherModel) (hr : m.Reachable) :
    m.state = stateStartup →
      m.startup.completed = false ∧
      m.selector = { NewSelectorModel with width := m.width, height := m.height } := by
  induction hr with
  | init => intro _; exact ⟨rfl, rfl⟩
  | @step m m1 cmd w w1 msg hm hu ih =>
    intro h1
    have hs : m.state = stateStartup := by
      by_contra hne
      exact launcher_never_returns_to_startup w m msg m1 cmd w1 hne hu h1
    obtain ⟨hc, hsel⟩ := ih hs
    by_cases hmsg : ∀ wd ht, msg ≠ .WindowSizeMsg wd ht
    · rw [launcher_startup_step w m msg hs hmsg] at hu
      split_ifs at hu with hcomp
      · have e0 := congrArg Prod.fst (Option.some.inj hu)
        simp only at e0
        have e : m1.state = stateSelector := by rw [← e0]
        rw [e] at h1
        exact absurd h1 (by decide)
      · have e := congrArg Prod.fst (Option.some.inj hu)
        simp only at e
        rw [← e]
        exact ⟨by simpa using hcomp, hsel⟩
    · push_neg at hmsg
      obtain ⟨wd, ht, rfl⟩ := hmsg
      obtain ⟨m2, h2, _, h4, h5, h6, h7⟩ := launcher_resize_fields w m wd ht
      rw [h2] at hu
      have e := congrArg Prod.fst (Option.some.inj hu)
      simp only at e
      rw [← e, h6, h7, hsel, h4, h5]
      exact ⟨hc, rfl⟩

theorem startup_completed_only_by_tick (sm : StartupModel) (msg : Msg)
    (h0 : sm.completed = false) (h1 : (sm.Update msg).1.completed = true) :
    msg = .tickMsg ∧ ¬ sm.progress < 100 := by
  cases msg with
  | tickMsg =>
    refine ⟨rfl, ?_⟩
    intro hlt
    rw [(startup_tick_step sm).1 hlt] at h1
    simp only [h0] at h1
    exact absurd h1 (by decide)
  | KeyMsg k =>
    simp only [StartupModel.Update] at h1
    split_ifs at h1 <;> simp [h0] at h1
  | _ => simp [StartupModel.Update, h0] at h1

/-- C20: for every launcher state reachable from the initial launcher with the startup
screen active, and every event that makes the startup screen completed, the launcher
handles the event without panic, its active screen becomes the selector, the selector has
the cursor 0, no selected choice and the fixed choices, and the command the launcher returns
is the empty command of the selector, not the quit command that the startup screen
returned. -/
theorem startup_completion_enters_selector (m : LauncherModel) (hr : m.Reachable)
    (hs : m.state = stateStartup) (w : World) (msg : Msg)
    (hc : (m.startup.Update msg).1.completed = true) :
    (m.startup.Update msg).2 = .Quit ∧
    ∃ m1, m.Update w msg = some (m1, .nil, w) ∧ m1.state = stateSelector ∧
      m1.selector.cursor = 0 ∧ m1.selector.Selected = "" ∧ m1.selector.quitting = false ∧
      m1.selector.choices = NewSelectorModel.choices := by
  obtain ⟨h0, hsel⟩ := launcher_startup_invariant m hr hs
  obtain ⟨hmsg, hp⟩ := startup_completed_only_by_tick m.startup msg h0 hc
  subst hmsg
  have hne : ∀ wd ht, Msg.tickMsg ≠ .WindowSizeMsg wd ht := by intro _ _ h; cases h
  refine ⟨by rw [(startup_tick_step m.startup).2 hp], ?_⟩
  rw [launcher_startup_step w m .tickMsg hs hne]
  simp only [hc, if_true]
  refine ⟨_, rfl, rfl, ?_, ?_, ?_, ?_⟩ <;> simp only [hsel] <;> rfl

theorem startup_completion_enters_selector_witness :
    (launcherAtFullBar.startup.Update .tickMsg).2 = .Quit ∧
    ∃ m1, launcherAtFullBar.Update quietWorld .tickMsg = some (m1, .nil, quietWorld) ∧
      m1.state = stateSelector ∧
      m1.selector.cursor = 0 ∧ m1.selector.Selected = "" ∧ m1.selector.quitting = false ∧
      m1.selector.choices = NewSelectorModel.choices :=
  startup_completion_enters_selector launcherAtFullBar
    (launcher_reachable_run (List.replicate 50 Msg.tickMsg) quietWorld NewLauncherModel
      launcherAtFullBar quietWorld .init rfl)
    rfl quietWorld .tickMsg rfl

theorem validate_ok_iff (c : Config) :
    (c.Validate = .ok () ↔ c.APIKey ≠ "" ∧ c.LineNumber ≠ "") ∧
    (c.APIKey = "" → c.Validate = .error (.errorf "api key is required")) ∧
    (c.APIKey ≠ "" → c.LineNumber = "" → c.Validate = .error (.errorf "line number is required")) := by
  unfold Config.Validate
  refine ⟨?_, ?_, ?_⟩
  · by_cases h1 : c.APIKey = "" <;> by_cases h2 : c.LineNumber = "" <;> simp [h1, h2]
  · intro h1; simp [h1]
  · intro h1 h2; simp [h1, h2]

/-- C25: credential validation returns ok exactly when the API key and the line number are
both non-empty; it returns the error `api key is required` whenever the API key is empty,
also when both are empty, and the error `line number is required` when only the line number
is empty; the result does not depend on the base address. -/
theorem validate_characterised (c : Config) :
    (c.Validate = .ok () ↔ c.APIKey ≠ "" ∧ c.LineNumber ≠ "") ∧
    (c.APIKey = "" → c.Validate = .error (.errorf "api key is required")) ∧
    (c.APIKey ≠ "" → c.LineNumber = "" → c.Validate = .error (.errorf "line number is required")) ∧
    (∀ b : String, ({ c with BaseURL := b } : Config).Validate = c.Validate) :=
  ⟨(validate_ok_iff c).1, (validate_ok_iff c).2.1, (validate_ok_iff c).2.2, fun _ => rfl⟩

theorem validate_characterised_witness :
    (⟨"", "", "x"⟩ : Config).Validate = .error (.errorf "api key is required") ∧
    (⟨"k", "", "x"⟩ : Config).Validate = .error (.errorf "line number is required") ∧
    (⟨"k", "3000", ""⟩ : Config).Validate = .ok () :=
  ⟨(validate_characterised ⟨"", "", "x"⟩).2.1 rfl,
    (validate_characterised ⟨"k", "", "x"⟩).2.2.1 (by decide) rfl,
    (validate_characterised ⟨"k", "3000", ""⟩).1.2 ⟨by decide, by decide⟩⟩

theorem resize_fields_aux (w : World) (m : LauncherModel) (wd ht : Int) :
    ∃ m1, m.Update w (.WindowSizeMsg wd ht) = some (m1, .nil, w) ∧
      m1.width = wd ∧ m1.height = ht ∧ m1.state = m.state ∧
      m1.helpOutput = m.helpOutput ∧ m1.shouldRunHelp = m.shouldRunHelp ∧
      m1.startup = { m.startup with width := wd, height := ht } ∧
      m1.selector = { m.selector with width := wd, height := ht } ∧
      m1.config = (if m.config.width > 0 ∨ m.state = stateConfig
        then { m.config with width := wd, height := ht } else m.config) ∧
      m1.dashboard = (if m.dashboard.width > 0 ∨ m.state = stateDashboard
        then { m.dashboard with width := wd, height := ht } else m.dashboard) ∧
      m1.send = (if m.send.width > 0 ∨ m.state = stateSend
        then { m.send with width := wd, height := ht } else m.send) := by
  unfold LauncherModel.Update
  simp only
  refine ⟨_, rfl, ?_, ?_, ?_, ?_, ?_, ?_, ?_, ?_, ?_, ?_⟩ <;> split_ifs <;> rfl

/-- C24: for every launcher state and every resize event `(wd, ht)`, the launcher answers
with no command and the same world; the resulting launcher has the dimensions `(wd, ht)`,
the same active screen id, help text and help flag; the startup screen and the selector
store `(wd, ht)`, and so does each of the configuration wizard, the dashboard and the send
wizard when it is the active screen or already has a positive width, and is untouched
otherwise; no field of a screen other than its width and height changes. -/
theorem resize_updates_dimensions_only (w : World) (m : LauncherModel) (wd ht : Int) :
    ∃ m1, m.Update w (.WindowSizeMsg wd ht) = some (m1, .nil, w) ∧
      m1.width = wd ∧ m1.height = ht ∧ m1.state = m.state ∧
      m1.helpOutput = m.helpOutput ∧ m1.shouldRunHelp = m.shouldRunHelp ∧
      m1.startup = { m.startup with width := wd, height := ht } ∧
      m1.selector = { m.selector with width := wd, height := ht } ∧
      m1.config = (if m.config.width > 0 ∨ m.state = stateConfig
        then { m.config with width := wd, height := ht } else m.config) ∧
      m1.dashboard = (if m.dashboard.width > 0 ∨ m.state = stateDashboard
        then { m.dashboard with width := wd, height := ht } else m.dashboard) ∧
      m1.send = (if m.send.width > 0 ∨ m.state = stateSend
        then { m.send with width := wd, height := ht } else m.send) :=
  resize_fields_aux w m wd ht

theorem handleSelection_send (w : World) (m : LauncherModel)
    (h : m.selector.Selected = "📤 Send SMS") :
    m.handleSelection w =
      match (LoadConfig w).1 with
      | .error _ => (m.toFreshSelector.1, .nil, (LoadConfig w).2)
      | .ok cfg =>
        if cfg.APIKey ≠ "" ∧ cfg.LineNumber ≠ "" then
          ({ m with state := stateSend,
                    send := { (NewSendModel (some (NewClient cfg)) (some cfg)) with
                              width := m.width, height := m.height } }, .nil, (LoadConfig w).2)
        else (m.toFreshSelector.1, .nil, (LoadConfig w).2) := by
  unfold LauncherModel.handleSelection
  have h1 : ¬ ("📤 Send SMS" = "🔧 Configure API Key & Line Number") := by decide
  simp only [h, h1, if_false, if_true]
  rcases hL : LoadConfig w with ⟨res, w1⟩
  cases res with
  | error e => rfl
  | ok cfg =>
    simp only
    by_cases ha : cfg.APIKey = "" <;> by_cases hl : cfg.LineNumber = "" <;>
      simp [Config.Validate, ha, hl, LauncherModel.toFreshSelector, SelectorModel.Init,
        SendModel.Init]

/-- C21: when the selected choice is the send choice, the selection handler of the launcher
makes the send wizard the active screen exactly when the credentials load and have a
non-empty API key and line number; the wizard is then a new one (Message step, empty
drafts) that holds the loaded credentials and a client built from them. Otherwise the
handler yields the selector state with a new selector (cursor 0, nothing selected) and
leaves the send screen of the launcher as it was: no client is built. -/
theorem send_choice_needs_valid_credentials (w : World) (m : LauncherModel)
    (h : m.selector.Selected = "📤 Send SMS") :
    ((m.handleSelection w).1.state = stateSend ↔
      ∃ cfg, (LoadConfig w).1 = .ok cfg ∧ cfg.APIKey ≠ "" ∧ cfg.LineNumber ≠ "") ∧
    (∀ cfg, (LoadConfig w).1 = .ok cfg → cfg.APIKey ≠ "" → cfg.LineNumber ≠ "" →
      m.handleSelection w
        = ({ m with state := stateSend,
                    send := { (NewSendModel (some (NewClient cfg)) (some cfg)) with
                              width := m.width, height := m.height } }, .nil, (LoadConfig w).2) ∧
      (m.handleSelection w).1.send.step = 0 ∧
      (m.handleSelection w).1.send.messageText = "" ∧
      (m.handleSelection w).1.send.mobiles = "" ∧
      (m.handleSelection w).1.send.lineNumber = "" ∧
      (m.handleSelection w).1.send.config = some cfg ∧
      (m.handleSelection w).1.send.client = some (NewClient cfg)) ∧
    ((¬ ∃ cfg, (LoadConfig w).1 = .ok cfg ∧ cfg.APIKey ≠ "" ∧ cfg.LineNumber ≠ "") →
      m.handleSelection w = (m.toFreshSelector.1, .nil, (LoadConfig w).2) ∧
      (m.handleSelection w).1.state = stateSelector ∧
      (m.handleSelection w).1.selector
        = { NewSelectorModel with width := m.width, height := m.height } ∧
      (m.handleSelection w).1.selector.cursor = 0 ∧
      (m.handleSelection w).1.selector.Selected = "" ∧
      (m.handleSelection w).1.send = m.send) := by
  have hs := handleSelection_send w m h
  cases hL : (LoadConfig w).1 with
  | error e =>
    rw [hL] at hs
    simp only at hs
    refine ⟨?_, ?_, ?_⟩
    · rw [hs]
      constructor
      · intro h0
        exact absurd h0 (by show stateSelector ≠ stateSend; decide)
      · rintro ⟨cfg, hc, _⟩
        cases hc
    · intro cfg hc
      cases hc
    · intro _
      rw [hs]
      exact ⟨rfl, rfl, rfl, rfl, rfl, rfl⟩
  | ok cfg0 =>
    rw [hL] at hs
    simp only at hs
    by_cases hv : cfg0.APIKey ≠ "" ∧ cfg0.LineNumber ≠ ""
    · rw [if_pos hv] at hs
      refine ⟨?_, ?_, ?_⟩
      · rw [hs]
        exact ⟨fun _ => ⟨cfg0, rfl, hv.1, hv.2⟩, fun _ => rfl⟩
      · intro cfg hc _ _
        cases hc
        rw [hs]
        exact ⟨rfl, rfl, rfl, rfl, rfl, rfl, rfl⟩
      · intro hn
        exact absurd ⟨cfg0, rfl, hv.1, hv.2⟩ hn
    · rw [if_neg hv] at hs
      refine ⟨?_, ?_, ?_⟩
      · rw [hs]
        constructor
        · intro h0
          exact absurd h0 (by show stateSelector ≠ stateSend; decide)
        · rintro ⟨cfg, hc, h1, h2⟩
          cases hc
          exact absurd ⟨h1, h2⟩ hv
      · intro cfg hc h1 h2
        cases hc
        exact absurd ⟨h1, h2⟩ hv
      · intro _
        rw [hs]
        exact ⟨rfl, rfl, rfl, rfl, rfl, rfl⟩

theorem send_choice_needs_valid_credentials_witness :
    (({ launcherOnSelector 0 with
        selector := { NewSelectorModel with Selected := "📤 Send SMS" } } : LauncherModel).handleSelection
      validWorld).1.state = stateSend ∧
    (({ launcherOnSelector 0 with
        selector := { NewSelectorModel with Selected := "📤 Send SMS" } } : LauncherModel).handleSelection
      quietWorld).1.state = stateSelector :=
  ⟨(send_choice_needs_valid_credentials validWorld _ rfl).1.2
      ⟨⟨"key", "3000", defaultBaseURL⟩, rfl, by decide, by decide⟩,
    ((send_choice_needs_valid_credentials quietWorld
      ({ launcherOnSelector 0 with
        selector := { NewSelectorModel with Selected := "📤 Send SMS" } } : LauncherModel) rfl).2.2
      (by
        rintro ⟨cfg, hc, h1, _⟩
        have e : cfg = DefaultConfig := by
          have : (LoadConfig quietWorld).1 = .ok DefaultConfig := rfl
          rw [this] at hc
          cases hc
          rfl
        rw [e] at h1
        exact h1 rfl)).2.1⟩

theorem selector_enter_step (m : SelectorModel) (c : String)
    (hc : index m.choices m.cursor = some c) :
    m.Update (.KeyMsg (namedKey .KeyEnter)) = some ({ m with Selected := c }, .Quit) := by
  simp [SelectorModel.Update, enter_String, hc]

/-- C22 (the code at the failing input): the launcher reaches the selector after the startup
ticks, two presses of down put the cursor on the dashboard entry of the selector, whose
text is `🎨 Interactive Dashboard`, and the stored credentials load and validate. Enter
then leaves the launcher on the selector screen with a new selector and no command: the
dashboard is not opened and no fetch is emitted. The selection handler opens the dashboard,
with both fetches, only for the text `📊 Dashboard`, which no selector entry has. -/
theorem dashboard_entry_does_not_open_dashboard :
    LauncherModel.run validWorld NewLauncherModel
        (List.replicate 51 Msg.tickMsg ++
          [.KeyMsg (namedKey .KeyDown), .KeyMsg (namedKey .KeyDown)])
      = some (launcherOnSelector 2, validWorld) ∧
    index (launcherOnSelector 2).selector.choices (launcherOnSelector 2).selector.cursor
      = some "🎨 Interactive Dashboard" ∧
    (LoadConfig validWorld).1 = .ok ⟨"key", "3000", defaultBaseURL⟩ ∧
    (⟨"key", "3000", defaultBaseURL⟩ : Config).Validate = .ok () ∧
    (launcherOnSelector 2).Update validWorld (.KeyMsg (namedKey .KeyEnter))
      = some (launcherOnSelector 0, .nil, validWorld) ∧
    (launcherOnSelector 0).state = stateSelector ∧
    (launcherOnSelector 0).dashboard = NewLauncherModel.dashboard ∧
    (({ launcherOnSelector 2 with
        selector := { NewSelectorModel with Selected := "📊 Dashboard" } } : LauncherModel).handleSelection
      validWorld).1.state = stateDashboard ∧
    (({ launcherOnSelector 2 with
        selector := { NewSelectorModel with Selected := "📊 Dashboard" } } : LauncherModel).handleSelection
      validWorld).2.1 = .Batch [.loadCredit (some (NewClient ⟨"key", "3000", defaultBaseURL⟩)),
        .loadLines (some (NewClient ⟨"key", "3000", defaultBaseURL⟩))] :=
  ⟨rfl, rfl, rfl, rfl, rfl, rfl, rfl, rfl, rfl⟩

theorem handleSelection_command_line (w : World) (m : LauncherModel)
    (h : m.selector.Selected = "💻 Command Line Mode") :
    m.handleSelection w = ({ m with shouldRunHelp := true, state := stateExit }, .Quit, w) := by
  unfold LauncherModel.handleSelection
  have h1 : ¬ ("💻 Command Line Mode" = "🔧 Configure API Key & Line Number") := by decide
  have h2 : ¬ ("💻 Command Line Mode" = "📤 Send SMS") := by decide
  simp only [h, h1, h2, if_false, if_true]

theorem launcher_exit_step (w : World) (m : LauncherModel) (msg : Msg)
    (h : m.state = stateExit ∨ m.state = stateDone)
    (hmsg : ∀ wd ht, msg ≠ .WindowSizeMsg wd ht) :
    m.Update w msg = some (m, .Quit, w) := by
  rw [launcher_update_active w m msg hmsg]
  rcases h with h | h <;>
    simp [LauncherModel.updateActive, h, stateExit, stateDone, stateStartup, stateSelector,
      stateConfig, stateDashboard, stateSend, stateHelp]

/-- C23: with the launcher on the selector screen and the cursor on the command-line-mode
entry, enter puts the launcher in the exit state with the help flag set, so that
`ShouldRunHelp` returns true, and returns the quit command. From the exit state every event
is handled without panic and leaves the state id and the help flag as they are: a resize
only stores the new dimensions, and any other event leaves the launcher unchanged and
returns the quit command again. -/
theorem command_line_mode_exits_to_help (w : World) (m : LauncherModel) :
    (m.state = stateSelector → m.selector.choices = NewSelectorModel.choices →
      m.selector.cursor = 1 →
      m.Update w (.KeyMsg (namedKey .KeyEnter))
        = some ({ m with selector := { m.selector with Selected := "💻 Command Line Mode" },
                         shouldRunHelp := true, state := stateExit }, .Quit, w) ∧
      ({ m with selector := { m.selector with Selected := "💻 Command Line Mode" },
                shouldRunHelp := true, state := stateExit } : LauncherModel).ShouldRunHelp = true) ∧
    (m.state = stateExit → ∀ msg, ∃ m1 cmd, m.Update w msg = some (m1, cmd, w) ∧
      m1.state = stateExit ∧ m1.shouldRunHelp = m.shouldRunHelp ∧
      m1.ShouldRunHelp = m.ShouldRunHelp ∧
      ((∀ wd ht, msg ≠ .WindowSizeMsg wd ht) → m1 = m ∧ cmd = .Quit)) := by
  constructor
  · intro hs hch hcur
    have hmsg : ∀ wd ht, Msg.KeyMsg (namedKey .KeyEnter) ≠ .WindowSizeMsg wd ht := by
      intro _ _ h0; cases h0
    have hidx : index m.selector.choices m.selector.cursor = some "💻 Command Line Mode" := by
      rw [hch, hcur]; rfl
    rw [launcher_update_selector w m _ hs hmsg, selector_enter_step m.selector _ hidx]
    have hne : ¬ ("💻 Command Line Mode" = "") := by decide
    simp only [ne_eq, hne, not_false_eq_true, if_true]
    rw [handleSelection_command_line w _ rfl]
    exact ⟨rfl, rfl⟩
  · intro hs msg
    by_cases hmsg : ∀ wd ht, msg ≠ .WindowSizeMsg wd ht
    · rw [launcher_exit_step w m msg (Or.inl hs) hmsg]
      exact ⟨m, .Quit, rfl, hs, rfl, rfl, fun _ => ⟨rfl, rfl⟩⟩
    · have hmsg1 := hmsg
      push_neg at hmsg1
      obtain ⟨wd, ht, rfl⟩ := hmsg1
      obtain ⟨m1, hu, _, _, hst, _, hfl, _⟩ := resize_fields_aux w m wd ht
      exact ⟨m1, .nil, hu, by rw [hst, hs], hfl, by simp only [LauncherModel.ShouldRunHelp, hfl],
        fun h0 => absurd h0 hmsg⟩

theorem command_line_mode_exits_to_help_witness :
    (launcherOnSelector 1).Update quietWorld (.KeyMsg (namedKey .KeyEnter))
      = some ({ launcherOnSelector 1 with
                selector := { NewSelectorModel with cursor := 1, Selected := "💻 Command Line Mode" },
                shouldRunHelp := true, state := stateExit }, .Quit, quietWorld) ∧
    ∃ m1 cmd, ({ launcherOnSelector 1 with shouldRunHelp := true, state := stateExit } : LauncherModel).Update
        quietWorld (.creditMsg credit42_5) = some (m1, cmd, quietWorld) ∧
      m1.state = stateExit ∧ m1.shouldRunHelp = true :=
  ⟨((command_line_mode_exits_to_help quietWorld (launcherOnSelector 1)).1 rfl rfl rfl).1,
    by
      obtain ⟨m1, cmd, hu, hs, hf, _⟩ := (command_line_mode_exits_to_help quietWorld
        ({ launcherOnSelector 1 with shouldRunHelp := true, state := stateExit } : LauncherModel)).2
        rfl (.creditMsg credit42_5)
      exact ⟨m1, cmd, hu, hs, hf⟩⟩

theorem config_pasteBranch_guarded (w : World) (m : ConfigModel) (h : m.stepsGuarded) :
    (m.pasteBranch w).stepsGuarded := by
  unfold ConfigModel.pasteBranch
  split
  · exact h
  · split_ifs with h1 h2 h3
    · exact Or.inl h2
    · rcases h with h | h | h
      · exact absurd h h2
      · exact Or.inr (Or.inl ⟨h3, h.2⟩)
      · rw [h.1] at h3; exact absurd h3 (by decide)
    · exact h
    · exact h

theorem config_update_guarded (w : World) (m : ConfigModel) (msg : Msg) (h : m.stepsGuarded) :
    (m.Update w msg).1.stepsGuarded := by
  cases msg with
  | KeyMsg k =>
    by_cases hv : k.keyType = .KeyCtrlV
    · simp only [ConfigModel.Update, hv, if_true]
      exact config_pasteBranch_guarded w m h
    · by_cases hq : KeyMsg_String k = "ctrl+c" ∨ KeyMsg_String k = "q" ∨ KeyMsg_String k = "esc"
      · simp only [ConfigModel.Update, hv, hq, if_true, if_false]
        exact h
      · by_cases hp : KeyMsg_String k = "ctrl+v"
        · have e : (m.Update w (.KeyMsg k)).1 = m.pasteBranch w := by
            simp [ConfigModel.Update, hv, hp]
          rw [e]
          exact config_pasteBranch_guarded w m h
        · by_cases he : KeyMsg_String k = "enter"
          · by_cases h2 : m.step = 2
            · by_cases hsf : w.saveFails = true
              · simp only [ConfigModel.Update, hv, he, h2, Config.SaveConfig, hsf]
                simp only [ConfigModel.stepsGuarded] at h ⊢
                simp_all
              · simp only [ConfigModel.Update, hv, he, h2, Config.SaveConfig, hsf]
                simp only [ConfigModel.stepsGuarded] at h ⊢
                simp_all
            · simp only [ConfigModel.Update, hv, he, h2]
              simp only [ConfigModel.stepsGuarded] at h ⊢
              split_ifs <;> simp_all
          · by_cases hb : KeyMsg_String k = "backspace"
            · simp only [ConfigModel.Update, hv, hb]
              simp only [ConfigModel.stepsGuarded] at h ⊢
              split_ifs <;> simp_all
            · simp only [ConfigModel.Update, hv, hq, hp, he, hb]
              simp only [ConfigModel.stepsGuarded] at h ⊢
              split_ifs <;> simp_all
  | WindowSizeMsg wd ht => exact h
  | tickMsg => exact h
  | creditMsg c => exact h
  | linesMsg l => exact h
  | errMsg e => exact h
  | sendSuccessMsg r => exact h
  | sendErrorMsg e => exact h
  | otherMsg => exact h

theorem config_reachable_guarded (m : ConfigModel) (hr : m.Reachable) : m.stepsGuarded := by
  induction hr with
  | init => exact Or.inl rfl
  | step w msg _ ih => exact config_update_guarded w _ msg ih

theorem config_reachable_run (msgs : List Msg) :
    ∀ (w : World) (m : ConfigModel), m.Reachable → (ConfigModel.run w m msgs).1.Reachable := by
  induction msgs with
  | nil => intro w m hr; exact hr
  | cons msg rest ih =>
    intro w m hr
    exact ih _ _ (.step w msg hr)

theorem config_world_step (w : World) (m : ConfigModel) (msg : Msg) :
    (m.Update w msg).2.2 = w ∨
    (m.step = 2 ∧ (m.Update w msg).2.2
      = { w with stored := some ⟨m.apiKey, m.lineNumber, "https://api.sms.ir/v1"⟩ }) := by
  cases msg with
  | KeyMsg k =>
    by_cases hv : k.keyType = .KeyCtrlV
    · left; simp [ConfigModel.Update, hv]
    · by_cases hq : KeyMsg_String k = "ctrl+c" ∨ KeyMsg_String k = "q" ∨ KeyMsg_String k = "esc"
      · left; simp [ConfigModel.Update, hv, hq]
      · by_cases hp : KeyMsg_String k = "ctrl+v"
        · left; simp [ConfigModel.Update, hv, hp]
        · by_cases he : KeyMsg_String k = "enter"
          · by_cases h2 : m.step = 2
            · by_cases hsf : w.saveFails = true
              · left; simp [ConfigModel.Update, hv, he, h2, Config.SaveConfig, hsf]
              · right
                refine ⟨h2, ?_⟩
                simp [ConfigModel.Update, hv, he, h2, Config.SaveConfig, hsf]
            · left
              simp only [ConfigModel.Update, hv, he, h2]
              simp
              split_ifs <;> rfl
          · by_cases hb : KeyMsg_String k = "backspace"
            · left
              simp only [ConfigModel.Update, hv, hb]
              simp
              split_ifs <;> rfl
            · left
              simp only [ConfigModel.Update, hv, hq, hp, he, hb]
              simp
              split_ifs <;> rfl
  | WindowSizeMsg wd ht => exact Or.inl rfl
  | tickMsg => exact Or.inl rfl
  | creditMsg c => exact Or.inl rfl
  | linesMsg l => exact Or.inl rfl
  | errMsg e => exact Or.inl rfl
  | sendSuccessMsg r => exact Or.inl rfl
  | sendErrorMsg e => exact Or.inl rfl
  | otherMsg => exact Or.inl rfl

/-- C27: for every state that a new configuration wizard reaches by any sequence of events
(keys, pastes with any clipboard content, resizes and all other events), the wizard is on
the Line step only with a non-empty API key and on the Confirm step only with both drafts
non-empty; and every event it handles from there either leaves the credential file alone
or saves a record made of the two drafts, which are then non-empty, so that the record
passes credential validation. -/
theorem config_wizard_saves_valid_credentials (m : ConfigModel) (hr : m.Reachable) :
    (m.step = 1 → m.apiKey ≠ "") ∧
    (m.step = 2 → m.apiKey ≠ "" ∧ m.lineNumber ≠ "") ∧
    (∀ w msg, (m.Update w msg).2.2 = w ∨
      ∃ c : Config, (m.Update w msg).2.2 = { w with stored := some c } ∧
        c.APIKey = m.apiKey ∧ c.LineNumber = m.lineNumber ∧
        c.APIKey ≠ "" ∧ c.LineNumber ≠ "" ∧ c.Validate = .ok ()) := by
  have hg := config_reachable_guarded m hr
  have h1 : m.step = 1 → m.apiKey ≠ "" := by
    intro h
    rcases hg with g | g | g
    · rw [h] at g; exact absurd g (by decide)
    · exact g.2
    · exact g.2.1
  have h2 : m.step = 2 → m.apiKey ≠ "" ∧ m.lineNumber ≠ "" := by
    intro h
    rcases hg with g | g | g
    · rw [h] at g; exact absurd g (by decide)
    · rw [h] at g; exact absurd g.1 (by decide)
    · exact g.2
  refine ⟨h1, h2, ?_⟩
  intro w msg
  rcases config_world_step w m msg with hw | ⟨hstep, hw⟩
  · exact Or.inl hw
  · obtain ⟨ha, hl⟩ := h2 hstep
    exact Or.inr ⟨⟨m.apiKey, m.lineNumber, "https://api.sms.ir/v1"⟩, hw, rfl, rfl, ha, hl,
      (validate_ok_iff _).1.2 ⟨ha, hl⟩⟩

theorem confirmingConfig_reachable : confirmingConfig.Reachable := by
  have h := config_reachable_run fillConfigEvents quietWorld NewConfigModel .init
  have e : (ConfigModel.run quietWorld NewConfigModel fillConfigEvents).1 = confirmingConfig := by
    decide
  rw [e] at h
  exact h

theorem config_wizard_saves_valid_credentials_witness :
    confirmingConfig.step = 2 ∧ confirmingConfig.apiKey ≠ "" ∧ confirmingConfig.lineNumber ≠ "" ∧
    ∃ c : Config,
      (confirmingConfig.Update quietWorld (.KeyMsg (namedKey .KeyEnter))).2.2.stored = some c ∧
      c.Validate = .ok () :=
  ⟨rfl,
    ((config_wizard_saves_valid_credentials confirmingConfig confirmingConfig_reachable).2.1 rfl).1,
    ((config_wizard_saves_valid_credentials confirmingConfig confirmingConfig_reachable).2.1 rfl).2,
    ⟨⟨"K", "3000", "https://api.sms.ir/v1"⟩, by decide, rfl⟩⟩

theorem sendCmd_sendSMS_agree (cfg : Config) (client : Client) (m : SendModel) (remote : Remote)
    (hm : m.messageText ≠ "") (ht : m.mobiles ≠ "") (hcfg : m.config = some cfg)
    (hcl : m.client = some client) :
    ∃ r, m.sendSMS remote = some r ∧
      r.calls = (sendCmd cfg m.messageText m.mobiles m.lineNumber remote).2 ∧
      ((sendCmd cfg m.messageText m.mobiles m.lineNumber remote).1 = none ↔
        ∃ p, r.msg = .sendSuccessMsg p) ∧
      ((sendCmd cfg m.messageText m.mobiles m.lineNumber remote).1 ≠ none ↔
        ∃ e, r.msg = .sendErrorMsg e) := by
  unfold SendModel.sendSMS sendCmd
  simp only [hm, ht, hcfg, hcl, if_false, Option.map_some']
  by_cases hl : m.lineNumber = ""
  · by_cases hc : cfg.LineNumber = ""
    · simp [hl, hc]
    · simp only [hl, hc, if_true, if_false, ne_eq, not_true_eq_false]
      cases hp : strconv_ParseInt cfg.LineNumber with
      | error k => simp
      | ok n =>
        simp only
        cases remote _ with
        | error e => simp
        | ok resp => by_cases hs : resp.IsSuccess = true <;> simp [hs]
  · simp only [hl, if_false, ne_eq, not_false_eq_true, if_true]
    cases hp : strconv_ParseInt m.lineNumber with
    | error k => simp
    | ok n =>
      simp only
      cases remote _ with
      | error e => simp
      | ok resp => by_cases hs : resp.IsSuccess = true <;> simp [hs]

theorem sendCmd_by_chosenLine (cfg : Config) (message mobilesStr lineNumberStr : String)
    (remote : Remote) (hm : message ≠ "") (ht : mobilesStr ≠ "") :
    ((chosenLine lineNumberStr cfg.LineNumber = "" ∨
        ∃ k, strconv_ParseInt (chosenLine lineNumberStr cfg.LineNumber) = .error k) →
      (sendCmd cfg message mobilesStr lineNumberStr remote).2 = [] ∧
      (sendCmd cfg message mobilesStr lineNumberStr remote).1 ≠ none) ∧
    (∀ n, chosenLine lineNumberStr cfg.LineNumber ≠ "" →
      strconv_ParseInt (chosenLine lineNumberStr cfg.LineNumber) = .ok n →
      (sendCmd cfg message mobilesStr lineNumberStr remote).2
        = [{ LineNumber := n, MessageText := message,
             Mobiles := (strings_Split mobilesStr ',').map strings_TrimSpace }]) := by
  unfold chosenLine sendCmd
  simp only [hm, ht, if_false]
  by_cases hl : lineNumberStr = ""
  · by_cases hc : cfg.LineNumber = ""
    · simp [hl, hc]
    · simp only [hl, hc, if_true, if_false, ne_eq, not_true_eq_false, not_false_eq_true,
        false_or, forall_true_left]
      cases hp : strconv_ParseInt cfg.LineNumber with
      | error k => simp
      | ok n =>
        simp only
        cases remote _ with
        | error e => simp
        | ok resp => by_cases hs : resp.IsSuccess = true <;> simp [hs]
  · simp only [hl, if_false, ne_eq, not_false_eq_true, if_true, false_or, forall_true_left]
    cases hp : strconv_ParseInt lineNumberStr with
    | error k => simp
    | ok n =>
      simp only
      cases remote _ with
      | error e => simp
      | ok resp => by_cases hs : resp.IsSuccess = true <;> simp [hs]

theorem sendSMS_by_chosenLine (cfg : Config) (client : Client) (m : SendModel) (remote : Remote)
    (hcfg : m.config = some cfg) (hcl : m.client = some client) :
    ((chosenLine m.lineNumber cfg.LineNumber = "" ∨
        ∃ k, strconv_ParseInt (chosenLine m.lineNumber cfg.LineNumber) = .error k) →
      ∃ e, m.sendSMS remote = some ⟨.sendErrorMsg e, []⟩) ∧
    (∀ n, chosenLine m.lineNumber cfg.LineNumber ≠ "" →
      strconv_ParseInt (chosenLine m.lineNumber cfg.LineNumber) = .ok n →
      ∃ r, m.sendSMS remote = some r ∧
        r.calls = [{ LineNumber := n, MessageText := m.messageText,
                     Mobiles := (strings_Split m.mobiles ',').map strings_TrimSpace }]) := by
  have hres : (if m.lineNumber = "" then m.config.map (fun cfg => cfg.LineNumber)
      else some m.lineNumber) = some (chosenLine m.lineNumber cfg.LineNumber) := by
    unfold chosenLine
    by_cases hl : m.lineNumber = "" <;> simp [hl, hcfg]
  constructor
  · intro h
    unfold SendModel.sendSMS
    simp only [hres]
    rcases h with h | ⟨k, hk⟩
    · simp [h]
    · by_cases h0 : chosenLine m.lineNumber cfg.LineNumber = ""
      · simp [h0]
      · simp [h0, hk]
  · intro n hne hp
    exact sendSMS_with_line m remote _ hres hne n hp (by rw [hcl]; simp)

/-- C30: for every non-empty message, non-empty recipients string, line string and
configured default line, the command-line send command and the send effect of a send
wizard that holds the same texts agree. They submit the same requests to the remote and
succeed or fail together; when the chosen line text (the line string, or the configured
default when it is empty) is empty or is not an integer, both fail without any remote
call; when it parses to `n`, both submit the one request with the line `n`, the message
and the trimmed comma-separated recipients. -/
theorem cli_send_agrees_with_wizard (cfg : Config) (client : Client) (m : SendModel)
    (remote : Remote) (hm : m.messageText ≠ "") (ht : m.mobiles ≠ "")
    (hcfg : m.config = some cfg) (hcl : m.client = some client) :
    (∃ r, m.sendSMS remote = some r ∧
      r.calls = (sendCmd cfg m.messageText m.mobiles m.lineNumber remote).2 ∧
      ((sendCmd cfg m.messageText m.mobiles m.lineNumber remote).1 = none ↔
        ∃ p, r.msg = .sendSuccessMsg p) ∧
      ((sendCmd cfg m.messageText m.mobiles m.lineNumber remote).1 ≠ none ↔
        ∃ e, r.msg = .sendErrorMsg e)) ∧
    ((chosenLine m.lineNumber cfg.LineNumber = "" ∨
        ∃ k, strconv_ParseInt (chosenLine m.lineNumber cfg.LineNumber) = .error k) →
      (sendCmd cfg m.messageText m.mobiles m.lineNumber remote).2 = [] ∧
      (sendCmd cfg m.messageText m.mobiles m.lineNumber remote).1 ≠ none ∧
      ∃ e, m.sendSMS remote = some ⟨.sendErrorMsg e, []⟩) ∧
    (∀ n, chosenLine m.lineNumber cfg.LineNumber ≠ "" →
      strconv_ParseInt (chosenLine m.lineNumber cfg.LineNumber) = .ok n →
      (sendCmd cfg m.messageText m.mobiles m.lineNumber remote).2
        = [{ LineNumber := n, MessageText := m.messageText,
             Mobiles := (strings_Split m.mobiles ',').map strings_TrimSpace }] ∧
      ∃ r, m.sendSMS remote = some r ∧
        r.calls = [{ LineNumber := n, MessageText := m.messageText,
                     Mobiles := (strings_Split m.mobiles ',').map strings_TrimSpace }]) := by
  have hc := sendCmd_by_chosenLine cfg m.messageText m.mobiles m.lineNumber remote hm ht
  have hw := sendSMS_by_chosenLine cfg client m remote hcfg hcl
  refine ⟨sendCmd_sendSMS_agree cfg client m remote hm ht hcfg hcl, ?_, ?_⟩
  · intro h
    exact ⟨(hc.1 h).1, (hc.1 h).2, hw.1 h⟩
  · intro n hne hp
    exact ⟨hc.2 n hne hp, hw.2 n hne hp⟩

theorem cli_send_agrees_with_wizard_witness :
    (sendCmd ⟨"key", "3000", defaultBaseURL⟩ "hi" " 0912,0913 ,0914" "" acceptingRemote).2
      = [{ LineNumber := 3000, MessageText := "hi", Mobiles := ["0912", "0913", "0914"] }] ∧
    (∃ r, (confirmingSend "hi" " 0912,0913 ,0914" "" "3000").sendSMS acceptingRemote = some r ∧
      r.calls = [{ LineNumber := 3000, MessageText := "hi",
                   Mobiles := ["0912", "0913", "0914"] }]) ∧
    (sendCmd ⟨"key", "", defaultBaseURL⟩ "hi" "0912" "12a" acceptingRemote).2 = [] ∧
    (∃ e, (confirmingSend "hi" "0912" "12a" "").sendSMS acceptingRemote
      = some ⟨.sendErrorMsg e, []⟩) :=
  ⟨((cli_send_agrees_with_wizard ⟨"key", "3000", defaultBaseURL⟩
      (NewClient ⟨"key", "3000", defaultBaseURL⟩)
      (confirmingSend "hi" " 0912,0913 ,0914" "" "3000") acceptingRemote
      (by decide) (by decide) rfl rfl).2.2 3000 (by decide) rfl).1,
    ((cli_send_agrees_with_wizard ⟨"key", "3000", defaultBaseURL⟩
      (NewClient ⟨"key", "3000", defaultBaseURL⟩)
      (confirmingSend "hi" " 0912,0913 ,0914" "" "3000") acceptingRemote
      (by decide) (by decide) rfl rfl).2.2 3000 (by decide) rfl).2,
    ((cli_send_agrees_with_wizard ⟨"key", "", defaultBaseURL⟩
      (NewClient ⟨"key", "", defaultBaseURL⟩)
      (confirmingSend "hi" "0912" "12a" "") acceptingRemote
      (by decide) (by decide) rfl rfl).2.1 (Or.inr ⟨.ErrSyntax, rfl⟩)).1,
    ((cli_send_agrees_with_wizard ⟨"key", "", defaultBaseURL⟩
      (NewClient ⟨"key", "", defaultBaseURL⟩)
      (confirmingSend "hi" "0912" "12a" "") acceptingRemote
      (by decide) (by decide) rfl rfl).2.1 (Or.inr ⟨.ErrSyntax, rfl⟩)).2.2⟩

theorem index_mem {α : Type} (xs : List α) (i : Int) (c : α) (h : index xs i = some c) :
    c ∈ xs := by
  unfold index at h
  split_ifs at h
  exact List.get?_mem h

theorem selector_update_props (m sm : SelectorModel) (cmd : Cmd) (msg : Msg)
    (hu : m.Update msg = some (sm, cmd)) :
    sm.choices = m.choices ∧ (sm.Selected = m.Selected ∨ sm.Selected ∈ m.choices) := by
  cases msg with
  | KeyMsg k =>
    by_cases hq : KeyMsg_String k = "ctrl+c" ∨ KeyMsg_String k = "q"
    · simp [SelectorModel.Update, hq] at hu
      rw [← hu.1]
      exact ⟨rfl, Or.inl rfl⟩
    · by_cases he : KeyMsg_String k = "enter"
      · simp only [SelectorModel.Update, he] at hu
        simp at hu
        cases hi : index m.choices m.cursor with
        | none => rw [hi] at hu; simp at hu
        | some c =>
          rw [hi] at hu
          simp at hu
          rw [← hu.1]
          exact ⟨rfl, Or.inr (index_mem _ _ _ hi)⟩
      · simp [SelectorModel.Update, hq, he] at hu
        split_ifs at hu <;> simp at hu <;> rw [← hu.1] <;> exact ⟨rfl, Or.inl rfl⟩
  | WindowSizeMsg wd ht =>
    simp [SelectorModel.Update] at hu
    rw [← hu.1]
    exact ⟨rfl, Or.inl rfl⟩
  | tickMsg => simp [SelectorModel.Update] at hu; rw [← hu.1]; exact ⟨rfl, Or.inl rfl⟩
  | creditMsg c => simp [SelectorModel.Update] at hu; rw [← hu.1]; exact ⟨rfl, Or.inl rfl⟩
  | linesMsg l => simp [SelectorModel.Update] at hu; rw [← hu.1]; exact ⟨rfl, Or.inl rfl⟩
  | errMsg e => simp [SelectorModel.Update] at hu; rw [← hu.1]; exact ⟨rfl, Or.inl rfl⟩
  | sendSuccessMsg r => simp [SelectorModel.Update] at hu; rw [← hu.1]; exact ⟨rfl, Or.inl rfl⟩
  | sendErrorMsg e => simp [SelectorModel.Update] at hu; rw [← hu.1]; exact ⟨rfl, Or.inl rfl⟩
  | otherMsg => simp [SelectorModel.Update] at hu; rw [← hu.1]; exact ⟨rfl, Or.inl rfl⟩

theorem handleSelection_menu (w : World) (m : LauncherModel)
    (h : m.selector.Selected ∈ NewSelectorModel.choices) :
    m.handleSelection w
        = ({ m with state := stateConfig,
                    config := { NewConfigModel with width := m.width, height := m.height } },
            .nil, w) ∨
    m.handleSelection w = ({ m with shouldRunHelp := true, state := stateExit }, .Quit, w) ∨
    m.handleSelection w = (m.toFreshSelector.1, .nil, w) := by
  simp only [NewSelectorModel, List.mem_cons, List.mem_singleton, List.not_mem_nil, or_false] at h
  rcases h with h | h | h
  · left
    unfold LauncherModel.handleSelection
    simp only [h, if_true]
  · right; left
    exact handleSelection_command_line w m h
  · right; right
    unfold LauncherModel.handleSelection
    have h1 : ¬ ("🎨 Interactive Dashboard" = "🔧 Configure API Key & Line Number") := by decide
    have h2 : ¬ ("🎨 Interactive Dashboard" = "📤 Send SMS") := by decide
    have h3 : ¬ ("🎨 Interactive Dashboard" = "💻 Command Line Mode") := by decide
    have h4 : ¬ ("🎨 Interactive Dashboard" = "📊 Dashboard") := by decide
    simp only [h, h1, h2, h3, h4, if_false]
    rfl

theorem menuInv_resize (w : World) (m m1 : LauncherModel) (cmd : Cmd) (w1 : World)
    (wd ht : Int) (h : m.MenuInv)
    (hu : m.Update w (.WindowSizeMsg wd ht) = some (m1, cmd, w1)) : m1.MenuInv := by
  obtain ⟨m2, h2, _, _, hst, _, _, hsu, hsel, hcfg, hdash, hsend⟩ := resize_fields_aux w m wd ht
  rw [h2] at hu
  have e : m2 = m1 := congrArg Prod.fst (Option.some.inj hu)
  subst e
  obtain ⟨hch, hstates, hstart, hw1, hw2, hw3, hw4, hw5⟩ := h
  have hc1 : m2.config.completed = m.config.completed ∧ m2.config.quitting = m.config.quitting := by
    rw [hcfg]; split_ifs <;> exact ⟨rfl, rfl⟩
  have hd1 : m2.dashboard.quitting = m.dashboard.quitting := by
    rw [hdash]; split_ifs <;> rfl
  have hs1 : m2.send.quitting = m.send.quitting := by
    rw [hsend]; split_ifs <;> rfl
  refine ⟨by rw [hsel]; exact hch, by rw [hst]; exact hstates, ?_, ?_, ?_, ?_, ?_, ?_⟩
  · intro h0; rw [hsel]; exact hstart (hst ▸ h0)
  · intro h0; rw [hsu]; exact hw1 (hst ▸ h0)
  · intro h0; rw [hsel]; exact hw2 (hst ▸ h0)
  · intro h0; rw [hc1.1, hc1.2]; exact hw3 (hst ▸ h0)
  · intro h0; rw [hd1]; exact hw4 (hst ▸ h0)
  · intro h0; rw [hs1]; exact hw5 (hst ▸ h0)

theorem menuInv_of_startup (m : LauncherModel) (hch : m.selector.choices = NewSelectorModel.choices)
    (hs : m.state = stateStartup) (hc : m.startup.completed = false)
    (hsel : m.selector.Selected = "" ∧ m.selector.quitting = false) : m.MenuInv := by
  refine ⟨hch, Or.inl hs, fun _ => hsel, fun _ => hc, ?_, ?_, ?_, ?_⟩ <;>
    (intro h0; rw [hs] at h0; exact absurd h0 (by decide))

theorem menuInv_of_selector (m : LauncherModel) (hch : m.selector.choices = NewSelectorModel.choices)
    (hs : m.state = stateSelector)
    (hsel : m.selector.Selected = "" ∧ m.selector.quitting = false) : m.MenuInv := by
  refine ⟨hch, Or.inr (Or.inl hs), ?_, ?_, fun _ => hsel, ?_, ?_, ?_⟩ <;>
    (intro h0; rw [hs] at h0; exact absurd h0 (by decide))

theorem menuInv_of_config (m : LauncherModel) (hch : m.selector.choices = NewSelectorModel.choices)
    (hs : m.state = stateConfig)
    (hc : m.config.completed = false ∧ m.config.quitting = false) : m.MenuInv := by
  refine ⟨hch, Or.inr (Or.inr (Or.inl hs)), ?_, ?_, ?_, fun _ => hc, ?_, ?_⟩ <;>
    (intro h0; rw [hs] at h0; exact absurd h0 (by decide))

theorem menuInv_of_final (m : LauncherModel) (hch : m.selector.choices = NewSelectorModel.choices)
    (hs : m.state = stateDone ∨ m.state = stateExit) : m.MenuInv := by
  rcases hs with hs | hs
  · refine ⟨hch, Or.inr (Or.inr (Or.inr (Or.inl hs))), ?_, ?_, ?_, ?_, ?_, ?_⟩ <;>
      (intro h0; rw [hs] at h0; exact absurd h0 (by decide))
  · refine ⟨hch, Or.inr (Or.inr (Or.inr (Or.inr hs))), ?_, ?_, ?_, ?_, ?_, ?_⟩ <;>
      (intro h0; rw [hs] at h0; exact absurd h0 (by decide))

theorem menuInv_step (w : World) (m m1 : LauncherModel) (cmd : Cmd) (w1 : World) (msg : Msg)
    (h : m.MenuInv) (hu : m.Update w msg = some (m1, cmd, w1)) : m1.MenuInv := by
  by_cases hmsg : ∀ wd ht, msg ≠ .WindowSizeMsg wd ht
  · obtain ⟨hch, hstates, hstart, hw1, hw2, hw3, _, _⟩ := h
    rcases hstates with hs | hs | hs | hs | hs
    · rw [launcher_startup_step w m msg hs hmsg] at hu
      split_ifs at hu with hc
      · have e := congrArg Prod.fst (Option.some.inj hu)
        simp only at e
        rw [← e]
        exact menuInv_of_selector _ hch rfl (hstart hs)
      · have e := congrArg Prod.fst (Option.some.inj hu)
        simp only at e
        rw [← e]
        exact menuInv_of_startup _ hch hs (by simpa using hc) (hstart hs)
    · rw [launcher_update_selector w m msg hs hmsg] at hu
      cases hsu : m.selector.Update msg with
      | none => rw [hsu] at hu; exact absurd hu (by simp)
      | some r =>
        obtain ⟨sm, c⟩ := r
        obtain ⟨hp1, hp2⟩ := selector_update_props m.selector sm c msg hsu
        rw [hsu] at hu
        simp only at hu
        split_ifs at hu with hsel hq
        · have hmem : sm.Selected ∈ NewSelectorModel.choices := by
            rcases hp2 with hp | hp
            · rw [hp, (hw2 hs).1] at hsel; exact absurd rfl hsel
            · rw [← hch]; exact hp
          have e : (({ m with selector := sm } : LauncherModel).handleSelection w).1 = m1 :=
            congrArg Prod.fst (Option.some.inj hu)
          rw [← e]
          rcases handleSelection_menu w ({ m with selector := sm } : LauncherModel) hmem
            with hh | hh | hh
          · rw [hh]
            exact menuInv_of_config _ (by rw [← hch]; exact hp1) rfl ⟨rfl, rfl⟩
          · rw [hh]
            exact menuInv_of_final _ (by rw [← hch]; exact hp1) (Or.inr rfl)
          · rw [hh]
            exact menuInv_of_selector _ rfl rfl ⟨rfl, rfl⟩
        · have e := congrArg Prod.fst (Option.some.inj hu)
          simp only at e
          rw [← e]
          exact menuInv_of_final _ (by rw [← hch]; exact hp1) (Or.inl rfl)
        · have e := congrArg Prod.fst (Option.some.inj hu)
          simp only at e
          rw [← e]
          exact menuInv_of_selector _ (by rw [← hch]; exact hp1) hs
            ⟨by simpa using hsel, by simpa using hq⟩
    · rw [launcher_update_config w m msg hs hmsg] at hu
      split_ifs at hu with hf
      · have e := congrArg Prod.fst (Option.some.inj hu)
        simp only at e
        rw [← e]
        exact menuInv_of_selector _ rfl rfl ⟨rfl, rfl⟩
      · have e := congrArg Prod.fst (Option.some.inj hu)
        simp only at e
        rw [← e]
        refine menuInv_of_config _ hch hs ?_
        simpa using hf
    · rw [launcher_exit_step w m msg (Or.inr hs) hmsg] at hu
      have e := congrArg Prod.fst (Option.some.inj hu)
      simp only at e
      rw [← e]
      exact menuInv_of_final _ hch (Or.inl hs)
    · rw [launcher_exit_step w m msg (Or.inl hs) hmsg] at hu
      have e := congrArg Prod.fst (Option.some.inj hu)
      simp only at e
      rw [← e]
      exact menuInv_of_final _ hch (Or.inr hs)
  · push_neg at hmsg
    obtain ⟨wd, ht, rfl⟩ := hmsg
    exact menuInv_resize w m m1 cmd w1 wd ht h hu

theorem launcher_reachable_menuInv (m : LauncherModel) (hr : m.Reachable) : m.MenuInv := by
  induction hr with
  | init => exact menuInv_of_startup _ rfl rfl rfl ⟨rfl, rfl⟩
  | step msg _ hu ih => exact menuInv_step _ _ _ _ _ msg ih hu

theorem launcher_ignores_event (w : World) (m : LauncherModel) (msg : Msg) (hw : m.Waiting)
    (hmsg : ∀ wd ht, msg ≠ .WindowSizeMsg wd ht) (hkey : ∀ k, msg ≠ .KeyMsg k)
    (h1 : m.state = stateStartup → m.startup.Update msg = (m.startup, .nil))
    (h2 : m.state = stateSelector → m.selector.Update msg = some (m.selector, .nil))
    (h3 : m.state = stateConfig → m.config.Update w msg = (m.config, .nil, w))
    (h4 : m.state = stateDashboard → m.dashboard.Update msg = (m.dashboard, .nil))
    (h5 : m.state = stateSend → m.send.Update w msg = some (m.send, .nil)) :
    (m.state ≠ stateDone → m.state ≠ stateExit → m.Update w msg = some (m, .nil, w)) ∧
    (m.state = stateDone ∨ m.state = stateExit → m.Update w msg = some (m, .Quit, w)) := by
  obtain ⟨hw1, hw2, hw3, hw4, hw5⟩ := hw
  refine ⟨?_, fun h => launcher_exit_step w m msg h.symm hmsg⟩
  intro hnd hne
  by_cases hs1 : m.state = stateStartup
  · rw [launcher_startup_step w m msg hs1 hmsg, h1 hs1]
    simp only [hw1 hs1, Bool.false_eq_true, if_false]
  · by_cases hs2 : m.state = stateSelector
    · rw [launcher_update_selector w m msg hs2 hmsg, h2 hs2]
      simp only [(hw2 hs2).1, (hw2 hs2).2, ne_eq, not_true_eq_false, Bool.false_eq_true, if_false]
    · by_cases hs3 : m.state = stateConfig
      · rw [launcher_update_config w m msg hs3 hmsg, h3 hs3]
        simp only [(hw3 hs3).1, (hw3 hs3).2, Bool.false_eq_true, or_self, if_false]
      · by_cases hs4 : m.state = stateDashboard
        · rw [launcher_update_dashboard w m msg hs4 hmsg, h4 hs4]
          simp only [hw4 hs4, Bool.false_eq_true, if_false]
        · by_cases hs5 : m.state = stateSend
          · rw [launcher_update_send w m msg hs5 hmsg, h5 hs5]
            simp only [hw5 hs5, Bool.false_eq_true, if_false]
          · rw [launcher_update_active w m msg hmsg]
            simp only [LauncherModel.updateActive, hs1, hs2, hs3, hs4, hs5, hnd, hne, if_false,
              or_self]
            split_ifs
            · cases msg with
              | KeyMsg k => exact absurd rfl (hkey k)
              | _ => rfl
            · rfl

/-- C26 (amended): for every launcher state that is waiting on its active screen, as every
state reached from the initial launcher is, an effect-result event (balance result, lines
result, fetch error, send success, send failure, timer tick) that arrives while the active
screen is not the variant that issues that kind of effect leaves the launcher state
unchanged. No command is returned, except in the terminal done and exit states, where the
launcher returns the quit command again. -/
theorem stale_result_is_ignored (w : World) (m : LauncherModel) (msg : Msg) (hw : m.Waiting)
    (hst : staleResult m msg) :
    (m.state ≠ stateDone → m.state ≠ stateExit → m.Update w msg = some (m, .nil, w)) ∧
    (m.state = stateDone ∨ m.state = stateExit → m.Update w msg = some (m, .Quit, w)) ∧
    (∀ m0 : LauncherModel, m0.Reachable → m0.Waiting) := by
  have hreach : ∀ m0 : LauncherModel, m0.Reachable → m0.Waiting :=
    fun m0 h0 => (launcher_reachable_menuInv m0 h0).2.2.2
  cases msg with
  | creditMsg c =>
    have h := launcher_ignores_event w m (.creditMsg c) hw (by intro _ _ h0; cases h0)
      (by intro _ h0; cases h0) (fun _ => rfl) (fun _ => rfl) (fun _ => rfl)
      (fun h0 => absurd h0 hst) (fun _ => rfl)
    exact ⟨h.1, h.2, hreach⟩
  | linesMsg l =>
    have h := launcher_ignores_event w m (.linesMsg l) hw (by intro _ _ h0; cases h0)
      (by intro _ h0; cases h0) (fun _ => rfl) (fun _ => rfl) (fun _ => rfl)
      (fun h0 => absurd h0 hst) (fun _ => rfl)
    exact ⟨h.1, h.2, hreach⟩
  | errMsg e =>
    have h := launcher_ignores_event w m (.errMsg e) hw (by intro _ _ h0; cases h0)
      (by intro _ h0; cases h0) (fun _ => rfl) (fun _ => rfl) (fun _ => rfl)
      (fun h0 => absurd h0 hst) (fun _ => rfl)
    exact ⟨h.1, h.2, hreach⟩
  | sendSuccessMsg r =>
    have h := launcher_ignores_event w m (.sendSuccessMsg r) hw (by intro _ _ h0; cases h0)
      (by intro _ h0; cases h0) (fun _ => rfl) (fun _ => rfl) (fun _ => rfl)
      (fun _ => rfl) (fun h0 => absurd h0 hst)
    exact ⟨h.1, h.2, hreach⟩
  | sendErrorMsg e =>
    have h := launcher_ignores_event w m (.sendErrorMsg e) hw (by intro _ _ h0; cases h0)
      (by intro _ h0; cases h0) (fun _ => rfl) (fun _ => rfl) (fun _ => rfl)
      (fun _ => rfl) (fun h0 => absurd h0 hst)
    exact ⟨h.1, h.2, hreach⟩
  | tickMsg =>
    have h := launcher_ignores_event w m .tickMsg hw (by intro _ _ h0; cases h0)
      (by intro _ h0; cases h0) (fun h0 => absurd h0 hst) (fun _ => rfl) (fun _ => rfl)
      (fun _ => rfl) (fun _ => rfl)
    exact ⟨h.1, h.2, hreach⟩
  | WindowSizeMsg wd ht => exact absurd hst id
  | KeyMsg k => exact absurd hst id
  | otherMsg => exact absurd hst id

theorem launcherOnSelector_reachable : (launcherOnSelector 0).Reachable :=
  launcher_reachable_run (List.replicate 51 Msg.tickMsg) quietWorld NewLauncherModel
    (launcherOnSelector 0) quietWorld .init rfl

theorem stale_result_is_ignored_witness :
    (launcherOnSelector 0).Update quietWorld (.creditMsg credit42_5)
      = some (launcherOnSelector 0, .nil, quietWorld) ∧
    (launcherOnSelector 0).Update quietWorld (.sendErrorMsg (some (.external "timeout")))
      = some (launcherOnSelector 0, .nil, quietWorld) :=
  ⟨(stale_result_is_ignored quietWorld (launcherOnSelector 0) (.creditMsg credit42_5)
      (launcher_reachable_menuInv _ launcherOnSelector_reachable).2.2.2
      (by show (launcherOnSelector 0).state ≠ stateDashboard; decide)).1
      (by decide) (by decide),
    (stale_result_is_ignored quietWorld (launcherOnSelector 0)
      (.sendErrorMsg (some (.external "timeout")))
      (launcher_reachable_menuInv _ launcherOnSelector_reachable).2.2.2
      (by show (launcherOnSelector 0).state ≠ stateSend; decide)).1
      (by decide) (by decide)⟩

/-- C26 (counterexample): the launcher reaches the exit state when the command-line-mode
entry is chosen; a balance result that arrives then, while the dashboard is not the active
screen, leaves the state unchanged but is answered with the quit command: an effect is
emitted. -/
theorem stale_result_in_exit_state_returns_quit :
    LauncherModel.run quietWorld NewLauncherModel
        (List.replicate 51 Msg.tickMsg ++
          [.KeyMsg (namedKey .KeyDown), .KeyMsg (namedKey .KeyEnter)])
      = some (launcherAtExit, quietWorld) ∧
    staleResult launcherAtExit (.creditMsg credit42_5) ∧
    launcherAtExit.Update quietWorld (.creditMsg credit42_5)
      = some (launcherAtExit, .Quit, quietWorld) ∧
    Cmd.Quit ≠ Cmd.nil := by
  refine ⟨rfl, ?_, rfl, by simp⟩
  show launcherAtExit.state ≠ stateDashboard
  decide

/-- C28: for every launcher state reached from the initial launcher by any finite sequence
of events, the active screen is neither the send wizard nor the dashboard. The selector
keeps its three fixed entries, an event leaves its selected choice as it was or sets it to
one of these entries, and none of them is the text of the send branch or of the dashboard
branch of the selection handler. -/
theorem menu_never_opens_send_or_dashboard (m : LauncherModel) (hr : m.Reachable) :
    m.state ≠ stateSend ∧ m.state ≠ stateDashboard ∧
    m.selector.choices = NewSelectorModel.choices ∧
    (∀ msg sm cmd, m.selector.Update msg = some (sm, cmd) →
      sm.Selected = m.selector.Selected ∨ sm.Selected ∈ NewSelectorModel.choices) ∧
    "📤 Send SMS" ∉ NewSelectorModel.choices ∧ "📊 Dashboard" ∉ NewSelectorModel.choices := by
  obtain ⟨hch, hstates, _, _⟩ := launcher_reachable_menuInv m hr
  refine ⟨?_, ?_, hch, ?_, by decide, by decide⟩
  · rcases hstates with h | h | h | h | h <;> rw [h] <;> decide
  · rcases hstates with h | h | h | h | h <;> rw [h] <;> decide
  · intro msg sm cmd hu
    have hp := (selector_update_props m.selector sm cmd msg hu).2
    rw [hch] at hp
    exact hp

theorem menu_never_opens_send_or_dashboard_witness :
    (launcherOnSelector 0).state ≠ stateSend ∧ (launcherOnSelector 0).state ≠ stateDashboard :=
  ⟨(menu_never_opens_send_or_dashboard (launcherOnSelector 0) launcherOnSelector_reachable).1,
    (menu_never_opens_send_or_dashboard (launcherOnSelector 0) launcherOnSelector_reachable).2.1⟩

end SmsirCli
